import Mathlib

/-!
Phoenix-Chain node assembly: `eth.New` and its collaborators.

A shallow embedding of `src/ethereum/eth/backend.go`.  The constructor `New` is
sequential code that talks to collaborators (databases, the file system, the
chain module, the consensus engine).  Every collaborator call is recorded as an
`Event` in a trace, and the answer of the collaborator is read from a `World`
record, so that a run of `New` is a function from `World × Config` to a trace
and a result.

The lifecycle methods of the same file (`Start`, `Stop`, `StartMining`,
`isLocalBlock`) are functions from a `Service` record to the calls made and the
state left behind.  `VerifyTxData` of `src/pos/plugin/base_plugin.go` and the
journal of `src/libs/common/mock/journal.go` are embedded as pure functions,
with the packages they call as parameters.
-/

namespace PhoenixChain

/-! ## Plain values -/

/-- Block and genesis hashes (`common.Hash`). -/
abbrev Hash := Nat

/-- Account addresses (`common.Address`). -/
abbrev Address := Nat

/-- A database handle, named by the ordinal of the open call that returned it:
`0` for the handle opened first, `1` for the one reopened by the recovery gate. -/
abbrev Handle := Nat

/-- Error values that travel through `New`. -/
inductive Err where
  /-- `snapshotdb.ErrNotFound`. -/
  | errNotFound
  /-- A `*configs.ConfigCompatError`. -/
  | configCompat (code : Nat)
  /-- Any other error value handed back by a collaborator. -/
  | external (code : Nat)
  /-- An error built in `New` itself by `errors.New` or `fmt.Errorf`. -/
  | message (msg : String)
  deriving DecidableEq, Repr

/-- The directories the recovery gate removes. -/
inductive Dir where
  /-- `ctx.ResolveFreezerPath("chaindata", config.DatabaseFreezer)`. -/
  | freezer
  /-- `ctx.ResolvePath("chaindata")`. -/
  | chaindata
  /-- `ctx.ResolvePath(wal.WalDir(ctx))`. -/
  | wal
  /-- `ctx.ResolvePath(snapshotdb.DBPath)`. -/
  | snapshotdb
  deriving DecidableEq, Repr

/-- A genesis specification (`core.Genesis`), kept abstract. -/
structure Genesis where
  id : Nat
  deriving DecidableEq, Repr

/-- The PBFT part of the chain configuration (`chainConfig.Pbft`). -/
structure PbftConfig where
  Period : Nat
  Amount : Nat
  ValidatorMode : String
  InitialNodes : List Nat
  deriving DecidableEq, Repr

/-- The chain configuration returned by genesis setup (`configs.ChainConfig`). -/
structure ChainConfig where
  ChainID : Nat
  Pbft : PbftConfig
  deriving DecidableEq, Repr

/-- Rule tags of package `xcom` used by `handlePlugin`. -/
inductive Rule where
  | StakingRule
  | SlashingRule
  | RestrictingRule
  | RewardRule
  | GovernanceRule
  | CollectDeclareVersionRule
  deriving DecidableEq, Repr

/-- The validator agency handed to the engine (`consensus.Agency`). -/
inductive Agency where
  /-- `validator.NewStaticAgency(nodes)`. -/
  | static (nodes : List Nat)
  /-- `validator.NewInnerAgency(nodes, chain, blocksPerNode, offset)`. -/
  | inner (nodes : List Nat) (blocksPerNode offset : Int)
  /-- The block-chain reactor itself. -/
  | reactor
  deriving DecidableEq, Repr

/-- The part of `eth.Config` that `New` reads. -/
structure Config where
  /-- `config.SyncMode`, a `downloader.SyncMode` value. -/
  SyncMode : Nat
  /-- `config.Miner.GasPrice`, a `*big.Int`. -/
  MinerGasPrice : Option Int
  /-- `config.Miner.GasFloor`, a `uint64`. -/
  MinerGasFloor : Nat
  DatabaseFreezer : String
  Genesis : Option Genesis
  /-- `config.PbftConfig.Period`. -/
  PbftPeriod : Nat
  /-- `config.PbftConfig.Amount`. -/
  PbftAmount : Nat
  SkipBcVersionCheck : Bool
  NetworkId : Nat
  /-- `config.TxPool.Journal`. -/
  TxPoolJournal : String
  /-- `config.TxPool.Locals`. -/
  TxPoolLocals : List Address
  /-- `config.GPO.Default`. -/
  GPODefault : Option Int
  deriving DecidableEq, Repr

/-! ## Collaborator calls and their answers -/

/-- One collaborator call made by `New`, in the order of the source text. -/
inductive Event where
  | openChainDb (k : Handle)
  | setDBOptions
  | openSnapshotDb (k : Handle)
  | readHeadHeaderNumber (chainDb : Handle)
  | getBaseDB (snapshotDb : Handle)
  | readCanonicalHash (chainDb : Handle) (number : Nat)
  | closeChainDb (k : Handle)
  | closeSnapshotDb (k : Handle)
  | removeAll (d : Dir)
  | initGenesis
  | setupGenesisBlock (chainDb snapshotDb : Handle) (genesis : Option Genesis)
  | createConsensusEngine (pbft : PbftConfig)
  | newBloomIndexer (chainDb : Handle)
  | readDatabaseVersion (chainDb : Handle)
  | writeDatabaseVersion (chainDb : Handle) (version : Nat)
  | newBlockChain (chainDb : Handle) (chainConfig : ChainConfig)
  | setDBBlockChain
  | newBlockChainCache
  | bloomIndexerStart
  | newTxPool (journal : String)
  | senderCacherSetTxPool
  | governMaxBlockGasLimit (number : Nat) (hash : Hash)
  | minerNew
  | newBlockChainReactor (chainID : Nat)
  | setCryptoPrivateKey
  | newExecutor
  | newStaticAgency (nodes : List Nat)
  | newInnerAgency (nodes : List Nat) (blocksPerNode offset : Int)
  | reactorStart (mode : String)
  | reactorSetVRFhandler
  | reactorSetPluginEventMux
  | reactorSetPrivateKey
  | rewardSetCurrentNodeID
  | registerPlugin (rule : Rule)
  | slashSetDecodeEvidenceFun
  | govSetChainID
  | setBeginRule (rules : List Rule)
  | setEndRule (rules : List Rule)
  | registerGovernParamVerifiers
  | getBlockByNumber (number : Nat)
  | execute (number parent : Nat)
  | commit (number : Nat)
  | engineStart (agency : Option Agency)
  | newProtocolManager (chainDb : Handle) (cacheLimit : Nat)
  | newOracle (default : Option Int)
  deriving DecidableEq, Repr

/-- What `core.SetupGenesisBlock` hands back: a chain configuration and an error. -/
structure GenesisSetup where
  chainConfig : ChainConfig
  genesisErr : Option Err
  deriving DecidableEq, Repr

/-- The answers of the collaborators during one run of `New`, together with the
constants of other packages that `New` compares against. -/
structure World where
  /-- `downloader2.LightSync`. -/
  LightSync : Nat
  /-- `SyncMode.IsValid()` on each sync mode value. -/
  syncModeIsValid : Nat → Bool
  /-- `common.STATIC_VALIDATOR_MODE`. -/
  STATIC_VALIDATOR_MODE : String
  /-- `common.INNER_VALIDATOR_MODE`. -/
  INNER_VALIDATOR_MODE : String
  /-- `common.DPOS_VALIDATOR_MODE`. -/
  DPOS_VALIDATOR_MODE : String
  /-- Outcome of the `k`-th `ctx.OpenDatabaseWithFreezer("chaindata", ...)`. -/
  openChainDb : Handle → Option Err
  /-- Outcome of the `k`-th `snapshotdb.Open`. -/
  openSnapshotDb : Handle → Option Err
  /-- `rawdb.ReadHeaderNumber(chainDb, rawdb.ReadHeadHeaderHash(chainDb))`. -/
  headHeaderNumber : Option Nat
  /-- `snapshotBaseDB.GetBaseDB([]byte(downloader2.KeyFastSyncStatus))`. -/
  getBaseDB : Except Err (List Nat)
  /-- `rawdb.ReadCanonicalHash(chainDb, 0)` on the handle opened first. -/
  canonicalHash0 : Hash
  /-- Outcome of `Close` on the `k`-th snapshot DB handle. -/
  closeSnapshotDb : Handle → Option Err
  /-- Outcome of `os.RemoveAll` on a directory. -/
  removeAll : Dir → Option Err
  /-- `configs.MainnetGenesisHash`. -/
  MainnetGenesisHash : Hash
  /-- `InitGenesisAndSetEconomicConfig(ctx.GenesisPath())` on a fresh genesis. -/
  initGenesis : Except Err Genesis
  /-- `core.SetupGenesisBlock(chainDb, snapshotBaseDB, config.Genesis)`. -/
  setupGenesisBlock : Handle → Handle → Option Genesis → GenesisSetup
  /-- `rawdb.ReadDatabaseVersion(chainDb)`. -/
  readDatabaseVersion : Handle → Option Nat
  /-- `core.BlockChainVersion`. -/
  BlockChainVersion : Nat
  /-- `configs.VersionWithMeta`. -/
  VersionWithMeta : String
  /-- `DefaultConfig.Miner.GasPrice`. -/
  defaultGasPrice : Int
  /-- Outcome of `core.NewBlockChain`. -/
  newBlockChain : Option Err
  /-- `ctx.ResolvePath`. -/
  resolvePath : String → String
  /-- Number and hash of `eth.blockchain.CurrentBlock()`. -/
  currentBlock : Nat × Hash
  /-- `gov.GovernMaxBlockGasLimit(number, hash)`, a Go `int` and an error. -/
  governMaxBlockGasLimit : Nat → Hash → Except Err Int
  /-- Whether `pbft.New` hands back an engine (a non-nil value). -/
  pbftNew : Bool
  /-- Whether `eth.engine.(consensus.Bft)` succeeds. -/
  engineIsBft : Bool
  /-- `sdb.GetCurrent().GetHighest(false).Num.Uint64()`. -/
  snapshotHighest : Nat
  /-- `blockChainCache.CurrentHeader().Number.Uint64()`. -/
  currentHeaderNumber : Nat
  /-- Outcome of `blockChainCache.Execute` on block `i`. -/
  execute : Nat → Option Err
  /-- Outcome of `sdb.Commit` at the hash of block `i`. -/
  commit : Nat → Option Err
  /-- Outcome of `engine.Start`. -/
  engineStart : Option Err
  /-- Outcome of `NewProtocolManager`. -/
  newProtocolManager : Option Err
  /-- `cacheConfig.TrieCleanLimit + cacheConfig.TrieDirtyLimit`. -/
  cacheLimit : Nat

/-! ## Runs: a trace and a result -/

/-- How a piece of code ends. -/
inductive Result (α : Type) where
  /-- Normal completion with a value. -/
  | ok (a : α)
  /-- An error value returned to the caller (`return nil, err`). -/
  | error (e : Err)
  /-- A Go `panic`: nothing is returned, the process aborts. -/
  | panic (msg : String)
  /-- The model ran out of loop fuel (the Go loop had not finished). -/
  | outOfFuel
  deriving DecidableEq, Repr

/-- The outcome of running a piece of `New`: the calls made, in order, and the
way the run ended. -/
structure Outcome (α : Type) where
  trace : List Event
  result : Result α
  deriving DecidableEq, Repr

namespace Outcome

/-- Finish with a value, making no call. -/
def ret {α : Type} (a : α) : Outcome α := ⟨[], .ok a⟩

/-- Return an error to the caller (`return nil, err`). -/
def fail {α : Type} (e : Err) : Outcome α := ⟨[], .error e⟩

/-- Sequencing: the second part runs only when the first returned a value. -/
def andThen {α β : Type} (m : Outcome α) (f : α → Outcome β) : Outcome β :=
  match m.result with
  | .ok a => ⟨m.trace ++ (f a).trace, (f a).result⟩
  | .error e => ⟨m.trace, .error e⟩
  | .panic msg => ⟨m.trace, .panic msg⟩
  | .outOfFuel => ⟨m.trace, .outOfFuel⟩

instance : Monad Outcome where
  pure := ret
  bind := andThen

/-- A call whose answer is not inspected. -/
def emit (ev : Event) : Outcome Unit := ⟨[ev], .ok ()⟩

/-- A call that answers with an optional error, returned to the caller as is
(`if err := f(); err != nil { return nil, err }`). -/
def call (ev : Event) (answer : Option Err) : Outcome Unit :=
  ⟨[ev], match answer with
    | none => .ok ()
    | some e => .error e⟩

/-- Return an error already at hand, if there is one
(`if err != nil { return nil, err }`); no call is made. -/
def returnError (err : Option Err) : Outcome Unit :=
  ⟨[], match err with
    | none => .ok ()
    | some e => .error e⟩

/-- Return a fresh error when a condition holds (`if c { return nil, e }`); no
call is made. -/
def failWhen (c : Prop) [Decidable c] (e : Err) : Outcome Unit :=
  ⟨[], if c then .error e else .ok ()⟩

/-- A call that answers with a value or an error returned to the caller. -/
def callE {α : Type} (ev : Event) (answer : Except Err α) : Outcome α :=
  ⟨[ev], match answer with
    | .ok a => .ok a
    | .error e => .error e⟩

/-- Replace whatever error a run returns by a fixed one
(`if err := f(); err != nil { return nil, errors.New(...) }`). -/
def replaceError {α : Type} (m : Outcome α) (e : Err) : Outcome α :=
  ⟨m.trace, match m.result with
    | .error _ => .error e
    | r => r⟩

end Outcome

open Outcome

/-! ## Machine integers -/

/-- Go `uint64(x)` for an `int` `x`. -/
def toUint64 (x : Int) : Nat := (x % 2 ^ 64).toNat

/-- Wrap an integer into the range of a 64-bit Go `int`. -/
def wrapInt64 (x : Int) : Int := (x + 2 ^ 63) % 2 ^ 64 - 2 ^ 63

/-! ## The recovery gate (`New`, lines 122-186) -/

/-- `height != nil && *height > 0`. -/
def heightPositive : Option Nat → Bool
  | some h => decide (0 < h)
  | none => false

/-- Lines 122-186 of `New`: detect an aborted fast sync and, if found, wipe and
reopen the databases.  Returns the chain DB handle, the snapshot DB handle and
the (possibly updated) configuration that the rest of `New` goes on with. -/
def recoveryGate (w : World) (config : Config) : Outcome (Handle × Handle × Config) := do
  emit (.readHeadHeaderNumber 0)
  if heightPositive w.headHeaderNumber then
    emit (.getBaseDB 0)
    match w.getBaseDB with
    | .error err =>
      if err ≠ Err.errNotFound then
        call (.closeSnapshotDb 0) (w.closeSnapshotDb 0)
        fail err
      else
        pure (0, 0, config)
    | .ok _status =>
      emit (.readCanonicalHash 0 0)
      let stored := w.canonicalHash0
      emit (.closeChainDb 0)
      call (.closeSnapshotDb 0) (w.closeSnapshotDb 0)
      (if config.DatabaseFreezer ≠ "" then
        call (.removeAll .freezer) (w.removeAll .freezer)
      else ret ())
      call (.removeAll .chaindata) (w.removeAll .chaindata)
      call (.removeAll .wal) (w.removeAll .wal)
      call (.removeAll .snapshotdb) (w.removeAll .snapshotdb)
      call (.openChainDb 1) (w.openChainDb 1)
      call (.openSnapshotDb 1) (w.openSnapshotDb 1)
      if stored ≠ w.MainnetGenesisHash ∧ config.Genesis = none then
        let genesis ← callE .initGenesis w.initGenesis
        pure (1, 1, { config with Genesis := some genesis })
      else
        pure (1, 1, config)
  else
    pure (0, 0, config)

/-- The calls of lines 140-171 of `New` in the order of the source text: read
of the stored genesis hash, the two closes, the removals (the freezer one only
when a freezer is configured) and the two reopens. -/
def recoverySequence (config : Config) : List Event :=
  [.readCanonicalHash 0 0, .closeChainDb 0, .closeSnapshotDb 0] ++
    (if config.DatabaseFreezer ≠ "" then [.removeAll .freezer] else []) ++
    [.removeAll .chaindata, .removeAll .wal, .removeAll .snapshotdb,
      .openChainDb 1, .openSnapshotDb 1]

/-! ## Genesis reconciliation and database version (`New`, lines 188-233) -/

/-- The type assertion `genesisErr.(*configs.ConfigCompatError)`. -/
def isConfigCompat : Err → Bool
  | .configCompat _ => true
  | _ => false

/-- The error line 194 returns: `genesisErr` when it is non-nil and the type
assertion to `*configs.ConfigCompatError` fails. -/
def nonCompatError : Option Err → Option Err
  | some genesisErr => if isConfigCompat genesisErr then none else some genesisErr
  | none => none

/-- The error line 267 returns: `genesisErr` when the type assertion to
`*configs.ConfigCompatError` succeeds. -/
def compatError : Option Err → Option Err
  | some genesisErr => if isConfigCompat genesisErr then some genesisErr else none
  | none => none

/-- Lines 198-201 of `New`: fill the PBFT period and amount from the node
configuration. -/
def reconcile (chainConfig : ChainConfig) (config : Config) : ChainConfig :=
  if chainConfig.Pbft.Period = 0 ∨ chainConfig.Pbft.Amount = 0 then
    { chainConfig with
      Pbft := { chainConfig.Pbft with Period := config.PbftPeriod, Amount := config.PbftAmount } }
  else
    chainConfig

/-- `CreateConsensusEngine`: build the PBFT engine, panic when there is none. -/
def CreateConsensusEngine (w : World) (chainConfig : ChainConfig) : Outcome Unit :=
  ⟨[.createConsensusEngine chainConfig.Pbft],
    if w.pbftNew then .ok () else .panic "create consensus engine fail"⟩

/-- The text of the database-version error of line 228. -/
def databaseVersionMessage (w : World) (bcVersion : Nat) : String :=
  "database version is v" ++ toString bcVersion ++ ", PhoenixChain " ++ w.VersionWithMeta ++
    " only supports v" ++ toString w.BlockChainVersion

/-- `bcVersion != nil && *bcVersion > core.BlockChainVersion`. -/
def versionNewer (w : World) : Option Nat → Bool
  | some v => decide (v > w.BlockChainVersion)
  | none => false

/-- `bcVersion == nil || *bcVersion < core.BlockChainVersion`. -/
def versionOlder (w : World) : Option Nat → Bool
  | some v => decide (v < w.BlockChainVersion)
  | none => true

/-- Lines 218-233 of `New`: the database version check. -/
def checkDatabaseVersion (w : World) (config : Config) (chainDb : Handle) : Outcome Unit := do
  emit (.readDatabaseVersion chainDb)
  let bcVersion := w.readDatabaseVersion chainDb
  if !config.SkipBcVersionCheck then
    if versionNewer w bcVersion then
      fail (.message (databaseVersionMessage w (bcVersion.getD 0)))
    else if versionOlder w bcVersion then
      emit (.writeDatabaseVersion chainDb w.BlockChainVersion)
    else ret ()
  else ret ()

/-! ## Consensus assembly (`New`, lines 301-339, and `handlePlugin`) -/

/-- `handlePlugin`: register the plugins one by one and set the rule order. -/
def handlePlugin : Outcome Unit := do
  emit .rewardSetCurrentNodeID
  emit (.registerPlugin .SlashingRule)
  emit .slashSetDecodeEvidenceFun
  emit (.registerPlugin .StakingRule)
  emit (.registerPlugin .RestrictingRule)
  emit (.registerPlugin .RewardRule)
  emit .govSetChainID
  emit (.registerPlugin .GovernanceRule)
  emit (.setBeginRule [.StakingRule, .SlashingRule, .CollectDeclareVersionRule, .GovernanceRule])
  emit (.setEndRule
    [.CollectDeclareVersionRule, .RestrictingRule, .RewardRule, .GovernanceRule, .StakingRule])

/-- Lines 309-328 of `New`: choose the agency by validator mode.  The result is
the value of the local variable `agency`, `none` standing for its nil zero value. -/
def validatorDispatch (w : World) (chainConfig : ChainConfig) : Outcome (Option Agency) := do
  if chainConfig.Pbft.ValidatorMode = "" ∨
      chainConfig.Pbft.ValidatorMode = w.STATIC_VALIDATOR_MODE then
    emit (.newStaticAgency chainConfig.Pbft.InitialNodes)
    emit (.reactorStart w.STATIC_VALIDATOR_MODE)
    pure (some (.static chainConfig.Pbft.InitialNodes))
  else if chainConfig.Pbft.ValidatorMode = w.INNER_VALIDATOR_MODE then
    let blocksPerNode := wrapInt64 (chainConfig.Pbft.Amount : Int)
    let offset := wrapInt64 (blocksPerNode * 2)
    emit (.newInnerAgency chainConfig.Pbft.InitialNodes blocksPerNode offset)
    emit (.reactorStart w.INNER_VALIDATOR_MODE)
    pure (some (.inner chainConfig.Pbft.InitialNodes blocksPerNode offset))
  else if chainConfig.Pbft.ValidatorMode = w.DPOS_VALIDATOR_MODE then
    emit (.reactorStart w.DPOS_VALIDATOR_MODE)
    emit .reactorSetVRFhandler
    emit .reactorSetPluginEventMux
    emit .reactorSetPrivateKey
    handlePlugin
    emit .registerGovernParamVerifiers
    pure (some .reactor)
  else
    pure none

/-! ## Snapshot catch-up (`recoverSnapshotDB`) -/

/-- The `for` loop of `recoverSnapshotDB`; `i` is a `uint64`, so `i++` and `i-1`
wrap.  `Execute` is handed the two blocks just fetched: block `i` and, as its
parent, block `i-1`. -/
def recoverSnapshotDB.loop (w : World) (blockChanHegiht : Nat) : Nat → Nat → Outcome Unit
  | 0, _ => ⟨[], .outOfFuel⟩
  | fuel + 1, i =>
    if i ≤ blockChanHegiht then
      andThen (emit (.getBlockByNumber i)) fun _ =>
      andThen (emit (.getBlockByNumber ((i + 2 ^ 64 - 1) % 2 ^ 64))) fun _ =>
      andThen (call (.execute i ((i + 2 ^ 64 - 1) % 2 ^ 64)) (w.execute i)) fun _ =>
      andThen (call (.commit i) (w.commit i)) fun _ =>
      recoverSnapshotDB.loop w blockChanHegiht fuel ((i + 1) % 2 ^ 64)
    else
      ret ()

/-- `recoverSnapshotDB`: replay the blocks the snapshot DB is missing.  The loop
gets one unit of fuel per block to replay and one for the final test. -/
def recoverSnapshotDB (w : World) : Outcome Unit :=
  let ch := w.snapshotHighest
  let blockChanHegiht := w.currentHeaderNumber
  if ch < blockChanHegiht then
    recoverSnapshotDB.loop w blockChanHegiht (blockChanHegiht - ch + 1) (ch + 1)
  else
    ret ()

/-! ## The constructor `New` -/

/-- The fields of the `Ethereum` object that `New` fills from its inputs. -/
structure Ethereum where
  config : Config
  chainDb : Handle
  /-- `eth.blockchain.Config()`. -/
  chainConfig : ChainConfig
  networkID : Nat
  gasPrice : Option Int
  deriving DecidableEq, Repr

/-- Lines 106-109 of `New`: replace a missing or non-positive miner gas price. -/
def sanitizeGasPrice (w : World) (config : Config) : Config :=
  match config.MinerGasPrice with
  | none => { config with MinerGasPrice := some w.defaultGasPrice }
  | some p =>
    if p ≤ 0 then { config with MinerGasPrice := some w.defaultGasPrice } else config

/-- Lines 275-277 of `New`: resolve a non-empty transaction journal path. -/
def resolveJournal (w : World) (config : Config) : Config :=
  if config.TxPoolJournal ≠ "" then
    { config with TxPoolJournal := w.resolvePath config.TxPoolJournal }
  else
    config

/-- The text of the gas-floor error of line 292. -/
def gasFloorMessage (gasFloor : Nat) (gasCeil : Int) : String :=
  "The gasFloor must be less than gasCeil, got: " ++ toString gasFloor ++
    ", expect range (0, " ++ toString gasCeil ++ "]"

/-- Lines 188-355 of `New`: everything after the recovery gate, run on the
handles and configuration the gate handed over. -/
def New.assemble (w : World) (chainDb snapshotBaseDB : Handle) (config : Config) :
    Outcome Ethereum := do
  emit (.setupGenesisBlock chainDb snapshotBaseDB config.Genesis)
  let setup := w.setupGenesisBlock chainDb snapshotBaseDB config.Genesis
  call (.closeSnapshotDb snapshotBaseDB) (w.closeSnapshotDb snapshotBaseDB)
  returnError (nonCompatError setup.genesisErr)
  let chainConfig := reconcile setup.chainConfig config
  CreateConsensusEngine w chainConfig
  emit (.newBloomIndexer chainDb)
  checkDatabaseVersion w config chainDb
  call (.newBlockChain chainDb chainConfig) w.newBlockChain
  emit .setDBBlockChain
  emit .newBlockChainCache
  returnError (compatError setup.genesisErr)
  emit .bloomIndexerStart
  let config := resolveJournal w config
  emit (.newTxPool config.TxPoolJournal)
  emit .senderCacherSetTxPool
  let gasCeil ← callE (.governMaxBlockGasLimit w.currentBlock.1 w.currentBlock.2)
    (w.governMaxBlockGasLimit w.currentBlock.1 w.currentBlock.2)
  failWhen (config.MinerGasFloor > toUint64 gasCeil)
    (.message (gasFloorMessage config.MinerGasFloor gasCeil))
  emit .minerNew
  emit (.newBlockChainReactor chainConfig.ChainID)
  emit .setCryptoPrivateKey
  (if w.engineIsBft then do
    emit .newExecutor
    let agency ← validatorDispatch w chainConfig
    replaceError (recoverSnapshotDB w) (.message "Failed to recover SnapshotDB")
    replaceError (call (.engineStart agency) w.engineStart)
      (.message "Failed to init pbft consensus engine")
  else ret ())
  call (.newProtocolManager chainDb w.cacheLimit) w.newProtocolManager
  emit (.newOracle (match config.GPODefault with
    | none => config.MinerGasPrice
    | some d => some d))
  pure
    { config := config
      chainDb := chainDb
      chainConfig := chainConfig
      networkID := config.NetworkId
      gasPrice := config.MinerGasPrice }

/-- `New` creates the Ethereum object: sanity checks, opening of the two
databases, the recovery gate, then the assembly of the subsystems. -/
def New (w : World) (config : Config) : Outcome Ethereum := do
  failWhen (config.SyncMode = w.LightSync)
    (.message "can't run eth.PhoenixChain in light sync mode, use les.LightPhoenixChain")
  failWhen (!w.syncModeIsValid config.SyncMode)
    (.message ("invalid sync mode " ++ toString config.SyncMode))
  let config := sanitizeGasPrice w config
  call (.openChainDb 0) (w.openChainDb 0)
  emit .setDBOptions
  call (.openSnapshotDb 0) (w.openSnapshotDb 0)
  let (chainDb, snapshotBaseDB, config) ← recoveryGate w config
  New.assemble w chainDb snapshotBaseDB config

/-- The calls `New` makes before genesis setup (lines 111-186). -/
def Event.beforeGenesis : Event → Bool
  | .openChainDb _ | .setDBOptions | .openSnapshotDb _ | .readHeadHeaderNumber _ | .getBaseDB _
  | .readCanonicalHash _ _ | .closeChainDb _ | .closeSnapshotDb _ | .removeAll _
  | .initGenesis => true
  | _ => false

/-- The calls of the validator-mode dispatch and of `handlePlugin`. -/
def Event.consensusCall : Event → Bool
  | .newStaticAgency _ | .newInnerAgency _ _ _ | .reactorStart _ | .reactorSetVRFhandler
  | .reactorSetPluginEventMux | .reactorSetPrivateKey | .rewardSetCurrentNodeID
  | .registerPlugin _ | .slashSetDecodeEvidenceFun | .govSetChainID | .setBeginRule _
  | .setEndRule _ | .registerGovernParamVerifiers => true
  | _ => false

/-- The calls of `recoverSnapshotDB`. -/
def Event.replayCall : Event → Bool
  | .getBlockByNumber _ | .execute _ _ | .commit _ => true
  | _ => false

/-- The rule tags of the `RegisterPlugin` calls of a trace, in call order. -/
def registeredPlugins (trace : List Event) : List Rule :=
  trace.filterMap fun
    | .registerPlugin rule => some rule
    | _ => none

/-- The rule lists given to `SetBeginRule` in a trace, in call order. -/
def beginRules (trace : List Event) : List (List Rule) :=
  trace.filterMap fun
    | .setBeginRule rules => some rules
    | _ => none

/-- The rule lists given to `SetEndRule` in a trace, in call order. -/
def endRules (trace : List Event) : List (List Rule) :=
  trace.filterMap fun
    | .setEndRule rules => some rules
    | _ => none

/-! ## Sample inputs -/

/-- A world in which every collaborator succeeds on an empty data directory. -/
def World.quiet : World where
  LightSync := 2
  syncModeIsValid := fun mode => decide (mode ≤ 2)
  STATIC_VALIDATOR_MODE := "static"
  INNER_VALIDATOR_MODE := "inner"
  DPOS_VALIDATOR_MODE := "dpos"
  openChainDb := fun _ => none
  openSnapshotDb := fun _ => none
  headHeaderNumber := none
  getBaseDB := .error .errNotFound
  canonicalHash0 := 0
  closeSnapshotDb := fun _ => none
  removeAll := fun _ => none
  MainnetGenesisHash := 1
  initGenesis := .ok ⟨7⟩
  setupGenesisBlock := fun _ _ _ => ⟨⟨304, ⟨3, 10, "", [1, 2, 3, 4]⟩⟩, none⟩
  readDatabaseVersion := fun _ => none
  BlockChainVersion := 3
  VersionWithMeta := "1.0.0"
  defaultGasPrice := 1000000000
  newBlockChain := none
  resolvePath := fun s => "/data/" ++ s
  currentBlock := (0, 11)
  governMaxBlockGasLimit := fun _ _ => .ok 30000000
  pbftNew := true
  engineIsBft := true
  snapshotHighest := 0
  currentHeaderNumber := 0
  execute := fun _ => none
  commit := fun _ => none
  engineStart := none
  newProtocolManager := none
  cacheLimit := 512

/-- A node configuration for a full-sync node without freezer or genesis. -/
def Config.sample : Config where
  SyncMode := 0
  MinerGasPrice := some 1
  MinerGasFloor := 20000000
  DatabaseFreezer := ""
  Genesis := none
  PbftPeriod := 3
  PbftAmount := 10
  SkipBcVersionCheck := false
  NetworkId := 304
  TxPoolJournal := ""
  TxPoolLocals := []
  GPODefault := none

/-- A world whose stored chain configuration asks for the INNER validator mode. -/
def World.inner : World :=
  { World.quiet with
    setupGenesisBlock := fun _ _ _ => ⟨⟨304, ⟨3, 10, "inner", [1, 2, 3, 4]⟩⟩, none⟩ }

/-- A world whose stored chain configuration asks for the DPOS validator mode
(scenario S4). -/
def World.dpos : World :=
  { World.quiet with
    setupGenesisBlock := fun _ _ _ => ⟨⟨304, ⟨3, 10, "dpos", [1, 2, 3, 4]⟩⟩, none⟩ }

/-- A node configuration whose miner gas floor is 40,000,000 (scenario S3). -/
def Config.highGasFloor : Config := { Config.sample with MinerGasFloor := 40000000 }

/-- A world in which the snapshot DB cannot be opened. -/
def World.snapshotOpenFails : World :=
  { World.quiet with openSnapshotDb := fun _ => some (.external 3) }

/-- A world with head height 42 whose sentinel probe fails with an I/O error. -/
def World.probeFailure : World :=
  { World.quiet with headHeaderNumber := some 42, getBaseDB := .error (.external 5) }

/-- A world with head height 42 whose snapshot DB holds the sentinel
`fast-sync-status = 0x0000` (scenario S2 of the spec). -/
def World.abortedFastSync : World :=
  { World.quiet with headHeaderNumber := some 42, getBaseDB := .ok [0, 0] }

/-- A world whose stored genesis is incompatible with the binary (scenario S6). -/
def World.incompatibleUpgrade : World :=
  { World.quiet with
    setupGenesisBlock := fun _ _ _ =>
      ⟨⟨304, ⟨3, 10, "", [1, 2, 3, 4]⟩⟩, some (.configCompat 1)⟩ }

/-- As `World.incompatibleUpgrade`, with a stored database version of 9 where
the binary supports version 3. -/
def World.incompatibleNewerDb : World :=
  { World.incompatibleUpgrade with readDatabaseVersion := fun _ => some 9 }

/-- A stored chain configuration whose PBFT period and amount are both zero. -/
def ChainConfig.unset : ChainConfig := ⟨304, ⟨0, 0, "", [1, 2, 3, 4]⟩⟩

/-- A stored chain configuration with period 3 and a zero amount. -/
def ChainConfig.halfSet : ChainConfig := ⟨304, ⟨3, 0, "", [1, 2, 3, 4]⟩⟩

/-- A node configuration whose PBFT period and amount are zero. -/
def Config.zeroPbft : Config := { Config.sample with PbftPeriod := 0, PbftAmount := 0 }

/-- A node configuration with PBFT period 5 and amount 7. -/
def Config.fiveSeven : Config := { Config.sample with PbftPeriod := 5, PbftAmount := 7 }

/-! ## Snapshot catch-up: expected calls and the snapshot head -/

/-- The calls of one round of the replay loop for block `i`, in source order:
fetch block `i`, fetch block `i-1`, execute block `i` on that parent, commit at
block `i`. -/
def replayRound (i : Nat) : List Event :=
  [.getBlockByNumber i, .getBlockByNumber (i - 1), .execute i (i - 1), .commit i]

/-- The rounds for the `n` blocks `i, i+1, ..., i+n-1`, in ascending order. -/
def replayRounds (i n : Nat) : List Event :=
  ((List.range' i n).map replayRound).flatten

/-- Modelled from the spec: the height of the snapshot head after the calls of
`trace`, starting from `head`.  Each commit that succeeded advances the head by
one block; nothing else moves it. -/
def snapshotHeadAfter (w : World) (head : Nat) (trace : List Event) : Nat :=
  trace.foldl (fun h ev =>
    match ev with
    | .commit i => if (w.commit i).isNone then h + 1 else h
    | _ => h) head

/-- The snapshot DB is three blocks behind the chain: head 97, chain head 100. -/
def World.behind : World :=
  { World.quiet with snapshotHighest := 97, currentHeaderNumber := 100 }

/-- The snapshot DB is ahead of the chain: head 5, chain head 3. -/
def World.ahead : World :=
  { World.quiet with snapshotHighest := 5, currentHeaderNumber := 3 }

/-! ## The stored database version -/

/-- The effect of one call on the database-version key of `chainDb`: a
`WriteDatabaseVersion` on that database sets it, nothing else touches it. -/
def storedVersionStep (chainDb : Handle) (cur : Option Nat) : Event → Option Nat
  | .writeDatabaseVersion c version => if c = chainDb then some version else cur
  | _ => cur

/-- The value of the database-version key of `chainDb` after the calls of
`trace`, starting from `v`. -/
def storedVersionAfter (chainDb : Handle) (v : Option Nat) (trace : List Event) : Option Nat :=
  trace.foldl (storedVersionStep chainDb) v

/-- A stored database version of 2, older than the binary's version 3. -/
def World.olderDb : World := { World.quiet with readDatabaseVersion := fun _ => some 2 }

/-! ## The running service (`Start`, `Stop`, `StartMining`, `isLocalBlock`) -/

/-- A block, by an identifier. -/
abbrev Block := Nat

/-- The calls the lifecycle methods make on the parts of the `Ethereum` object
and on the p2p server, one constructor per call site. -/
inductive Call where
  | startBloomHandlers
  | newPublicNetAPI (networkID : Nat)
  | protocolManagerStart (maxPeers : Int)
  | addConsensusPeer (node : Nat)
  | txPoolSetGasPrice (price : Option Int)
  | storeAcceptTxs (value : Nat)
  /-- The statement `go s.miner.Start()`: the miner start is spawned. -/
  | goMinerStart
  | startWatching
  | lesServerStart
  | protocolManagerStop
  | lesServerStop
  | bloomIndexerClose
  /-- The statement `close(s.closeBloomHandler)`. -/
  | closeBloomHandler
  | txPoolStop
  | minerStop
  | blockchainStop
  | engineClose
  | reactorClose
  | chainDbClose
  | eventMuxStop
  deriving DecidableEq, Repr

/-- The `Ethereum` object as its lifecycle methods see it: the fields `New`
filled, the configuration and collaborator answers the methods read, and the
state they write. -/
structure Service where
  eth : Ethereum
  /-- `s.config.LightServ`, a Go `int`. -/
  LightServ : Int
  /-- `s.config.LightPeers`, a Go `int`. -/
  LightPeers : Int
  /-- `s.lesServer != nil`. -/
  lesServer : Bool
  /-- Whether `s.engine.(consensus.Bft)` succeeds. -/
  engineIsBft : Bool
  /-- `pbftEngine.IsConsensusNode()`. -/
  IsConsensusNode : Bool
  /-- `node.FakeNetEnable`. -/
  FakeNetEnable : Bool
  /-- `s.engine.Author(block.Header())`. -/
  Author : Block → Except Err Address
  /-- `s.miner.Mining()`. -/
  Mining : Bool
  /-- The gas price of the transaction pool. -/
  poolGasPrice : Option Int
  /-- `s.protocolManager.acceptTxs`. -/
  acceptTxs : Nat
  /-- Whether the channel `s.closeBloomHandler` has been closed. -/
  closeBloomHandlerClosed : Bool

/-- The p2p server handed to `Start`. -/
structure Server where
  /-- `srvr.MaxPeers`, a Go `int`. -/
  MaxPeers : Int

/-- A run of a lifecycle method: the calls made, in order, the state left
behind, and the way the method ended. -/
structure Run where
  calls : List Call
  service : Service
  result : Result Unit

/-- `IsMining`. -/
def IsMining (s : Service) : Bool := s.Mining

/-- `StartMining`.  The miner start is spawned, not awaited, so the method
itself leaves `Mining` as it found it. -/
def StartMining (s : Service) : Run :=
  if !IsMining s then
    let price := s.eth.gasPrice
    ⟨[.txPoolSetGasPrice price, .storeAcceptTxs 1, .goMinerStart],
      { s with poolGasPrice := price, acceptTxs := 1 }, .ok ()⟩
  else
    ⟨[], s, .ok ()⟩

/-- The text of the peer-configuration error of `Start`. -/
def peerConfigMessage (lightPeers maxPeers : Int) : String :=
  "invalid peer config: light peer count (" ++ toString lightPeers ++
    ") >= total peer count (" ++ toString maxPeers ++ ")"

/-- The loop of `Start` over the initial validators. -/
def addConsensusPeers (s : Service) : List Nat → List Call
  | [] => []
  | n :: rest =>
    (if !s.FakeNetEnable then [Call.addConsensusPeer n] else []) ++ addConsensusPeers s rest

/-- Lines 572-591 of `Start`: everything from the protocol-manager start on. -/
def Start.rest (s : Service) (pre : List Call) (maxPeers : Int) : Run :=
  let bft : Run :=
    if s.engineIsBft then
      let peers :=
        if s.IsConsensusNode then addConsensusPeers s s.eth.chainConfig.Pbft.InitialNodes
        else []
      let mining := StartMining s
      ⟨peers ++ mining.calls, mining.service, .ok ()⟩
    else ⟨[], s, .ok ()⟩
  ⟨pre ++ [Call.protocolManagerStart maxPeers] ++ bft.calls ++ [Call.startWatching] ++
      (if s.lesServer then [Call.lesServerStart] else []),
    bft.service, .ok ()⟩

/-- `Start`.  `maxPeers -= s.config.LightPeers` is a subtraction of Go `int`s. -/
def Start (s : Service) (srvr : Server) : Run :=
  let pre := [Call.startBloomHandlers, Call.newPublicNetAPI s.eth.networkID]
  let maxPeers := srvr.MaxPeers
  if s.LightServ > 0 then
    if s.LightPeers ≥ srvr.MaxPeers then
      ⟨pre, s, .error (.message (peerConfigMessage s.LightPeers srvr.MaxPeers))⟩
    else
      Start.rest s pre (wrapInt64 (maxPeers - s.LightPeers))
  else
    Start.rest s pre maxPeers

/-- `Stop`.  `_reports` is what each terminator reports; `Stop` looks at none
of the reports.  Closing a channel that is already closed panics. -/
def Stop (s : Service) (_reports : Call → Option Err) : Run :=
  let first := [Call.protocolManagerStop] ++
    (if s.lesServer then [Call.lesServerStop] else []) ++ [Call.bloomIndexerClose]
  if s.closeBloomHandlerClosed then
    ⟨first, s, .panic "close of closed channel"⟩
  else
    ⟨first ++ [Call.closeBloomHandler, Call.txPoolStop, Call.minerStop, Call.blockchainStop,
        Call.engineClose, Call.reactorClose, Call.chainDbClose, Call.eventMuxStop],
      { s with closeBloomHandlerClosed := true }, .ok ()⟩

/-- The loop of `isLocalBlock` over `s.config.TxPool.Locals`. -/
def isLocalBlock.loop (author : Address) : List Address → Bool
  | [] => false
  | account :: rest => if account = author then true else isLocalBlock.loop author rest

/-- `isLocalBlock`.  The mining address compared with is `common.Address{}`,
the zero address. -/
def isLocalBlock (s : Service) (block : Block) : Bool :=
  match s.Author block with
  | .error _ => false
  | .ok author =>
    let etherbase : Address := 0
    if author = etherbase then true
    else isLocalBlock.loop author s.eth.config.TxPoolLocals

/-- `shouldPreserve`. -/
def shouldPreserve (s : Service) (block : Block) : Bool := isLocalBlock s block

/-- The `maxPeers` arguments of the protocol-manager starts of a run. -/
def protocolManagerStarts (calls : List Call) : List Int :=
  calls.filterMap fun
    | .protocolManagerStart maxPeers => some maxPeers
    | _ => none

/-- The nodes added as consensus peers in a run, in call order. -/
def consensusPeers (calls : List Call) : List Nat :=
  calls.filterMap fun
    | .addConsensusPeer n => some n
    | _ => none

/-- The calls by which `StartMining` enables mining. -/
def Call.enablesMining : Call → Bool
  | .txPoolSetGasPrice _ | .storeAcceptTxs _ | .goMinerStart => true
  | _ => false

/-- A service as `New` leaves it on the sample inputs: PBFT engine, consensus
node, no light server, miner idle. -/
def Service.sample : Service where
  eth :=
    { config := Config.sample
      chainDb := 0
      chainConfig := ⟨304, ⟨3, 10, "", [1, 2, 3, 4]⟩⟩
      networkID := 304
      gasPrice := some 1 }
  LightServ := 0
  LightPeers := 0
  lesServer := false
  engineIsBft := true
  IsConsensusNode := true
  FakeNetEnable := false
  Author := fun _ => .ok 7
  Mining := false
  poolGasPrice := none
  acceptTxs := 0
  closeBloomHandlerClosed := false

/-- A server that allows 50 peers. -/
def Server.sample : Server := ⟨50⟩

/-- A service with a light server configured for 10 light peers. -/
def Service.light : Service :=
  { Service.sample with LightServ := 20, LightPeers := 10, lesServer := true }

/-- A service on a node that is not a consensus node. -/
def Service.observer : Service := { Service.sample with IsConsensusNode := false }

/-- A service whose engine reports the zero address as the author of every
block; no local accounts are configured. -/
def Service.zeroAuthor : Service := { Service.sample with Author := fun _ => .ok 0 }

/-! ## `VerifyTxData` (package `plugin`) -/

/-- A byte string. -/
abbrev Bytes := List Nat

/-- How the body of a Go function ends: it reaches a `return`, or it panics
with a value (given by its text). -/
inductive Go (α : Type) where
  | returns (a : α)
  | panics (er : String)

/-- An entry of the command map, an `interface{}`, as `reflect` sees it. -/
structure Command where
  /-- The identity of the entry. -/
  id : Nat
  /-- The type names `reflect.TypeOf(fn).In(i).String()` of the parameters when
  the entry is a function; `none` when it is not, and `NumIn` panics. -/
  paramTypes : Option (List String)
  deriving DecidableEq, Repr

/-- A converted parameter, a `reflect.Value`. -/
abbrev Value := Nat

/-- The functions of the packages `rlp` and `byteutil` that `VerifyTxData`
calls; each may panic. -/
structure Codec where
  /-- `rlp.Decode(bytes.NewReader(input), &args)`: the argument list, or the
  text of the decoding error. -/
  Decode : Bytes → Go (Except String (List Bytes))
  /-- `byteutil.BytesToUint16`. -/
  BytesToUint16 : Bytes → Go Nat
  /-- The table `byteutil.Bytes2X_CMD`, from a type name to its conversion. -/
  Bytes2X_CMD : String → Option (Bytes → Go Value)

/-- The text of `DecodeTxDataErr`. -/
def DecodeTxDataErr : String := "decode tx data is err"

/-- The error value `FuncNotExistErr`. -/
def FuncNotExistErr : Err := .message "the func is not exist"

/-- The error value `FnParamsLenErr`. -/
def FnParamsLenErr : Err := .message "the params len and func params len is not equal"

/-- The four results of `VerifyTxData`. -/
structure Verified where
  cnCode : Nat
  fn : Option Command
  FnParams : Option (List Value)
  err : Option Err
  deriving DecidableEq, Repr

/-- The conversion loop of `VerifyTxData`, over the parameter types from index
`i` on and the arguments from index `i+1` on. -/
def VerifyTxData.convert (c : Codec) : List String → List Bytes → Go (List Value)
  | [], _ => .returns []
  | _ :: _, [] => .panics "runtime error: index out of range"
  | targetType :: types, inputByte :: rest =>
    match c.Bytes2X_CMD targetType with
    | none => .panics "reflect: call of reflect.Value.Call on zero Value"
    | some conv =>
      match conv inputByte with
      | .panics er => .panics er
      | .returns v =>
        match VerifyTxData.convert c types rest with
        | .panics er => .panics er
        | .returns vs => .returns (v :: vs)

/-- The body of `VerifyTxData`, without the deferred function. -/
def VerifyTxData.body (c : Codec) (input : Bytes) (command : Nat → Option Command) :
    Go Verified :=
  match c.Decode input with
  | .panics er => .panics er
  | .returns (.error err) =>
    .returns ⟨0, none, none, some (.message (DecodeTxDataErr ++ ": " ++ err))⟩
  | .returns (.ok args) =>
    match args with
    | [] => .panics "runtime error: index out of range [0] with length 0"
    | first :: rest =>
      match c.BytesToUint16 first with
      | .panics er => .panics er
      | .returns fnCode =>
        match command fnCode with
        | none => .returns ⟨0, none, none, some FuncNotExistErr⟩
        | some fn =>
          match fn.paramTypes with
          | none => .panics "reflect: NumIn of non-func type"
          | some paramList =>
            let paramNum := paramList.length
            if paramNum ≠ args.length - 1 then
              .returns ⟨0, none, none, some FnParamsLenErr⟩
            else
              match VerifyTxData.convert c paramList rest with
              | .panics er => .panics er
              | .returns params => .returns ⟨fnCode, some fn, some params, none⟩

/-- `VerifyTxData`: the body under its deferred function.  On a panic the
deferred function assigns `fn`, `FnParams` and `err`; `cnCode` keeps the zero
value it has had since entry, no `return` having been reached. -/
def VerifyTxData (c : Codec) (input : Bytes) (command : Nat → Option Command) : Go Verified :=
  match VerifyTxData.body c input command with
  | .returns r => .returns r
  | .panics er =>
    let named : Verified := ⟨0, none, none, none⟩
    .returns { named with
      fn := none, FnParams := none, err := some (.message ("parse tx data is failed: " ++ er)) }

/-- A codec for the samples: the input is its own only argument, the function
code is the first byte, and `uint64` parameters convert to the length of their
bytes. -/
def Codec.sample : Codec where
  Decode := fun input => .returns (if input = [] then .ok [] else .ok [input, [7]])
  BytesToUint16 := fun b => .returns (b.headD 0)
  Bytes2X_CMD := fun t => if t = "uint64" then some (fun b => .returns b.length) else none

/-- A command map with one entry, at code 7: a function of one `uint64`. -/
def Command.sampleMap : Nat → Option Command :=
  fun code => if code = 7 then some ⟨1, some ["uint64"]⟩ else none

/-! ## The journal of the mock state DB (package `mock`) -/

/-- A journal entry, by its method `revert(*MockStateDB)` as a function on the
state DB. -/
structure journalEntry (σ : Type) where
  revert : σ → σ

/-- The journal: the changes tracked so far. -/
structure journal (σ : Type) where
  entries : List (journalEntry σ)

/-- `journal.append`. -/
def journal.append {σ : Type} (j : journal σ) (entry : journalEntry σ) : journal σ :=
  ⟨j.entries ++ [entry]⟩

/-- `journal.length`. -/
def journal.length {σ : Type} (j : journal σ) : Nat := j.entries.length

/-- What a `revert` leaves behind: the state DB, the indices of the entries
whose `revert` was applied, in the order of application, and the journal. -/
structure Reverted (σ : Type) where
  statedb : σ
  applied : List Nat
  journal : journal σ

/-- The loop `for i := len(j.entries) - 1; i >= snapshot; i--` of
`journal.revert`, counted by `k = i + 1`; at `k = 0` the index is `-1`, below
every `snapshot`. -/
def journal.revert.loop {σ : Type} (entries : List (journalEntry σ)) (snapshot : Nat) :
    Nat → σ → List Nat → σ × List Nat
  | 0, statedb, applied => (statedb, applied)
  | k + 1, statedb, applied =>
    if k ≥ snapshot then
      match entries[k]? with
      | some entry => journal.revert.loop entries snapshot k (entry.revert statedb) (applied ++ [k])
      | none => (statedb, applied)
    else (statedb, applied)

/-- `journal.revert`, for a `snapshot` from `0` to the length of the journal.
Beyond the length Go reslices into the spare capacity of the slice or panics;
the model gives no result there. -/
def journal.revert {σ : Type} (j : journal σ) (statedb : σ) (snapshot : Nat) :
    Option (Reverted σ) :=
  if snapshot ≤ j.entries.length then
    let r := journal.revert.loop j.entries snapshot j.entries.length statedb []
    some ⟨r.1, r.2, ⟨j.entries.take snapshot⟩⟩
  else none

/-- A state DB that is a log of numbers, and the entry that appends `n` to it. -/
def journalEntry.log (n : Nat) : journalEntry (List Nat) := ⟨fun statedb => statedb ++ [n]⟩

/-- A journal of four entries, logging 10, 11, 12 and 13. -/
def journal.sample : journal (List Nat) :=
  ⟨[journalEntry.log 10, journalEntry.log 11, journalEntry.log 12, journalEntry.log 13]⟩

/-! ## Reasoning about runs -/

@[simp] theorem Outcome.bind_eq_andThen {α β : Type} (m : Outcome α) (f : α → Outcome β) :
    (m >>= f) = Outcome.andThen m f := rfl

@[simp] theorem Outcome.pure_eq_ret {α : Type} (a : α) : (pure a : Outcome α) = Outcome.ret a := rfl

theorem Outcome.mem_trace_andThen {α β : Type} (m : Outcome α) (f : α → Outcome β) (ev : Event) :
    ev ∈ (Outcome.andThen m f).trace ↔
      ev ∈ m.trace ∨ ∃ a, m.result = .ok a ∧ ev ∈ (f a).trace := by
  unfold Outcome.andThen
  split <;> simp_all

theorem Outcome.result_andThen_ok {α β : Type} (m : Outcome α) (f : α → Outcome β) (b : β) :
    (Outcome.andThen m f).result = .ok b ↔ ∃ a, m.result = .ok a ∧ (f a).result = .ok b := by
  unfold Outcome.andThen
  split <;> simp_all

theorem Outcome.result_andThen_error {α β : Type} (m : Outcome α) (f : α → Outcome β) (e : Err) :
    (Outcome.andThen m f).result = .error e ↔
      m.result = .error e ∨ ∃ a, m.result = .ok a ∧ (f a).result = .error e := by
  unfold Outcome.andThen
  split <;> simp_all

theorem Outcome.andThen_of_ok {α β : Type} (m : Outcome α) (f : α → Outcome β) (a : α)
    (h : m.result = .ok a) :
    Outcome.andThen m f = ⟨m.trace ++ (f a).trace, (f a).result⟩ := by
  unfold Outcome.andThen
  rw [h]

/-- The run of `New` once the sanity checks and the two opens have succeeded. -/
theorem New_eq_of_opened (w : World) (config : Config)
    (hlight : config.SyncMode ≠ w.LightSync)
    (hvalid : w.syncModeIsValid config.SyncMode = true)
    (hchain : w.openChainDb 0 = none) (hsnap : w.openSnapshotDb 0 = none) :
    New w config =
      Outcome.andThen ⟨[.openChainDb 0, .setDBOptions, .openSnapshotDb 0], .ok ()⟩ (fun _ =>
        Outcome.andThen (recoveryGate w (sanitizeGasPrice w config)) (fun r =>
          New.assemble w r.1 r.2.1 r.2.2)) := by
  simp [New, hlight, hvalid, hchain, hsnap, Outcome.andThen, Outcome.call, Outcome.emit,
    Outcome.failWhen]

theorem sanitizeGasPrice_Genesis (w : World) (config : Config) :
    (sanitizeGasPrice w config).Genesis = config.Genesis := by
  unfold sanitizeGasPrice
  split
  · rfl
  · split <;> rfl

/-- The gate on a clean start: only reads, and the inputs handed on untouched. -/
theorem recoveryGate_clean (w : World) (config : Config)
    (h : w.headHeaderNumber = none ∨ w.headHeaderNumber = some 0 ∨
      w.getBaseDB = .error Err.errNotFound) :
    recoveryGate w config =
      ⟨.readHeadHeaderNumber 0 ::
          (if heightPositive w.headHeaderNumber then [.getBaseDB 0] else []),
        .ok (0, 0, config)⟩ := by
  rcases h with h | h | h
  · simp [recoveryGate, h, heightPositive, Outcome.andThen, Outcome.emit, Outcome.ret]
  · simp [recoveryGate, h, heightPositive, Outcome.andThen, Outcome.emit, Outcome.ret]
  · by_cases hp : heightPositive w.headHeaderNumber = true
    · simp [recoveryGate, h, hp, Outcome.andThen, Outcome.emit, Outcome.ret]
    · simp [recoveryGate, hp, Outcome.andThen, Outcome.emit, Outcome.ret]

theorem assemble_trace_head (w : World) (chainDb snapshotBaseDB : Handle) (config : Config) :
    ∃ rest, (New.assemble w chainDb snapshotBaseDB config).trace =
      .setupGenesisBlock chainDb snapshotBaseDB config.Genesis :: rest := by
  simp [New.assemble, Outcome.andThen, Outcome.emit]

/-- The gate once the sentinel is found: either a step of the recovery fails,
the calls made so far are an initial part of the recovery sequence and the gate
returns an error; or every step succeeds and the gate has made the whole
sequence. -/
theorem recoveryGate_recover_trace (w : World) (config : Config)
    (height : Nat) (hheight : w.headHeaderNumber = some height) (hpos : 0 < height)
    (status : List Nat) (hprobe : w.getBaseDB = .ok status) :
    ((recoveryGate w config).trace <+:
        [.readHeadHeaderNumber 0, .getBaseDB 0] ++ recoverySequence config ∧
        (∃ e, (recoveryGate w config).result = .error e) ∧
        ¬ (w.closeSnapshotDb 0 = none ∧
          (config.DatabaseFreezer ≠ "" → w.removeAll .freezer = none) ∧
          w.removeAll .chaindata = none ∧ w.removeAll .wal = none ∧
          w.removeAll .snapshotdb = none ∧ w.openChainDb 1 = none ∧
          w.openSnapshotDb 1 = none)) ∨
      ([.readHeadHeaderNumber 0, .getBaseDB 0] ++ recoverySequence config <+:
          (recoveryGate w config).trace ∧
        w.closeSnapshotDb 0 = none ∧
        (config.DatabaseFreezer ≠ "" → w.removeAll .freezer = none) ∧
        w.removeAll .chaindata = none ∧ w.removeAll .wal = none ∧
        w.removeAll .snapshotdb = none ∧ w.openChainDb 1 = none ∧
        w.openSnapshotDb 1 = none) := by
  rcases h1 : w.closeSnapshotDb 0 with _ | e
  rotate_left
  · left
    by_cases hf : config.DatabaseFreezer = "" <;>
    simp [recoveryGate, recoverySequence, hheight, heightPositive, hpos, hprobe, Outcome.andThen,
      Outcome.emit, Outcome.call, Outcome.callE, Outcome.ret, List.cons_prefix_cons, h1, hf]
  by_cases hf : config.DatabaseFreezer = ""
  · have h7 : True := trivial
    rcases h2 : w.removeAll .chaindata with _ | e
    rotate_left
    · left
      simp [recoveryGate, recoverySequence, hheight, heightPositive, hpos, hprobe, Outcome.andThen,
      Outcome.emit, Outcome.call, Outcome.callE, Outcome.ret, List.cons_prefix_cons, h1, hf, h7, h2]
    rcases h3 : w.removeAll .wal with _ | e
    rotate_left
    · left
      simp [recoveryGate, recoverySequence, hheight, heightPositive, hpos, hprobe, Outcome.andThen,
      Outcome.emit, Outcome.call, Outcome.callE, Outcome.ret, List.cons_prefix_cons, h1, hf, h7, h2, h3]
    rcases h4 : w.removeAll .snapshotdb with _ | e
    rotate_left
    · left
      simp [recoveryGate, recoverySequence, hheight, heightPositive, hpos, hprobe, Outcome.andThen,
      Outcome.emit, Outcome.call, Outcome.callE, Outcome.ret, List.cons_prefix_cons, h1, hf, h7, h2, h3, h4]
    rcases h5 : w.openChainDb 1 with _ | e
    rotate_left
    · left
      simp [recoveryGate, recoverySequence, hheight, heightPositive, hpos, hprobe, Outcome.andThen,
      Outcome.emit, Outcome.call, Outcome.callE, Outcome.ret, List.cons_prefix_cons, h1, hf, h7, h2, h3, h4, h5]
    rcases h6 : w.openSnapshotDb 1 with _ | e
    rotate_left
    · left
      simp [recoveryGate, recoverySequence, hheight, heightPositive, hpos, hprobe, Outcome.andThen,
      Outcome.emit, Outcome.call, Outcome.callE, Outcome.ret, List.cons_prefix_cons, h1, hf, h7, h2, h3, h4, h5, h6]
    right
    by_cases hg : w.canonicalHash0 ≠ w.MainnetGenesisHash ∧ config.Genesis = none <;>
      simp [recoveryGate, recoverySequence, hheight, heightPositive, hpos, hprobe, Outcome.andThen,
      Outcome.emit, Outcome.call, Outcome.callE, Outcome.ret, List.cons_prefix_cons, h1, hf, h7, h2, h3, h4, h5, h6, hg]
  · rcases h7 : w.removeAll .freezer with _ | e
    rotate_left
    · left
      simp [recoveryGate, recoverySequence, hheight, heightPositive, hpos, hprobe, Outcome.andThen,
      Outcome.emit, Outcome.call, Outcome.callE, Outcome.ret, List.cons_prefix_cons, h1, hf, h7]
    rcases h2 : w.removeAll .chaindata with _ | e
    rotate_left
    · left
      simp [recoveryGate, recoverySequence, hheight, heightPositive, hpos, hprobe, Outcome.andThen,
      Outcome.emit, Outcome.call, Outcome.callE, Outcome.ret, List.cons_prefix_cons, h1, hf, h7, h2]
    rcases h3 : w.removeAll .wal with _ | e
    rotate_left
    · left
      simp [recoveryGate, recoverySequence, hheight, heightPositive, hpos, hprobe, Outcome.andThen,
      Outcome.emit, Outcome.call, Outcome.callE, Outcome.ret, List.cons_prefix_cons, h1, hf, h7, h2, h3]
    rcases h4 : w.removeAll .snapshotdb with _ | e
    rotate_left
    · left
      simp [recoveryGate, recoverySequence, hheight, heightPositive, hpos, hprobe, Outcome.andThen,
      Outcome.emit, Outcome.call, Outcome.callE, Outcome.ret, List.cons_prefix_cons, h1, hf, h7, h2, h3, h4]
    rcases h5 : w.openChainDb 1 with _ | e
    rotate_left
    · left
      simp [recoveryGate, recoverySequence, hheight, heightPositive, hpos, hprobe, Outcome.andThen,
      Outcome.emit, Outcome.call, Outcome.callE, Outcome.ret, List.cons_prefix_cons, h1, hf, h7, h2, h3, h4, h5]
    rcases h6 : w.openSnapshotDb 1 with _ | e
    rotate_left
    · left
      simp [recoveryGate, recoverySequence, hheight, heightPositive, hpos, hprobe, Outcome.andThen,
      Outcome.emit, Outcome.call, Outcome.callE, Outcome.ret, List.cons_prefix_cons, h1, hf, h7, h2, h3, h4, h5, h6]
    right
    by_cases hg : w.canonicalHash0 ≠ w.MainnetGenesisHash ∧ config.Genesis = none <;>
      simp [recoveryGate, recoverySequence, hheight, heightPositive, hpos, hprobe, Outcome.andThen,
      Outcome.emit, Outcome.call, Outcome.callE, Outcome.ret, List.cons_prefix_cons, h1, hf, h7, h2, h3, h4, h5, h6, hg]


theorem Outcome.andThen_of_error {α β : Type} (m : Outcome α) (f : α → Outcome β) (e : Err)
    (h : m.result = .error e) : Outcome.andThen m f = ⟨m.trace, .error e⟩ := by
  unfold Outcome.andThen
  rw [h]

theorem Outcome.trace_prefix_andThen {α β : Type} (m : Outcome α) (f : α → Outcome β) :
    m.trace <+: (Outcome.andThen m f).trace := by
  unfold Outcome.andThen
  split <;> simp

theorem recoverySequence_sanitize (w : World) (config : Config) :
    recoverySequence (sanitizeGasPrice w config) = recoverySequence config := by
  unfold sanitizeGasPrice
  split
  · rfl
  · split <;> rfl

theorem New_trace_of_opened (w : World) (config : Config)
    (hlight : config.SyncMode ≠ w.LightSync)
    (hvalid : w.syncModeIsValid config.SyncMode = true)
    (hchain : w.openChainDb 0 = none) (hsnap : w.openSnapshotDb 0 = none) :
    (New w config).trace = [.openChainDb 0, .setDBOptions, .openSnapshotDb 0] ++
        (Outcome.andThen (recoveryGate w (sanitizeGasPrice w config)) (fun r =>
          New.assemble w r.1 r.2.1 r.2.2)).trace ∧
      (New w config).result =
        (Outcome.andThen (recoveryGate w (sanitizeGasPrice w config)) (fun r =>
          New.assemble w r.1 r.2.1 r.2.2)).result := by
  rw [New_eq_of_opened w config hlight hvalid hchain hsnap]
  simp [Outcome.andThen]

/-! ## Recovery gate -/

/-- C1. Recovery gate frame: on a startup whose head height is absent or zero,
or whose sentinel probe answers not-found, the gate makes only its reads (head
height, and the probe when the height is positive): it closes no database,
removes no directory and reopens nothing, it hands on handles `0` and `0` (the
two opened first) and the configuration unchanged, and the next call of `New`
is genesis setup on exactly those handles and the caller's genesis. -/
theorem recovery_gate_frame (w : World) (config : Config)
    (hlight : config.SyncMode ≠ w.LightSync)
    (hvalid : w.syncModeIsValid config.SyncMode = true)
    (hchain : w.openChainDb 0 = none) (hsnap : w.openSnapshotDb 0 = none)
    (h : w.headHeaderNumber = none ∨ w.headHeaderNumber = some 0 ∨
      w.getBaseDB = .error Err.errNotFound) :
    recoveryGate w (sanitizeGasPrice w config) =
        ⟨.readHeadHeaderNumber 0 ::
            (if heightPositive w.headHeaderNumber then [.getBaseDB 0] else []),
          .ok (0, 0, sanitizeGasPrice w config)⟩ ∧
      (sanitizeGasPrice w config).Genesis = config.Genesis ∧
      (∃ rest, (New w config).trace =
        [.openChainDb 0, .setDBOptions, .openSnapshotDb 0, .readHeadHeaderNumber 0] ++
          (if heightPositive w.headHeaderNumber then [.getBaseDB 0] else []) ++
          .setupGenesisBlock 0 0 config.Genesis :: rest) ∧
      (New w config).result = (New.assemble w 0 0 (sanitizeGasPrice w config)).result := by
  have hg := recoveryGate_clean w (sanitizeGasPrice w config) h
  refine ⟨hg, sanitizeGasPrice_Genesis w config, ?_, ?_⟩
  · obtain ⟨rest, hrest⟩ := assemble_trace_head w 0 0 (sanitizeGasPrice w config)
    refine ⟨rest, ?_⟩
    rw [New_eq_of_opened w config hlight hvalid hchain hsnap, hg]
    simp [Outcome.andThen, hrest, sanitizeGasPrice_Genesis]
  · rw [New_eq_of_opened w config hlight hvalid hchain hsnap, hg]
    simp [Outcome.andThen]

/-- Witness for C1: the empty data directory of `World.quiet`. -/
theorem recovery_gate_frame_witness :
    Config.sample.SyncMode ≠ World.quiet.LightSync ∧ World.quiet.headHeaderNumber = none ∧
      (New World.quiet Config.sample).result =
        (New.assemble World.quiet 0 0 (sanitizeGasPrice World.quiet Config.sample)).result :=
  ⟨by decide, rfl,
    (recovery_gate_frame World.quiet Config.sample (by decide) rfl rfl rfl (Or.inl rfl)).2.2.2⟩

/-- C2, counterexample. With head height 42 and a probe failing with an I/O
error, `New` returns the probe's error but never closes the chain DB. -/
theorem sentinel_probe_failure_keeps_chain_db_open :
    World.probeFailure.headHeaderNumber = some 42 ∧
      World.probeFailure.getBaseDB = .error (.external 5) ∧
      (New World.probeFailure Config.sample).result = .error (.external 5) ∧
      Event.closeChainDb 0 ∉ (New World.probeFailure Config.sample).trace :=
  ⟨rfl, rfl, by decide, by decide⟩

/-- C2, amended. Sentinel-probe failure: with head height > 0 and a probe error
other than not-found, `New` closes the snapshot DB and nothing else (the chain
DB stays open), makes no further call, and returns the probe's error when that
close succeeds and the error of the close when it does not. -/
theorem sentinel_probe_failure (w : World) (config : Config)
    (hlight : config.SyncMode ≠ w.LightSync)
    (hvalid : w.syncModeIsValid config.SyncMode = true)
    (hchain : w.openChainDb 0 = none) (hsnap : w.openSnapshotDb 0 = none)
    (height : Nat) (hheight : w.headHeaderNumber = some height) (hpos : 0 < height)
    (err : Err) (hprobe : w.getBaseDB = .error err) (hne : err ≠ Err.errNotFound) :
    New w config =
      ⟨[.openChainDb 0, .setDBOptions, .openSnapshotDb 0, .readHeadHeaderNumber 0,
          .getBaseDB 0, .closeSnapshotDb 0],
        .error (match w.closeSnapshotDb 0 with
          | none => err
          | some closeErr => closeErr)⟩ := by
  rw [New_eq_of_opened w config hlight hvalid hchain hsnap]
  cases hclose : w.closeSnapshotDb 0 <;>
    simp [recoveryGate, hheight, heightPositive, hpos, hprobe, hne, hclose, Outcome.andThen,
      Outcome.emit, Outcome.call, Outcome.fail]

/-- Witness for C2 (amended): the I/O error of `World.probeFailure`. -/
theorem sentinel_probe_failure_witness :
    World.probeFailure.headHeaderNumber = some 42 ∧
      New World.probeFailure Config.sample =
        ⟨[.openChainDb 0, .setDBOptions, .openSnapshotDb 0, .readHeadHeaderNumber 0,
            .getBaseDB 0, .closeSnapshotDb 0], .error (.external 5)⟩ :=
  ⟨rfl, sentinel_probe_failure World.probeFailure Config.sample (by decide) rfl rfl rfl
    42 rfl (by decide) (.external 5) rfl (by decide)⟩

/-- C3. Aborted-fast-sync recovery sequence: with head height > 0 and a probe
that finds the sentinel, the calls of `New` after the probe follow
`recoverySequence`: read of the canonical hash at height 0, close of the chain
DB, close of the snapshot DB, removal of the freezer directory (only when one
is configured), of the chain DB directory, of the WAL directory and of the
snapshot DB directory, then the two reopens.  The trace is an initial part of
that sequence or goes beyond it, so no removal comes before the closes and no
reopen before the removals; it contains the whole sequence when no step fails;
and a failing removal or reopen makes `New` return an error. -/
theorem aborted_fast_sync_recovery (w : World) (config : Config)
    (hlight : config.SyncMode ≠ w.LightSync)
    (hvalid : w.syncModeIsValid config.SyncMode = true)
    (hchain : w.openChainDb 0 = none) (hsnap : w.openSnapshotDb 0 = none)
    (height : Nat) (hheight : w.headHeaderNumber = some height) (hpos : 0 < height)
    (status : List Nat) (hprobe : w.getBaseDB = .ok status) :
    ((New w config).trace <+:
          [.openChainDb 0, .setDBOptions, .openSnapshotDb 0, .readHeadHeaderNumber 0,
            .getBaseDB 0] ++ recoverySequence config ∨
        [.openChainDb 0, .setDBOptions, .openSnapshotDb 0, .readHeadHeaderNumber 0,
            .getBaseDB 0] ++ recoverySequence config <+: (New w config).trace) ∧
      ((w.closeSnapshotDb 0 = none ∧
          (config.DatabaseFreezer ≠ "" → w.removeAll .freezer = none) ∧
          w.removeAll .chaindata = none ∧ w.removeAll .wal = none ∧
          w.removeAll .snapshotdb = none ∧ w.openChainDb 1 = none ∧
          w.openSnapshotDb 1 = none) →
        [.openChainDb 0, .setDBOptions, .openSnapshotDb 0, .readHeadHeaderNumber 0,
            .getBaseDB 0] ++ recoverySequence config <+: (New w config).trace) ∧
      (((config.DatabaseFreezer ≠ "" ∧ w.removeAll .freezer ≠ none) ∨
          w.removeAll .chaindata ≠ none ∨ w.removeAll .wal ≠ none ∨
          w.removeAll .snapshotdb ≠ none ∨ w.openChainDb 1 ≠ none ∨
          w.openSnapshotDb 1 ≠ none) →
        ∃ e, (New w config).result = .error e) := by
  obtain ⟨htrace, hresult⟩ := New_trace_of_opened w config hlight hvalid hchain hsnap
  have hfreezer : (sanitizeGasPrice w config).DatabaseFreezer = config.DatabaseFreezer := by
    unfold sanitizeGasPrice
    split
    · rfl
    · split <;> rfl
  have hgate := recoveryGate_recover_trace w (sanitizeGasPrice w config) height hheight hpos
    status hprobe
  rw [recoverySequence_sanitize, hfreezer] at hgate
  have key : ((New w config).trace <+:
          [.openChainDb 0, .setDBOptions, .openSnapshotDb 0, .readHeadHeaderNumber 0,
            .getBaseDB 0] ++ recoverySequence config ∧
          (∃ e, (New w config).result = .error e) ∧
          ¬ (w.closeSnapshotDb 0 = none ∧
            (config.DatabaseFreezer ≠ "" → w.removeAll .freezer = none) ∧
            w.removeAll .chaindata = none ∧ w.removeAll .wal = none ∧
            w.removeAll .snapshotdb = none ∧ w.openChainDb 1 = none ∧
            w.openSnapshotDb 1 = none)) ∨
        ([.openChainDb 0, .setDBOptions, .openSnapshotDb 0, .readHeadHeaderNumber 0,
            .getBaseDB 0] ++ recoverySequence config <+: (New w config).trace ∧
          w.closeSnapshotDb 0 = none ∧
          (config.DatabaseFreezer ≠ "" → w.removeAll .freezer = none) ∧
          w.removeAll .chaindata = none ∧ w.removeAll .wal = none ∧
          w.removeAll .snapshotdb = none ∧ w.openChainDb 1 = none ∧
          w.openSnapshotDb 1 = none) := by
    rcases hgate with ⟨hpre, ⟨e, he⟩, hnot⟩ | ⟨hpre, hok⟩
    · left
      rw [htrace, hresult, Outcome.andThen_of_error _ _ e he]
      exact ⟨(List.prefix_append_right_inj [.openChainDb 0, .setDBOptions, .openSnapshotDb 0]).2
        hpre, ⟨e, rfl⟩, hnot⟩
    · right
      refine ⟨?_, hok⟩
      rw [htrace]
      exact (List.prefix_append_right_inj [.openChainDb 0, .setDBOptions, .openSnapshotDb 0]).2
        (hpre.trans (Outcome.trace_prefix_andThen _ _))
  refine ⟨?_, ?_, ?_⟩
  · rcases key with ⟨h, _⟩ | ⟨h, _⟩
    · exact Or.inl h
    · exact Or.inr h
  · intro hall
    rcases key with ⟨_, _, hnot⟩ | ⟨h, _⟩
    · exact absurd hall hnot
    · exact h
  · intro hfail
    rcases key with ⟨_, he, _⟩ | ⟨_, h1, h7, h2, h3, h4, h5, h6⟩
    · exact he
    · simp_all


/-- Witness for C3: scenario S2, head height 42 with the sentinel present. -/
theorem aborted_fast_sync_recovery_witness :
    World.abortedFastSync.headHeaderNumber = some 42 ∧
      World.abortedFastSync.getBaseDB = .ok [0, 0] ∧
      [.openChainDb 0, .setDBOptions, .openSnapshotDb 0, .readHeadHeaderNumber 0,
          .getBaseDB 0] ++ recoverySequence Config.sample <+:
        (New World.abortedFastSync Config.sample).trace :=
  ⟨rfl, rfl,
    (aborted_fast_sync_recovery World.abortedFastSync Config.sample (by decide) rfl rfl rfl
      42 rfl (by decide) [0, 0] rfl).2.1 ⟨rfl, fun _ => rfl, rfl, rfl, rfl, rfl, rfl⟩⟩

/-! ## Genesis reconciliation -/

/-- What `New` returns carries the reconciled chain configuration. -/
theorem assemble_chainConfig (w : World) (chainDb snapshotBaseDB : Handle) (config : Config)
    (eth : Ethereum) (h : (New.assemble w chainDb snapshotBaseDB config).result = .ok eth) :
    eth.chainConfig =
      reconcile (w.setupGenesisBlock chainDb snapshotBaseDB config.Genesis).chainConfig config := by
  simp only [New.assemble, Outcome.bind_eq_andThen, Outcome.pure_eq_ret,
    Outcome.result_andThen_ok] at h
  obtain ⟨_, _, _, _, _, _, _, _, _, _, _, _, _, _, _, _, _, _, _, _, _, _, _, _, _, _, _, _, _, _,
    _, _, _, _, _, _, _, _, _, _, _, h⟩ := h
  simp only [Outcome.ret, Result.ok.injEq] at h
  rw [← h.2]

/-- C4, counterexample. A stored configuration with zero period and amount,
reconciled with a node configuration whose period and amount are zero too,
keeps a zero period and a zero amount. -/
theorem reconcile_zero_stays_zero :
    (reconcile ChainConfig.unset Config.zeroPbft).Pbft.Period = 0 ∧
      (reconcile ChainConfig.unset Config.zeroPbft).Pbft.Amount = 0 := by
  decide

/-- C4, amended. ChainConfig positivity: after the reconciliation step the PBFT
period and amount are both strictly positive exactly when both were non-zero in
storage, or one of them was zero and the period and amount of the node
configuration are both strictly positive. -/
theorem reconcile_positive_iff (chainConfig : ChainConfig) (config : Config) :
    (0 < (reconcile chainConfig config).Pbft.Period ∧
        0 < (reconcile chainConfig config).Pbft.Amount) ↔
      (chainConfig.Pbft.Period ≠ 0 ∧ chainConfig.Pbft.Amount ≠ 0) ∨
        ((chainConfig.Pbft.Period = 0 ∨ chainConfig.Pbft.Amount = 0) ∧
          0 < config.PbftPeriod ∧ 0 < config.PbftAmount) := by
  unfold reconcile
  split
  next h =>
    simp only
    constructor
    · intro hp
      exact Or.inr ⟨h, hp⟩
    · rintro (⟨h1, h2⟩ | ⟨_, hp⟩)
      · rcases h with h | h
        · exact absurd h h1
        · exact absurd h h2
      · exact hp
  next h =>
    simp only [not_or] at h
    constructor
    · intro _
      exact Or.inl h
    · intro _
      exact ⟨Nat.pos_of_ne_zero h.1, Nat.pos_of_ne_zero h.2⟩

/-- C5, counterexample. A stored period of 3 next to a stored amount of 0 is
replaced by the node configuration's period 5. -/
theorem reconcile_overwrites_nonzero_period :
    ChainConfig.halfSet.Pbft.Period = 3 ∧
      (reconcile ChainConfig.halfSet Config.fiveSeven).Pbft.Period = 5 := by
  decide

/-- C5, amended. Reconciliation fills both fields or none: when the stored
period and amount are both non-zero the chain configuration is unchanged; when
either of them is zero both are taken from the node configuration; the chain
identifier, validator mode and initial nodes are never changed. -/
theorem reconcile_fills_both_or_none (chainConfig : ChainConfig) (config : Config) :
    ((chainConfig.Pbft.Period ≠ 0 ∧ chainConfig.Pbft.Amount ≠ 0) →
        reconcile chainConfig config = chainConfig) ∧
      ((chainConfig.Pbft.Period = 0 ∨ chainConfig.Pbft.Amount = 0) →
        (reconcile chainConfig config).Pbft.Period = config.PbftPeriod ∧
          (reconcile chainConfig config).Pbft.Amount = config.PbftAmount) ∧
      (reconcile chainConfig config).ChainID = chainConfig.ChainID ∧
      (reconcile chainConfig config).Pbft.ValidatorMode = chainConfig.Pbft.ValidatorMode ∧
      (reconcile chainConfig config).Pbft.InitialNodes = chainConfig.Pbft.InitialNodes := by
  unfold reconcile
  refine ⟨?_, ?_, ?_, ?_, ?_⟩
  · rintro ⟨h1, h2⟩
    simp [h1, h2]
  · intro h
    simp [h]
  · split <;> rfl
  · split <;> rfl
  · split <;> rfl

/-- Witness for C5 (amended): a stored amount of zero pulls in both fields. -/
theorem reconcile_fills_both_or_none_witness :
    (ChainConfig.halfSet.Pbft.Period = 0 ∨ ChainConfig.halfSet.Pbft.Amount = 0) ∧
      (reconcile ChainConfig.halfSet Config.fiveSeven).Pbft.Period = 5 ∧
      (reconcile ChainConfig.halfSet Config.fiveSeven).Pbft.Amount = 7 :=
  ⟨Or.inr rfl,
    (reconcile_fills_both_or_none ChainConfig.halfSet Config.fiveSeven).2.1 (Or.inr rfl)⟩

/-! ## Incompatible upgrade -/

/-- The three ways the database version check can go. -/
theorem checkDatabaseVersion_eq (w : World) (config : Config) (chainDb : Handle) :
    checkDatabaseVersion w config chainDb =
      if config.SkipBcVersionCheck = false ∧
          versionNewer w (w.readDatabaseVersion chainDb) = true then
        ⟨[.readDatabaseVersion chainDb],
          .error (.message
            (databaseVersionMessage w ((w.readDatabaseVersion chainDb).getD 0)))⟩
      else if config.SkipBcVersionCheck = false ∧
          versionOlder w (w.readDatabaseVersion chainDb) = true then
        ⟨[.readDatabaseVersion chainDb, .writeDatabaseVersion chainDb w.BlockChainVersion],
          .ok ()⟩
      else
        ⟨[.readDatabaseVersion chainDb], .ok ()⟩ := by
  unfold checkDatabaseVersion
  cases hs : config.SkipBcVersionCheck <;>
    cases hn : versionNewer w (w.readDatabaseVersion chainDb) <;>
    cases ho : versionOlder w (w.readDatabaseVersion chainDb) <;>
    simp [hs, hn, ho, Outcome.andThen, Outcome.emit, Outcome.fail, Outcome.ret]

/-- The run of `New` once the gate has handed over handles and configuration. -/
theorem New_eq_of_gate_ok (w : World) (config : Config)
    (hlight : config.SyncMode ≠ w.LightSync)
    (hvalid : w.syncModeIsValid config.SyncMode = true)
    (hchain : w.openChainDb 0 = none) (hsnap : w.openSnapshotDb 0 = none)
    (chainDb snapshotBaseDB : Handle) (config' : Config)
    (hgate : (recoveryGate w (sanitizeGasPrice w config)).result =
      .ok (chainDb, snapshotBaseDB, config')) :
    New w config =
      ⟨[.openChainDb 0, .setDBOptions, .openSnapshotDb 0] ++
          (recoveryGate w (sanitizeGasPrice w config)).trace ++
          (New.assemble w chainDb snapshotBaseDB config').trace,
        (New.assemble w chainDb snapshotBaseDB config').result⟩ := by
  rw [New_eq_of_opened w config hlight hvalid hchain hsnap,
    Outcome.andThen_of_ok _ _ _ hgate]
  simp [Outcome.andThen]

/-- The assembly up to the return of a compatibility error (line 269). -/
theorem incompatible_upgrade_assemble (w : World) (chainDb snapshotBaseDB : Handle)
    (config : Config) (code : Nat)
    (hcompat : (w.setupGenesisBlock chainDb snapshotBaseDB config.Genesis).genesisErr =
      some (.configCompat code))
    (hclose : w.closeSnapshotDb snapshotBaseDB = none) (hpbft : w.pbftNew = true)
    (hversion : config.SkipBcVersionCheck = true ∨
      versionNewer w (w.readDatabaseVersion chainDb) = false)
    (hblockchain : w.newBlockChain = none) :
    New.assemble w chainDb snapshotBaseDB config =
      ⟨[.setupGenesisBlock chainDb snapshotBaseDB config.Genesis,
          .closeSnapshotDb snapshotBaseDB,
          .createConsensusEngine
            (reconcile (w.setupGenesisBlock chainDb snapshotBaseDB config.Genesis).chainConfig
              config).Pbft,
          .newBloomIndexer chainDb] ++
        (checkDatabaseVersion w config chainDb).trace ++
        [.newBlockChain chainDb
            (reconcile (w.setupGenesisBlock chainDb snapshotBaseDB config.Genesis).chainConfig
              config),
          .setDBBlockChain, .newBlockChainCache],
        .error (.configCompat code)⟩ := by
  have hcheck : (checkDatabaseVersion w config chainDb).result = .ok () := by
    rw [checkDatabaseVersion_eq]
    rcases hversion with h | h
    · simp [h]
    · simp only [h, Bool.false_eq_true, and_false, if_false]
      split <;> rfl
  simp [New.assemble, Outcome.andThen, Outcome.emit, Outcome.call, Outcome.returnError,
    CreateConsensusEngine, hcompat, hclose, hpbft, hcheck, hblockchain, isConfigCompat,
    nonCompatError, compatError]

/-- The assembly up to the return of any other genesis error (line 195). -/
theorem genesis_error_assemble (w : World) (chainDb snapshotBaseDB : Handle)
    (config : Config) (genesisErr : Err)
    (herr : (w.setupGenesisBlock chainDb snapshotBaseDB config.Genesis).genesisErr =
      some genesisErr)
    (hnot : isConfigCompat genesisErr = false) :
    New.assemble w chainDb snapshotBaseDB config =
      ⟨[.setupGenesisBlock chainDb snapshotBaseDB config.Genesis,
          .closeSnapshotDb snapshotBaseDB],
        .error (match w.closeSnapshotDb snapshotBaseDB with
          | none => genesisErr
          | some closeErr => closeErr)⟩ := by
  cases hclose : w.closeSnapshotDb snapshotBaseDB <;>
    simp [New.assemble, Outcome.andThen, Outcome.emit, Outcome.call, Outcome.returnError,
      nonCompatError, herr, hnot, hclose]

/-- The version check only reads and writes the version key. -/
theorem checkDatabaseVersion_trace (w : World) (config : Config) (chainDb : Handle)
    (ev : Event) (h : ev ∈ (checkDatabaseVersion w config chainDb).trace) :
    ev = .readDatabaseVersion chainDb ∨ ev = .writeDatabaseVersion chainDb w.BlockChainVersion := by
  rw [checkDatabaseVersion_eq] at h
  split at h
  · simp only [List.mem_singleton] at h
    exact Or.inl h
  · split at h
    · simpa using h
    · simp only [List.mem_singleton] at h
      exact Or.inl h

/-- C6, counterexample. With a stored genesis that is incompatible, `New` has
called `core.NewBlockChain` by the time it returns the compatibility error; and
when the stored database version is newer than the binary's, `New` returns the
database-version error instead of the compatibility error. -/
theorem incompatible_upgrade_constructs_block_chain :
    (World.incompatibleUpgrade.setupGenesisBlock 0 0 none).genesisErr = some (.configCompat 1) ∧
      Event.newBlockChain 0 ⟨304, ⟨3, 10, "", [1, 2, 3, 4]⟩⟩ ∈
        (New World.incompatibleUpgrade Config.sample).trace ∧
      (New World.incompatibleNewerDb Config.sample).result =
        .error (.message "database version is v9, PhoenixChain 1.0.0 only supports v3") :=
  ⟨rfl, by decide, by decide⟩

/-- C6, amended. Incompatible upgrade: when genesis setup returns an error of
kind ConfigCompat and the steps that precede the compatibility test succeed
(snapshot DB close, engine construction, database version check, block chain
construction), `New` returns that compatibility error; by then it has
constructed the consensus engine, the bloom indexer and the block chain and has
run the version check (which only reads and writes the version key), and it has
neither started the bloom indexer nor made a transaction pool, miner, engine
start or protocol manager.  Any other non-nil genesis error makes `New` fail,
with that error or with the error of the snapshot DB close. -/
theorem incompatible_upgrade (w : World) (config : Config)
    (hlight : config.SyncMode ≠ w.LightSync)
    (hvalid : w.syncModeIsValid config.SyncMode = true)
    (hchain : w.openChainDb 0 = none) (hsnap : w.openSnapshotDb 0 = none)
    (chainDb snapshotBaseDB : Handle) (config' : Config)
    (hgate : (recoveryGate w (sanitizeGasPrice w config)).result =
      .ok (chainDb, snapshotBaseDB, config')) :
    (∀ code,
        (w.setupGenesisBlock chainDb snapshotBaseDB config'.Genesis).genesisErr =
          some (.configCompat code) →
        w.closeSnapshotDb snapshotBaseDB = none → w.pbftNew = true →
        (config'.SkipBcVersionCheck = true ∨
          versionNewer w (w.readDatabaseVersion chainDb) = false) →
        w.newBlockChain = none →
        (New w config).result = .error (.configCompat code) ∧
          (New w config).trace =
            [.openChainDb 0, .setDBOptions, .openSnapshotDb 0] ++
              (recoveryGate w (sanitizeGasPrice w config)).trace ++
              ([.setupGenesisBlock chainDb snapshotBaseDB config'.Genesis,
                  .closeSnapshotDb snapshotBaseDB,
                  .createConsensusEngine
                    (reconcile
                      (w.setupGenesisBlock chainDb snapshotBaseDB config'.Genesis).chainConfig
                      config').Pbft,
                  .newBloomIndexer chainDb] ++
                (checkDatabaseVersion w config' chainDb).trace ++
                [.newBlockChain chainDb
                    (reconcile
                      (w.setupGenesisBlock chainDb snapshotBaseDB config'.Genesis).chainConfig
                      config'),
                  .setDBBlockChain, .newBlockChainCache])) ∧
      (∀ ev ∈ (checkDatabaseVersion w config' chainDb).trace,
        ev = .readDatabaseVersion chainDb ∨
          ev = .writeDatabaseVersion chainDb w.BlockChainVersion) ∧
      (∀ genesisErr,
        (w.setupGenesisBlock chainDb snapshotBaseDB config'.Genesis).genesisErr =
          some genesisErr →
        isConfigCompat genesisErr = false →
        ∃ e, (New w config).result = .error e ∧
          (e = genesisErr ∨ w.closeSnapshotDb snapshotBaseDB = some e)) := by
  have hnew := New_eq_of_gate_ok w config hlight hvalid hchain hsnap chainDb snapshotBaseDB
    config' hgate
  refine ⟨?_, checkDatabaseVersion_trace w config' chainDb, ?_⟩
  · intro code hcompat hclose hpbft hversion hblockchain
    rw [hnew, incompatible_upgrade_assemble w chainDb snapshotBaseDB config' code hcompat hclose
      hpbft hversion hblockchain]
    exact ⟨rfl, rfl⟩
  · intro genesisErr herr hnot
    rw [hnew, genesis_error_assemble w chainDb snapshotBaseDB config' genesisErr herr hnot]
    cases hclose : w.closeSnapshotDb snapshotBaseDB
    · exact ⟨genesisErr, rfl, Or.inl rfl⟩
    · exact ⟨_, rfl, Or.inr rfl⟩

/-- Witness for C6 (amended): scenario S6. -/
theorem incompatible_upgrade_witness :
    (World.incompatibleUpgrade.setupGenesisBlock 0 0 none).genesisErr = some (.configCompat 1) ∧
      (New World.incompatibleUpgrade Config.sample).result = .error (.configCompat 1) :=
  ⟨rfl, ((incompatible_upgrade World.incompatibleUpgrade Config.sample (by decide) rfl rfl rfl
    0 0 Config.sample rfl).1 1 rfl rfl rfl (Or.inr rfl) rfl).1⟩


/-! ## Traces and results of single steps -/

@[simp] theorem Outcome.trace_emit (ev : Event) : (Outcome.emit ev).trace = [ev] := rfl

@[simp] theorem Outcome.result_emit (ev : Event) : (Outcome.emit ev).result = .ok () := rfl

@[simp] theorem Outcome.trace_call (ev : Event) (answer : Option Err) :
    (Outcome.call ev answer).trace = [ev] := rfl

@[simp] theorem Outcome.result_call_ok (ev : Event) (answer : Option Err) (u : Unit) :
    (Outcome.call ev answer).result = .ok u ↔ answer = none := by
  cases answer <;> simp [Outcome.call]

@[simp] theorem Outcome.trace_callE {α : Type} (ev : Event) (answer : Except Err α) :
    (Outcome.callE ev answer).trace = [ev] := rfl

@[simp] theorem Outcome.result_callE_ok {α : Type} (ev : Event) (answer : Except Err α) (a : α) :
    (Outcome.callE ev answer).result = .ok a ↔ answer = .ok a := by
  cases answer <;> simp [Outcome.callE]

@[simp] theorem Outcome.trace_returnError (err : Option Err) :
    (Outcome.returnError err).trace = [] := rfl

@[simp] theorem Outcome.result_returnError_ok (err : Option Err) (u : Unit) :
    (Outcome.returnError err).result = .ok u ↔ err = none := by
  cases err <;> simp [Outcome.returnError]

@[simp] theorem Outcome.trace_failWhen (c : Prop) [Decidable c] (e : Err) :
    (Outcome.failWhen c e).trace = [] := rfl

@[simp] theorem Outcome.result_failWhen_ok (c : Prop) [Decidable c] (e : Err) (u : Unit) :
    (Outcome.failWhen c e).result = .ok u ↔ ¬ c := by
  by_cases h : c <;> simp [Outcome.failWhen, h]

@[simp] theorem Outcome.trace_ret {α : Type} (a : α) : (Outcome.ret a).trace = [] := rfl

@[simp] theorem Outcome.result_ret {α : Type} (a : α) : (Outcome.ret a).result = .ok a := rfl

@[simp] theorem Outcome.trace_replaceError {α : Type} (m : Outcome α) (e : Err) :
    (Outcome.replaceError m e).trace = m.trace := rfl

@[simp] theorem Outcome.result_replaceError_ok {α : Type} (m : Outcome α) (e : Err) (a : α) :
    (Outcome.replaceError m e).result = .ok a ↔ m.result = .ok a := by
  unfold Outcome.replaceError
  cases m.result <;> simp

@[simp] theorem trace_CreateConsensusEngine (w : World) (chainConfig : ChainConfig) :
    (CreateConsensusEngine w chainConfig).trace = [.createConsensusEngine chainConfig.Pbft] :=
  rfl

@[simp] theorem result_CreateConsensusEngine_ok (w : World) (chainConfig : ChainConfig)
    (u : Unit) : (CreateConsensusEngine w chainConfig).result = .ok u ↔ w.pbftNew = true := by
  cases h : w.pbftNew <;> simp [CreateConsensusEngine, h]

/-! ## Consensus assembly -/

/-- The four ways the validator-mode dispatch can go. -/
theorem validatorDispatch_eq (w : World) (chainConfig : ChainConfig) :
    validatorDispatch w chainConfig =
      if chainConfig.Pbft.ValidatorMode = "" ∨
          chainConfig.Pbft.ValidatorMode = w.STATIC_VALIDATOR_MODE then
        ⟨[.newStaticAgency chainConfig.Pbft.InitialNodes, .reactorStart w.STATIC_VALIDATOR_MODE],
          .ok (some (.static chainConfig.Pbft.InitialNodes))⟩
      else if chainConfig.Pbft.ValidatorMode = w.INNER_VALIDATOR_MODE then
        ⟨[.newInnerAgency chainConfig.Pbft.InitialNodes
              (wrapInt64 (chainConfig.Pbft.Amount : Int))
              (wrapInt64 (wrapInt64 (chainConfig.Pbft.Amount : Int) * 2)),
            .reactorStart w.INNER_VALIDATOR_MODE],
          .ok (some (.inner chainConfig.Pbft.InitialNodes
            (wrapInt64 (chainConfig.Pbft.Amount : Int))
            (wrapInt64 (wrapInt64 (chainConfig.Pbft.Amount : Int) * 2))))⟩
      else if chainConfig.Pbft.ValidatorMode = w.DPOS_VALIDATOR_MODE then
        ⟨[.reactorStart w.DPOS_VALIDATOR_MODE, .reactorSetVRFhandler, .reactorSetPluginEventMux,
            .reactorSetPrivateKey, .rewardSetCurrentNodeID, .registerPlugin .SlashingRule,
            .slashSetDecodeEvidenceFun, .registerPlugin .StakingRule,
            .registerPlugin .RestrictingRule, .registerPlugin .RewardRule, .govSetChainID,
            .registerPlugin .GovernanceRule,
            .setBeginRule
              [.StakingRule, .SlashingRule, .CollectDeclareVersionRule, .GovernanceRule],
            .setEndRule
              [.CollectDeclareVersionRule, .RestrictingRule, .RewardRule, .GovernanceRule,
                .StakingRule],
            .registerGovernParamVerifiers],
          .ok (some .reactor)⟩
      else
        ⟨[], .ok none⟩ := by
  unfold validatorDispatch
  split
  · simp [Outcome.andThen, Outcome.emit, Outcome.ret]
  · split
    · simp [Outcome.andThen, Outcome.emit, Outcome.ret]
    · split
      · simp [handlePlugin, Outcome.andThen, Outcome.emit, Outcome.ret]
      · rfl

/-- The dispatch makes consensus calls only. -/
theorem validatorDispatch_trace (w : World) (chainConfig : ChainConfig) :
    ∀ ev ∈ (validatorDispatch w chainConfig).trace, ev.consensusCall = true := by
  rw [validatorDispatch_eq]
  split
  · simp [Event.consensusCall]
  · split
    · simp [Event.consensusCall]
    · split <;> simp [Event.consensusCall]

/-- Go's `int(x)` and `int(x) * 2` are exact on a `uint32`. -/
theorem wrapInt64_of_small (n : Nat) (h : n < 2 ^ 32) :
    wrapInt64 (n : Int) = n ∧ wrapInt64 (wrapInt64 (n : Int) * 2) = 2 * (n : Int) := by
  have h1 : wrapInt64 (n : Int) = n := by
    unfold wrapInt64
    norm_num at h ⊢
    omega
  rw [h1]
  unfold wrapInt64
  norm_num at h ⊢
  omega

/-- The replay loop only fetches, executes and commits blocks. -/
theorem recoverSnapshotDB_loop_trace (w : World) (blockChanHegiht : Nat) (ev : Event) :
    ∀ (fuel i : Nat), ev ∈ (recoverSnapshotDB.loop w blockChanHegiht fuel i).trace →
      ev.replayCall = true := by
  intro fuel
  induction fuel with
  | zero =>
    intro i h
    simp [recoverSnapshotDB.loop] at h
  | succ fuel ih =>
    intro i h
    unfold recoverSnapshotDB.loop at h
    split at h
    · simp only [Outcome.mem_trace_andThen, Outcome.emit, Outcome.call, List.mem_singleton] at h
      rcases h with h | ⟨_, _, h | ⟨_, _, h | ⟨_, _, h | ⟨_, _, h⟩⟩⟩⟩
      · rw [h]; rfl
      · rw [h]; rfl
      · rw [h]; rfl
      · rw [h]; rfl
      · exact ih _ h
    · simp [Outcome.ret] at h

/-- `recoverSnapshotDB` only fetches, executes and commits blocks. -/
theorem recoverSnapshotDB_trace (w : World) (ev : Event)
    (h : ev ∈ (recoverSnapshotDB w).trace) : ev.replayCall = true := by
  unfold recoverSnapshotDB at h
  simp only at h
  split at h
  · exact recoverSnapshotDB_loop_trace w _ ev _ _ h
  · simp [Outcome.ret] at h


theorem Outcome.forall_trace_andThen {α β : Type} (P : Event → Prop) (m : Outcome α)
    (f : α → Outcome β) (hm : ∀ ev ∈ m.trace, P ev) (hf : ∀ a, ∀ ev ∈ (f a).trace, P ev) :
    ∀ ev ∈ (Outcome.andThen m f).trace, P ev := by
  intro ev h
  rcases (Outcome.mem_trace_andThen m f ev).1 h with h | ⟨a, _, h⟩
  · exact hm ev h
  · exact hf a ev h

theorem Outcome.forall_result_andThen {α β : Type} (Q : β → Prop) (m : Outcome α)
    (f : α → Outcome β) (hf : ∀ a, ∀ b, (f a).result = .ok b → Q b) :
    ∀ b, (Outcome.andThen m f).result = .ok b → Q b := by
  intro b h
  obtain ⟨a, _, h⟩ := (Outcome.result_andThen_ok m f b).1 h
  exact hf a b h

/-- The gate makes storage calls only. -/
theorem recoveryGate_trace (w : World) (config : Config) :
    ∀ ev ∈ (recoveryGate w config).trace, ev.beforeGenesis = true := by
  unfold recoveryGate
  simp only [Outcome.bind_eq_andThen, Outcome.pure_eq_ret]
  repeat' first
    | apply Outcome.forall_trace_andThen
    | (simp [Event.beforeGenesis, Outcome.fail]; done)
    | split
    | intro _

/-- What the gate hands over: handles `0`, `0` or `1`, `1`, and the
configuration with at most the genesis replaced. -/
theorem recoveryGate_result (w : World) (config : Config) :
    ∀ r, (recoveryGate w config).result = .ok r →
      (r.1 = r.2.1) ∧ (r.1 = 0 ∨ r.1 = 1) ∧ r.2.2 = { config with Genesis := r.2.2.Genesis } := by
  unfold recoveryGate
  simp only [Outcome.bind_eq_andThen, Outcome.pure_eq_ret]
  repeat' first
    | apply Outcome.forall_result_andThen
    | (simp [Outcome.fail, Outcome.ret]; done)
    | split
    | intro _

/-- A call that is not a storage call is made by the assembly, after the gate
has handed over. -/
theorem New_of_mem_trace (w : World) (config : Config) (ev : Event)
    (hev : ev.beforeGenesis = false) (h : ev ∈ (New w config).trace) :
    ∃ chainDb snapshotBaseDB config',
      (recoveryGate w (sanitizeGasPrice w config)).result =
        .ok (chainDb, snapshotBaseDB, config') ∧
      New w config =
        ⟨[.openChainDb 0, .setDBOptions, .openSnapshotDb 0] ++
            (recoveryGate w (sanitizeGasPrice w config)).trace ++
            (New.assemble w chainDb snapshotBaseDB config').trace,
          (New.assemble w chainDb snapshotBaseDB config').result⟩ ∧
      ev ∈ (New.assemble w chainDb snapshotBaseDB config').trace := by
  have h1 : ev ≠ .openChainDb 0 := by
    rintro rfl
    simp [Event.beforeGenesis] at hev
  have h2 : ev ≠ .setDBOptions := by
    rintro rfl
    simp [Event.beforeGenesis] at hev
  have h3 : ev ≠ .openSnapshotDb 0 := by
    rintro rfl
    simp [Event.beforeGenesis] at hev
  have h4 : ev ∉ (recoveryGate w (sanitizeGasPrice w config)).trace := by
    intro hmem
    rw [recoveryGate_trace w _ ev hmem] at hev
    cases hev
  simp only [New, Outcome.bind_eq_andThen, Outcome.mem_trace_andThen, Outcome.trace_failWhen,
    Outcome.result_failWhen_ok, Outcome.trace_call, Outcome.result_call_ok, Outcome.trace_emit,
    Outcome.result_emit, List.mem_singleton, List.not_mem_nil, h1, h2, h3, h4, false_or,
    exists_const, Result.ok.injEq, exists_eq_left'] at h
  obtain ⟨hlight, hvalid, hchain, _, hsnap, ⟨chainDb, snapshotBaseDB, config'⟩, hgate, hmem⟩ := h
  exact ⟨chainDb, snapshotBaseDB, config', hgate,
    New_eq_of_gate_ok w config hlight (by simpa using hvalid) hchain hsnap chainDb
      snapshotBaseDB config' hgate, hmem⟩


/-- The engine's `Start` is reached only through the dispatch, and gets the
agency the dispatch chose. -/
theorem engineStart_agency (w : World) (chainDb snapshotBaseDB : Handle) (config : Config)
    (agency : Option Agency)
    (h : Event.engineStart agency ∈ (New.assemble w chainDb snapshotBaseDB config).trace) :
    (validatorDispatch w
      (reconcile (w.setupGenesisBlock chainDb snapshotBaseDB config.Genesis).chainConfig
        config)).result = .ok agency := by
  have hversion : Event.engineStart agency ∉ (checkDatabaseVersion w config chainDb).trace := by
    intro hmem
    rcases checkDatabaseVersion_trace w config chainDb _ hmem with h | h <;> cases h
  have hrecover : Event.engineStart agency ∉ (recoverSnapshotDB w).trace := fun hmem => by
    simpa [Event.replayCall] using recoverSnapshotDB_trace w _ hmem
  have hdispatch : Event.engineStart agency ∉ (validatorDispatch w
      (reconcile (w.setupGenesisBlock chainDb snapshotBaseDB config.Genesis).chainConfig
        config)).trace := fun hmem => by
    simpa [Event.consensusCall] using validatorDispatch_trace _ _ _ hmem
  by_cases hbft : w.engineIsBft = true
  · simp [New.assemble, Outcome.mem_trace_andThen, hversion, hrecover, hdispatch, hbft] at h
    obtain ⟨_, _, _, _, _, _, _, _, _, h, _⟩ := h
    exact h
  · simp [New.assemble, Outcome.mem_trace_andThen, hversion, hbft] at h

/-- The block chain is built on the handle the gate handed over, with the
reconciled chain configuration. -/
theorem newBlockChain_mem_assemble (w : World) (chainDb snapshotBaseDB : Handle)
    (config : Config) (db : Handle) (chainConfig : ChainConfig)
    (h : Event.newBlockChain db chainConfig ∈ (New.assemble w chainDb snapshotBaseDB config).trace) :
    db = chainDb ∧ chainConfig =
      reconcile (w.setupGenesisBlock chainDb snapshotBaseDB config.Genesis).chainConfig
        config := by
  have hversion : Event.newBlockChain db chainConfig ∉
      (checkDatabaseVersion w config chainDb).trace := by
    intro hmem
    rcases checkDatabaseVersion_trace w config chainDb _ hmem with h | h <;> cases h
  have hrecover : Event.newBlockChain db chainConfig ∉ (recoverSnapshotDB w).trace :=
    fun hmem => by simpa [Event.replayCall] using recoverSnapshotDB_trace w _ hmem
  have hdispatch : Event.newBlockChain db chainConfig ∉ (validatorDispatch w
      (reconcile (w.setupGenesisBlock chainDb snapshotBaseDB config.Genesis).chainConfig
        config)).trace := fun hmem => by
    simpa [Event.consensusCall] using validatorDispatch_trace _ _ _ hmem
  by_cases hbft : w.engineIsBft = true
  · simp [New.assemble, Outcome.mem_trace_andThen, hversion, hrecover, hdispatch, hbft] at h
    obtain ⟨_, _, _, _, h1, h2⟩ := h
    exact ⟨h1, h2⟩
  · simp [New.assemble, Outcome.mem_trace_andThen, hversion, hbft] at h
    obtain ⟨_, _, _, _, h1, h2⟩ := h
    exact ⟨h1, h2⟩

/-- The reactor is started by the dispatch only. -/
theorem reactorStart_mem_assemble (w : World) (chainDb snapshotBaseDB : Handle)
    (config : Config) (mode : String)
    (h : Event.reactorStart mode ∈ (New.assemble w chainDb snapshotBaseDB config).trace) :
    Event.reactorStart mode ∈ (validatorDispatch w
      (reconcile (w.setupGenesisBlock chainDb snapshotBaseDB config.Genesis).chainConfig
        config)).trace := by
  have hversion : Event.reactorStart mode ∉ (checkDatabaseVersion w config chainDb).trace := by
    intro hmem
    rcases checkDatabaseVersion_trace w config chainDb _ hmem with h | h <;> cases h
  have hrecover : Event.reactorStart mode ∉ (recoverSnapshotDB w).trace :=
    fun hmem => by simpa [Event.replayCall] using recoverSnapshotDB_trace w _ hmem
  by_cases hbft : w.engineIsBft = true
  · simp [New.assemble, Outcome.mem_trace_andThen, hversion, hrecover, hbft] at h
    obtain ⟨_, _, _, _, _, _, _, _, _, h⟩ := h
    exact h
  · simp [New.assemble, Outcome.mem_trace_andThen, hversion, hbft] at h

/-- Once the assembly reaches the consensus part, every call of the dispatch
is a call of the assembly. -/
theorem validatorDispatch_sub_assemble (w : World) (chainDb snapshotBaseDB : Handle)
    (config : Config)
    (h : Event.newExecutor ∈ (New.assemble w chainDb snapshotBaseDB config).trace) :
    ∀ ev ∈ (validatorDispatch w
      (reconcile (w.setupGenesisBlock chainDb snapshotBaseDB config.Genesis).chainConfig
        config)).trace, ev ∈ (New.assemble w chainDb snapshotBaseDB config).trace := by
  have hversion : Event.newExecutor ∉ (checkDatabaseVersion w config chainDb).trace := by
    intro hmem
    rcases checkDatabaseVersion_trace w config chainDb _ hmem with h | h <;> cases h
  have hrecover : Event.newExecutor ∉ (recoverSnapshotDB w).trace :=
    fun hmem => by simpa [Event.replayCall] using recoverSnapshotDB_trace w _ hmem
  have hdispatch : Event.newExecutor ∉ (validatorDispatch w
      (reconcile (w.setupGenesisBlock chainDb snapshotBaseDB config.Genesis).chainConfig
        config)).trace := fun hmem => by
    simpa [Event.consensusCall] using validatorDispatch_trace _ _ _ hmem
  by_cases hbft : w.engineIsBft = true
  · simp [New.assemble, Outcome.mem_trace_andThen, hversion, hrecover, hdispatch, hbft] at h
    intro ev hev
    simp [New.assemble, Outcome.mem_trace_andThen, hbft, h, hev]
  · simp [New.assemble, Outcome.mem_trace_andThen, hversion, hbft] at h

/-- Steps that make no consensus call and do not enter the consensus part can
be skipped when collecting the consensus calls of a run. -/
theorem Outcome.consensusCalls_andThen {α β : Type} (calls : List Event) (m : Outcome α)
    (f : α → Outcome β)
    (hm : ∀ ev ∈ m.trace, ev.consensusCall = false ∧ ev ≠ Event.newExecutor)
    (hf : ∀ a, (f a).trace.filter Event.consensusCall =
      if Event.newExecutor ∈ (f a).trace then calls else []) :
    (Outcome.andThen m f).trace.filter Event.consensusCall =
      if Event.newExecutor ∈ (Outcome.andThen m f).trace then calls else [] := by
  have h1 : m.trace.filter Event.consensusCall = [] := by
    rw [List.filter_eq_nil_iff]
    intro ev hev
    simp [(hm ev hev).1]
  have h2 : Event.newExecutor ∉ m.trace := fun hmem => (hm _ hmem).2 rfl
  unfold Outcome.andThen
  split
  · simp [h1, h2, hf]
  · simp [h1, h2]
  · simp [h1, h2]
  · simp [h1, h2]

theorem Outcome.andThen_assoc {α β γ : Type} (m : Outcome α) (f : α → Outcome β)
    (g : β → Outcome γ) :
    Outcome.andThen (Outcome.andThen m f) g =
      Outcome.andThen m (fun a => Outcome.andThen (f a) g) := by
  unfold Outcome.andThen
  cases hm : m.result with
  | ok a =>
    simp only
    cases hf : (f a).result <;> simp [List.append_assoc]
  | error e => rfl
  | panic msg => rfl
  | outOfFuel => rfl

/-- The dispatch never fails. -/
theorem validatorDispatch_result (w : World) (chainConfig : ChainConfig) :
    ∃ agency, (validatorDispatch w chainConfig).result = .ok agency := by
  rw [validatorDispatch_eq]
  split
  · exact ⟨_, rfl⟩
  · split
    · exact ⟨_, rfl⟩
    · split <;> exact ⟨_, rfl⟩

/-- The consensus calls of the assembly are those of the dispatch, in order,
when the consensus part is entered, and none otherwise. -/
theorem consensusCalls_assemble (w : World) (chainDb snapshotBaseDB : Handle)
    (config : Config) :
    (New.assemble w chainDb snapshotBaseDB config).trace.filter Event.consensusCall =
      if Event.newExecutor ∈ (New.assemble w chainDb snapshotBaseDB config).trace then
        (validatorDispatch w
          (reconcile (w.setupGenesisBlock chainDb snapshotBaseDB config.Genesis).chainConfig
            config)).trace
      else [] := by
  have hversion : ∀ ev ∈ (checkDatabaseVersion w config chainDb).trace,
      ev.consensusCall = false ∧ ev ≠ Event.newExecutor := by
    intro ev hmem
    rcases checkDatabaseVersion_trace w config chainDb _ hmem with h | h <;> rw [h] <;>
      exact ⟨rfl, by simp⟩
  have hrecover : ∀ ev ∈ (recoverSnapshotDB w).trace,
      ev.consensusCall = false ∧ ev ≠ Event.newExecutor := by
    intro ev hmem
    have h := recoverSnapshotDB_trace w ev hmem
    cases ev <;> simp [Event.replayCall] at h <;> simp [Event.consensusCall]
  unfold New.assemble
  simp only [Outcome.bind_eq_andThen, Outcome.pure_eq_ret]
  iterate 18
    refine Outcome.consensusCalls_andThen _ _ _
      (by first | exact hversion | simp [Event.consensusCall]) (fun _ => ?_)
  by_cases hbft : w.engineIsBft = true
  · simp only [hbft, if_true, Outcome.andThen_assoc]
    obtain ⟨agency, hagency⟩ := validatorDispatch_result w
      (reconcile (w.setupGenesisBlock chainDb snapshotBaseDB config.Genesis).chainConfig config)
    have hself := List.filter_eq_self.2 (validatorDispatch_trace w
      (reconcile (w.setupGenesisBlock chainDb snapshotBaseDB config.Genesis).chainConfig config))
    have hrest : ∀ ev ∈ (Outcome.andThen
        ((recoverSnapshotDB w).replaceError (Err.message "Failed to recover SnapshotDB"))
        fun _ => Outcome.andThen
          ((call (Event.engineStart agency) w.engineStart).replaceError
            (Err.message "Failed to init pbft consensus engine"))
          fun _ => Outcome.andThen
            (call (Event.newProtocolManager chainDb w.cacheLimit) w.newProtocolManager)
            fun _ => Outcome.andThen
              (emit (Event.newOracle (match (resolveJournal w config).GPODefault with
                | none => (resolveJournal w config).MinerGasPrice
                | some d => some d)))
              fun _ => ret
                ({ config := resolveJournal w config
                   chainDb := chainDb
                   chainConfig := reconcile
                    (w.setupGenesisBlock chainDb snapshotBaseDB config.Genesis).chainConfig config
                   networkID := (resolveJournal w config).NetworkId
                   gasPrice := (resolveJournal w config).MinerGasPrice } : Ethereum)).trace,
        ev.consensusCall = false := by
      repeat' first
        | apply Outcome.forall_trace_andThen
        | (simp [Event.consensusCall]; done)
        | exact fun ev hev => (hrecover ev hev).1
        | intro _
    rw [Outcome.andThen_of_ok (emit Event.newExecutor) _ () rfl]
    simp only [Outcome.trace_emit]
    rw [Outcome.andThen_of_ok _ _ agency hagency]
    simp only [List.filter_append, hself, List.mem_append, List.mem_singleton, true_or,
      if_true]
    have hexec : Event.consensusCall Event.newExecutor = false := rfl
    simp only [List.filter_cons, hexec, Bool.false_eq_true, if_false, List.filter_nil,
      List.nil_append, List.append_right_eq_self, List.filter_eq_nil_iff]
    intro ev hev
    simp [hrest ev hev]
  · simp only [hbft, Bool.false_eq_true, if_false]
    have hnone : ∀ ev ∈ (Outcome.andThen (ret ()) fun _ => Outcome.andThen
            (call (Event.newProtocolManager chainDb w.cacheLimit) w.newProtocolManager)
            fun _ => Outcome.andThen
              (emit (Event.newOracle (match (resolveJournal w config).GPODefault with
                | none => (resolveJournal w config).MinerGasPrice
                | some d => some d)))
              fun _ => ret
                ({ config := resolveJournal w config
                   chainDb := chainDb
                   chainConfig := reconcile
                    (w.setupGenesisBlock chainDb snapshotBaseDB config.Genesis).chainConfig config
                   networkID := (resolveJournal w config).NetworkId
                   gasPrice := (resolveJournal w config).MinerGasPrice } : Ethereum)).trace,
        ev.consensusCall = false ∧ ev ≠ Event.newExecutor := by
      repeat' first
        | apply Outcome.forall_trace_andThen
        | (simp [Event.consensusCall]; done)
        | intro _
    rw [if_neg (fun hmem => (hnone _ hmem).2 rfl), List.filter_eq_nil_iff]
    intro ev hev
    simp [(hnone ev hev).1]

/-- Under a successful gate, the calls of `New` that are not storage calls are
the calls of the assembly. -/
theorem mem_New_iff_mem_assemble (w : World) (config : Config)
    (chainDb snapshotBaseDB : Handle) (config' : Config)
    (hnew : New w config =
      ⟨[.openChainDb 0, .setDBOptions, .openSnapshotDb 0] ++
          (recoveryGate w (sanitizeGasPrice w config)).trace ++
          (New.assemble w chainDb snapshotBaseDB config').trace,
        (New.assemble w chainDb snapshotBaseDB config').result⟩)
    (ev : Event) (hev : ev.beforeGenesis = false) :
    ev ∈ (New w config).trace ↔ ev ∈ (New.assemble w chainDb snapshotBaseDB config').trace := by
  have hgate : ev ∉ (recoveryGate w (sanitizeGasPrice w config)).trace := by
    intro hmem
    rw [recoveryGate_trace w _ ev hmem] at hev
    cases hev
  rw [hnew]
  simp only [List.mem_append, hgate, or_false]
  constructor
  · rintro (h | h)
    · exfalso
      simp only [List.mem_cons, List.mem_singleton, List.not_mem_nil, or_false] at h
      rcases h with rfl | rfl | rfl <;> simp [Event.beforeGenesis] at hev
    · exact h
  · exact Or.inr

/-- The consensus calls of `New` are those of the dispatch on the chain
configuration the block chain was built with, in order, when the consensus part
is entered, and none otherwise. -/
theorem consensusCalls_New (w : World) (config : Config) (chainDb : Handle)
    (chainConfig : ChainConfig)
    (hchain : Event.newBlockChain chainDb chainConfig ∈ (New w config).trace) :
    (New w config).trace.filter Event.consensusCall =
      if Event.newExecutor ∈ (New w config).trace then (validatorDispatch w chainConfig).trace
      else [] := by
  obtain ⟨db, snapshotBaseDB, config', -, hnew, hmem⟩ :=
    New_of_mem_trace w config (Event.newBlockChain chainDb chainConfig) rfl hchain
  obtain ⟨-, hconfig⟩ := newBlockChain_mem_assemble w db snapshotBaseDB config' _ _ hmem
  have hexec := mem_New_iff_mem_assemble w config db snapshotBaseDB config' hnew
    Event.newExecutor rfl
  have hgate : (recoveryGate w (sanitizeGasPrice w config)).trace.filter
      Event.consensusCall = [] := by
    rw [List.filter_eq_nil_iff]
    intro ev hev
    have h := recoveryGate_trace w _ ev hev
    cases ev <;> simp [Event.beforeGenesis] at h <;> simp [Event.consensusCall]
  have hassemble := consensusCalls_assemble w db snapshotBaseDB config'
  rw [← hconfig] at hassemble
  simp only [hexec]
  rw [← hassemble, hnew]
  simp [List.filter_append, hgate, Event.consensusCall]

/-- The engine's `Start` of `New` gets the agency the dispatch chose. -/
theorem engineStart_agency_New (w : World) (config : Config) (chainDb : Handle)
    (chainConfig : ChainConfig)
    (hchain : Event.newBlockChain chainDb chainConfig ∈ (New w config).trace)
    (agency : Option Agency) (h : Event.engineStart agency ∈ (New w config).trace) :
    (validatorDispatch w chainConfig).result = .ok agency := by
  obtain ⟨db, snapshotBaseDB, config', -, hnew, hmem⟩ :=
    New_of_mem_trace w config (Event.newBlockChain chainDb chainConfig) rfl hchain
  obtain ⟨-, hconfig⟩ := newBlockChain_mem_assemble w db snapshotBaseDB config' _ _ hmem
  rw [hconfig]
  exact engineStart_agency w db snapshotBaseDB config' agency
    ((mem_New_iff_mem_assemble w config db snapshotBaseDB config' hnew
      (Event.engineStart agency) rfl).1 h)

/-- C7. Validator-mode dispatch, for the chain configuration `New` builds the
block chain with, the three mode tags being distinct and non-empty.  Mode empty
or STATIC: the dispatch makes the static agency
over the initial nodes and starts the reactor in STATIC mode.  Mode INNER (the
amount being a `uint32`): it makes the inner agency over the initial nodes with
`blocksPerNode = Amount` and `offset = 2 * Amount` and starts the reactor in
INNER mode.  Mode DPOS: it starts the reactor in DPOS mode, once, and its
agency is the reactor.  The consensus calls of `New` are exactly the calls of
this dispatch once the consensus part is entered (none otherwise), and every
call of the engine's `Start` gets the agency the dispatch chose. -/
theorem validator_mode_dispatch (w : World) (config : Config) (chainDb : Handle)
    (chainConfig : ChainConfig)
    (hchain : Event.newBlockChain chainDb chainConfig ∈ (New w config).trace)
    (hmodes : w.INNER_VALIDATOR_MODE ≠ "" ∧
      w.INNER_VALIDATOR_MODE ≠ w.STATIC_VALIDATOR_MODE ∧ w.DPOS_VALIDATOR_MODE ≠ "" ∧
      w.DPOS_VALIDATOR_MODE ≠ w.STATIC_VALIDATOR_MODE ∧
      w.DPOS_VALIDATOR_MODE ≠ w.INNER_VALIDATOR_MODE) :
    ((chainConfig.Pbft.ValidatorMode = "" ∨
          chainConfig.Pbft.ValidatorMode = w.STATIC_VALIDATOR_MODE) →
        validatorDispatch w chainConfig =
          ⟨[.newStaticAgency chainConfig.Pbft.InitialNodes,
              .reactorStart w.STATIC_VALIDATOR_MODE],
            .ok (some (.static chainConfig.Pbft.InitialNodes))⟩) ∧
      (chainConfig.Pbft.ValidatorMode = w.INNER_VALIDATOR_MODE →
        chainConfig.Pbft.Amount < 2 ^ 32 →
        validatorDispatch w chainConfig =
          ⟨[.newInnerAgency chainConfig.Pbft.InitialNodes chainConfig.Pbft.Amount
                (2 * chainConfig.Pbft.Amount),
              .reactorStart w.INNER_VALIDATOR_MODE],
            .ok (some (.inner chainConfig.Pbft.InitialNodes chainConfig.Pbft.Amount
              (2 * chainConfig.Pbft.Amount)))⟩) ∧
      (chainConfig.Pbft.ValidatorMode = w.DPOS_VALIDATOR_MODE →
        (validatorDispatch w chainConfig).result = .ok (some .reactor) ∧
          ∃ rest, (validatorDispatch w chainConfig).trace =
              .reactorStart w.DPOS_VALIDATOR_MODE :: rest ∧
            ∀ mode, Event.reactorStart mode ∉ rest) ∧
      ((New w config).trace.filter Event.consensusCall =
        if Event.newExecutor ∈ (New w config).trace then (validatorDispatch w chainConfig).trace
        else []) ∧
      (∀ agency, Event.engineStart agency ∈ (New w config).trace →
        (validatorDispatch w chainConfig).result = .ok agency) := by
  obtain ⟨hi1, hi2, hd1, hd2, hd3⟩ := hmodes
  refine ⟨?_, ?_, ?_, consensusCalls_New w config chainDb chainConfig hchain,
    engineStart_agency_New w config chainDb chainConfig hchain⟩
  · intro hmode
    rw [validatorDispatch_eq, if_pos hmode]
  · intro hmode hamount
    obtain ⟨h1, h2⟩ := wrapInt64_of_small chainConfig.Pbft.Amount hamount
    have hstatic : ¬ (chainConfig.Pbft.ValidatorMode = "" ∨
        chainConfig.Pbft.ValidatorMode = w.STATIC_VALIDATOR_MODE) := by
      rw [hmode]
      exact not_or.2 ⟨hi1, hi2⟩
    rw [validatorDispatch_eq, if_neg hstatic, if_pos hmode, h2, h1]
  · intro hmode
    have hstatic : ¬ (chainConfig.Pbft.ValidatorMode = "" ∨
        chainConfig.Pbft.ValidatorMode = w.STATIC_VALIDATOR_MODE) := by
      rw [hmode]
      exact not_or.2 ⟨hd1, hd2⟩
    have hinner : ¬ chainConfig.Pbft.ValidatorMode = w.INNER_VALIDATOR_MODE := by
      rw [hmode]
      exact hd3
    rw [validatorDispatch_eq, if_neg hstatic, if_neg hinner, if_pos hmode]
    exact ⟨rfl, _, rfl, by simp⟩

/-- Witness for C7: the INNER world, where `New` builds the block chain with
amount 10 and makes the inner agency with 10 blocks per node and offset 20. -/
theorem validator_mode_dispatch_witness :
    Event.newBlockChain 0 ⟨304, ⟨3, 10, "inner", [1, 2, 3, 4]⟩⟩ ∈
        (New World.inner Config.sample).trace ∧
      validatorDispatch World.inner ⟨304, ⟨3, 10, "inner", [1, 2, 3, 4]⟩⟩ =
        ⟨[.newInnerAgency [1, 2, 3, 4] 10 20, .reactorStart "inner"],
          .ok (some (.inner [1, 2, 3, 4] 10 20))⟩ :=
  ⟨by decide,
    (validator_mode_dispatch World.inner Config.sample 0 ⟨304, ⟨3, 10, "inner", [1, 2, 3, 4]⟩⟩
      (by decide) (by decide)).2.1 rfl (by decide)⟩

/-- The plugin registrations of a trace are among its consensus calls. -/
theorem registeredPlugins_filter (trace : List Event) :
    registeredPlugins (trace.filter Event.consensusCall) = registeredPlugins trace := by
  unfold registeredPlugins
  rw [List.filterMap_filter]
  congr 1
  funext ev
  cases ev <;> rfl

/-- The begin-rule settings of a trace are among its consensus calls. -/
theorem beginRules_filter (trace : List Event) :
    beginRules (trace.filter Event.consensusCall) = beginRules trace := by
  unfold beginRules
  rw [List.filterMap_filter]
  congr 1
  funext ev
  cases ev <;> rfl

/-- The end-rule settings of a trace are among its consensus calls. -/
theorem endRules_filter (trace : List Event) :
    endRules (trace.filter Event.consensusCall) = endRules trace := by
  unfold endRules
  rw [List.filterMap_filter]
  congr 1
  funext ev
  cases ev <;> rfl

/-- C8. Plugin wiring per mode, for the chain configuration `New` builds the
block chain with, the DPOS tag being non-empty and distinct from the STATIC and
INNER tags.  In DPOS mode, once the consensus part is entered, the
`RegisterPlugin` calls of `New` are exactly Slashing, Staking, Restricting,
Reward, Governance in this order, the begin-rule list is set once, to
[Staking, Slashing, CollectDeclareVersion, Governance], and the end-rule list
is set once, to [CollectDeclareVersion, Restricting, Reward, Governance,
Staking].  In STATIC mode (the empty string included) and in INNER mode `New`
registers no plugin and sets no rule list. -/
theorem plugin_wiring (w : World) (config : Config) (chainDb : Handle)
    (chainConfig : ChainConfig)
    (hchain : Event.newBlockChain chainDb chainConfig ∈ (New w config).trace)
    (hmodes : w.DPOS_VALIDATOR_MODE ≠ "" ∧
      w.DPOS_VALIDATOR_MODE ≠ w.STATIC_VALIDATOR_MODE ∧
      w.DPOS_VALIDATOR_MODE ≠ w.INNER_VALIDATOR_MODE) :
    (chainConfig.Pbft.ValidatorMode = w.DPOS_VALIDATOR_MODE →
        Event.newExecutor ∈ (New w config).trace →
        registeredPlugins (New w config).trace =
            [.SlashingRule, .StakingRule, .RestrictingRule, .RewardRule, .GovernanceRule] ∧
          beginRules (New w config).trace =
            [[.StakingRule, .SlashingRule, .CollectDeclareVersionRule, .GovernanceRule]] ∧
          endRules (New w config).trace =
            [[.CollectDeclareVersionRule, .RestrictingRule, .RewardRule, .GovernanceRule,
              .StakingRule]]) ∧
      ((chainConfig.Pbft.ValidatorMode = "" ∨
          chainConfig.Pbft.ValidatorMode = w.STATIC_VALIDATOR_MODE ∨
          chainConfig.Pbft.ValidatorMode = w.INNER_VALIDATOR_MODE) →
        registeredPlugins (New w config).trace = [] ∧ beginRules (New w config).trace = [] ∧
          endRules (New w config).trace = []) := by
  have hcalls := consensusCalls_New w config chainDb chainConfig hchain
  rw [← registeredPlugins_filter, ← beginRules_filter, ← endRules_filter, hcalls]
  constructor
  · intro hmode hexec
    have hstatic : ¬ (chainConfig.Pbft.ValidatorMode = "" ∨
        chainConfig.Pbft.ValidatorMode = w.STATIC_VALIDATOR_MODE) := by
      rw [hmode]
      exact not_or.2 ⟨hmodes.1, hmodes.2.1⟩
    have hinner : ¬ chainConfig.Pbft.ValidatorMode = w.INNER_VALIDATOR_MODE := by
      rw [hmode]
      exact hmodes.2.2
    rw [if_pos hexec, validatorDispatch_eq, if_neg hstatic, if_neg hinner, if_pos hmode]
    exact ⟨rfl, rfl, rfl⟩
  · intro hmode
    split
    · rw [validatorDispatch_eq]
      by_cases hstatic : chainConfig.Pbft.ValidatorMode = "" ∨
          chainConfig.Pbft.ValidatorMode = w.STATIC_VALIDATOR_MODE
      · rw [if_pos hstatic]
        exact ⟨rfl, rfl, rfl⟩
      · have hinner : chainConfig.Pbft.ValidatorMode = w.INNER_VALIDATOR_MODE := by
          rcases hmode with h | h | h
          · exact absurd (Or.inl h) hstatic
          · exact absurd (Or.inr h) hstatic
          · exact h
        rw [if_neg hstatic, if_pos hinner]
        exact ⟨rfl, rfl, rfl⟩
    · exact ⟨rfl, rfl, rfl⟩

/-- Witness for C8: scenario S4, the DPOS world. -/
theorem plugin_wiring_witness :
    Event.newBlockChain 0 ⟨304, ⟨3, 10, "dpos", [1, 2, 3, 4]⟩⟩ ∈
        (New World.dpos Config.sample).trace ∧
      Event.newExecutor ∈ (New World.dpos Config.sample).trace ∧
      registeredPlugins (New World.dpos Config.sample).trace =
        [.SlashingRule, .StakingRule, .RestrictingRule, .RewardRule, .GovernanceRule] :=
  ⟨by decide, by decide,
    ((plugin_wiring World.dpos Config.sample 0 ⟨304, ⟨3, 10, "dpos", [1, 2, 3, 4]⟩⟩
      (by decide) (by decide)).1 rfl (by decide)).1⟩


/-! ## Gas-floor check -/

@[simp] theorem resolveJournal_MinerGasFloor (w : World) (config : Config) :
    (resolveJournal w config).MinerGasFloor = config.MinerGasFloor := by
  unfold resolveJournal
  split <;> rfl

theorem sanitizeGasPrice_MinerGasFloor (w : World) (config : Config) :
    (sanitizeGasPrice w config).MinerGasFloor = config.MinerGasFloor := by
  unfold sanitizeGasPrice
  split
  · rfl
  · split <;> rfl

/-- Go's `uint64(x)` is exact on a non-negative `int`. -/
theorem toUint64_of_nonneg (x : Int) (h0 : 0 ≤ x) (h1 : x < 2 ^ 63) :
    (toUint64 x : Int) = x := by
  unfold toUint64
  have h2 : x % 2 ^ 64 = x := Int.emod_eq_of_lt h0 (by omega)
  rw [h2]
  exact Int.toNat_of_nonneg h0

/-- The gas-floor check inside the assembly, once the governance query has been
made and has answered. -/
theorem gas_floor_assemble (w : World) (chainDb snapshotBaseDB : Handle) (config : Config)
    (gasCeil : Int)
    (hreach : Event.governMaxBlockGasLimit w.currentBlock.1 w.currentBlock.2 ∈
      (New.assemble w chainDb snapshotBaseDB config).trace)
    (hceil : w.governMaxBlockGasLimit w.currentBlock.1 w.currentBlock.2 = .ok gasCeil) :
    (config.MinerGasFloor > toUint64 gasCeil →
        (New.assemble w chainDb snapshotBaseDB config).result =
            .error (.message (gasFloorMessage config.MinerGasFloor gasCeil)) ∧
          Event.minerNew ∉ (New.assemble w chainDb snapshotBaseDB config).trace) ∧
      (¬ config.MinerGasFloor > toUint64 gasCeil →
        Event.minerNew ∈ (New.assemble w chainDb snapshotBaseDB config).trace) := by
  have hversion : Event.governMaxBlockGasLimit w.currentBlock.1 w.currentBlock.2 ∉
      (checkDatabaseVersion w config chainDb).trace := by
    intro hmem
    rcases checkDatabaseVersion_trace w config chainDb _ hmem with h | h <;> cases h
  have hversion' : Event.minerNew ∉ (checkDatabaseVersion w config chainDb).trace := by
    intro hmem
    rcases checkDatabaseVersion_trace w config chainDb _ hmem with h | h <;> cases h
  have hrecover : Event.governMaxBlockGasLimit w.currentBlock.1 w.currentBlock.2 ∉
      (recoverSnapshotDB w).trace := fun hmem => by
    simpa [Event.replayCall] using recoverSnapshotDB_trace w _ hmem
  have hrecover' : Event.minerNew ∉ (recoverSnapshotDB w).trace := fun hmem => by
    simpa [Event.replayCall] using recoverSnapshotDB_trace w _ hmem
  have hdispatch : Event.governMaxBlockGasLimit w.currentBlock.1 w.currentBlock.2 ∉
      (validatorDispatch w
        (reconcile (w.setupGenesisBlock chainDb snapshotBaseDB config.Genesis).chainConfig
          config)).trace := fun hmem => by
    simpa [Event.consensusCall] using validatorDispatch_trace _ _ _ hmem
  have hdispatch' : Event.minerNew ∉ (validatorDispatch w
        (reconcile (w.setupGenesisBlock chainDb snapshotBaseDB config.Genesis).chainConfig
          config)).trace := fun hmem => by
    simpa [Event.consensusCall] using validatorDispatch_trace _ _ _ hmem
  have hpath : w.closeSnapshotDb snapshotBaseDB = none ∧
      nonCompatError (w.setupGenesisBlock chainDb snapshotBaseDB config.Genesis).genesisErr =
        none ∧
      w.pbftNew = true ∧ (checkDatabaseVersion w config chainDb).result = .ok () ∧
      w.newBlockChain = none ∧
      compatError (w.setupGenesisBlock chainDb snapshotBaseDB config.Genesis).genesisErr =
        none := by
    by_cases hbft : w.engineIsBft = true
    · simp [New.assemble, Outcome.mem_trace_andThen, hversion, hrecover, hdispatch, hbft]
        at hreach
      obtain ⟨h1, h2, h3, ⟨_, h4⟩, h5, h6⟩ := hreach
      exact ⟨h1, h2, h3, h4, h5, h6⟩
    · simp [New.assemble, Outcome.mem_trace_andThen, hversion, hbft] at hreach
      obtain ⟨h1, h2, h3, ⟨_, h4⟩, h5, h6⟩ := hreach
      exact ⟨h1, h2, h3, h4, h5, h6⟩
  obtain ⟨h1, h2, h3, h4, h5, h6⟩ := hpath
  constructor
  · intro hgt
    constructor
    · simp [New.assemble, Outcome.andThen, Outcome.emit, Outcome.call, Outcome.callE,
        Outcome.returnError, Outcome.failWhen, CreateConsensusEngine, h1, h2, h3, h4, h5, h6,
        hceil, hgt]
    · by_cases hbft : w.engineIsBft = true
      · simp [New.assemble, Outcome.mem_trace_andThen, hversion', hrecover', hdispatch', hbft,
          hceil, hgt]
      · simp [New.assemble, Outcome.mem_trace_andThen, hversion', hbft, hceil, hgt]
  · intro hle
    simp [New.assemble, Outcome.mem_trace_andThen, h1, h2, h3, h4, h5, h6, hceil, hle]
    omega


/-- C9. Gas-floor check: once construction has made the governance query at the
current head and the query has answered with a gas ceiling (a non-negative Go
`int`), `New` fails at the check, with the gas-floor error and without going on
to build the miner, if and only if the miner's gas floor exceeds the gas
ceiling; otherwise it goes on to build the miner.  The text of the error holds
the decimal representation of the gas floor and, after it, that of the gas
ceiling. -/
theorem gas_floor_check (w : World) (config : Config) (gasCeil : Int)
    (hreach : Event.governMaxBlockGasLimit w.currentBlock.1 w.currentBlock.2 ∈
      (New w config).trace)
    (hceil : w.governMaxBlockGasLimit w.currentBlock.1 w.currentBlock.2 = .ok gasCeil)
    (hnonneg : 0 ≤ gasCeil) (hrange : gasCeil < 2 ^ 63) :
    (gasCeil < (config.MinerGasFloor : Int) ↔
        (New w config).result =
            .error (.message (gasFloorMessage config.MinerGasFloor gasCeil)) ∧
          Event.minerNew ∉ (New w config).trace) ∧
      (¬ gasCeil < (config.MinerGasFloor : Int) → Event.minerNew ∈ (New w config).trace) ∧
      ∃ pre mid post, gasFloorMessage config.MinerGasFloor gasCeil =
        pre ++ toString config.MinerGasFloor ++ mid ++ toString gasCeil ++ post := by
  obtain ⟨chainDb, snapshotBaseDB, config', hgate, hnew, hmem⟩ :=
    New_of_mem_trace w config
      (Event.governMaxBlockGasLimit w.currentBlock.1 w.currentBlock.2) rfl hreach
  have hfloor : config'.MinerGasFloor = config.MinerGasFloor := by
    have h := (recoveryGate_result w _ _ hgate).2.2
    simp only at h
    rw [h]
    exact sanitizeGasPrice_MinerGasFloor w config
  have hminer := mem_New_iff_mem_assemble w config chainDb snapshotBaseDB config' hnew
    Event.minerNew rfl
  have hresult : (New w config).result =
      (New.assemble w chainDb snapshotBaseDB config').result := by
    rw [hnew]
  obtain ⟨hfail, hpass⟩ := gas_floor_assemble w chainDb snapshotBaseDB config' gasCeil hmem hceil
  rw [hfloor] at hfail hpass
  have hcast := toUint64_of_nonneg gasCeil hnonneg hrange
  have hiff : gasCeil < (config.MinerGasFloor : Int) ↔
      config.MinerGasFloor > toUint64 gasCeil := by
    constructor <;> intro h <;> omega
  refine ⟨⟨?_, ?_⟩, ?_, ⟨_, _, _, rfl⟩⟩
  · intro hgt
    obtain ⟨h1, h2⟩ := hfail (hiff.1 hgt)
    exact ⟨hresult.trans h1, fun h => h2 (hminer.1 h)⟩
  · rintro ⟨-, hnot⟩
    by_contra hle
    exact hnot (hminer.2 (hpass (fun h => hle (hiff.2 h))))
  · intro hle
    exact hminer.2 (hpass (fun h => hle (hiff.2 h)))

/-- Witness for C9: scenario S3, gas floor 40,000,000 over a ceiling of
30,000,000. -/
theorem gas_floor_check_witness :
    World.quiet.governMaxBlockGasLimit 0 11 = .ok 30000000 ∧
      Config.highGasFloor.MinerGasFloor = 40000000 ∧
      (New World.quiet Config.highGasFloor).result =
        .error (.message
          "The gasFloor must be less than gasCeil, got: 40000000, expect range (0, 30000000]") :=
  ⟨rfl, rfl,
    ((gas_floor_check World.quiet Config.highGasFloor 30000000 (by decide) rfl (by decide)
      (by decide)).1.1 (by decide)).1⟩


/-! ## Resource release -/

/-- The three ways through the gate.  Clean start: only reads, handles `0`, `0`
handed on.  Probe failure: the snapshot DB is closed and an error returned.
Recovery: the snapshot DB handle `0` is closed, the only chain DB close is that
of handle `0`, the only snapshot DB open is that of handle `1`, and the gate
either hands on handles `1`, `1` or returns an error, which after a successful
reopen of the snapshot DB can only come from the genesis initialisation. -/
theorem recoveryGate_cases (w : World) (config : Config) :
    ((recoveryGate w config).result = .ok (0, 0, config) ∧
        ∀ ev ∈ (recoveryGate w config).trace,
          ev = .readHeadHeaderNumber 0 ∨ ev = .getBaseDB 0) ∨
      ((∃ e, (recoveryGate w config).result = .error e) ∧
        (recoveryGate w config).trace =
          [.readHeadHeaderNumber 0, .getBaseDB 0, .closeSnapshotDb 0]) ∨
      (heightPositive w.headHeaderNumber = true ∧ (∃ status, w.getBaseDB = .ok status) ∧
        Event.closeSnapshotDb 0 ∈ (recoveryGate w config).trace ∧
        (∀ k, Event.openSnapshotDb k ∈ (recoveryGate w config).trace → k = 1) ∧
        (∀ k, Event.closeChainDb k ∈ (recoveryGate w config).trace → k = 0) ∧
        ((∃ config', (recoveryGate w config).result = .ok (1, 1, config')) ∨
          ((∃ e, (recoveryGate w config).result = .error e) ∧
            (Event.openSnapshotDb 1 ∈ (recoveryGate w config).trace →
              w.openSnapshotDb 1 = none →
              (recoveryGate w config).trace.getLast? = some .initGenesis)))) := by
  by_cases hpos : heightPositive w.headHeaderNumber = true
  swap
  · left
    simp [recoveryGate, hpos, Outcome.andThen, Outcome.emit, Outcome.ret]
  rcases hprobe : w.getBaseDB with err | status
  · by_cases hne : err = Err.errNotFound
    · left
      simp [recoveryGate, hpos, hprobe, hne, Outcome.andThen, Outcome.emit, Outcome.ret]
    · right
      left
      cases hclose : w.closeSnapshotDb 0 <;>
        simp [recoveryGate, hpos, hprobe, hne, hclose, Outcome.andThen, Outcome.emit,
          Outcome.call, Outcome.fail]
  · right
    right
    refine ⟨hpos, ⟨status, rfl⟩, ?_, ?_, ?_, ?_⟩
    · simp [recoveryGate, hpos, hprobe, Outcome.mem_trace_andThen]
    · intro k hk
      by_cases hf : config.DatabaseFreezer = "" <;>
      by_cases hg : w.canonicalHash0 ≠ w.MainnetGenesisHash ∧ config.Genesis = none <;>
      simp [recoveryGate, hpos, hprobe, hf, hg, Outcome.mem_trace_andThen] at hk <;>
      first | exact hk.2.2.2.2.2 | exact hk.2.2.2.2.2.2
    · intro k hk
      by_cases hf : config.DatabaseFreezer = "" <;>
      by_cases hg : w.canonicalHash0 ≠ w.MainnetGenesisHash ∧ config.Genesis = none <;>
      simp [recoveryGate, hpos, hprobe, hf, hg, Outcome.mem_trace_andThen] at hk <;>
      exact hk
    · rcases h1 : w.closeSnapshotDb 0 with _ | e
      rotate_left
      · right
        by_cases hf : config.DatabaseFreezer = "" <;>
        simp [recoveryGate, hpos, hprobe, Outcome.andThen, Outcome.emit, Outcome.call,
        Outcome.callE, Outcome.ret, h1, hf]
      by_cases hf : config.DatabaseFreezer = ""
      · have h7 : True := trivial
        rcases h2 : w.removeAll .chaindata with _ | e
        rotate_left
        · right
          simp [recoveryGate, hpos, hprobe, Outcome.andThen, Outcome.emit, Outcome.call,
        Outcome.callE, Outcome.ret, h1, hf, h7, h2]
        rcases h3 : w.removeAll .wal with _ | e
        rotate_left
        · right
          simp [recoveryGate, hpos, hprobe, Outcome.andThen, Outcome.emit, Outcome.call,
        Outcome.callE, Outcome.ret, h1, hf, h7, h2, h3]
        rcases h4 : w.removeAll .snapshotdb with _ | e
        rotate_left
        · right
          simp [recoveryGate, hpos, hprobe, Outcome.andThen, Outcome.emit, Outcome.call,
        Outcome.callE, Outcome.ret, h1, hf, h7, h2, h3, h4]
        rcases h5 : w.openChainDb 1 with _ | e
        rotate_left
        · right
          simp [recoveryGate, hpos, hprobe, Outcome.andThen, Outcome.emit, Outcome.call,
        Outcome.callE, Outcome.ret, h1, hf, h7, h2, h3, h4, h5]
        rcases h6 : w.openSnapshotDb 1 with _ | e
        rotate_left
        · right
          simp [recoveryGate, hpos, hprobe, Outcome.andThen, Outcome.emit, Outcome.call,
        Outcome.callE, Outcome.ret, h1, hf, h7, h2, h3, h4, h5, h6]
        by_cases hg : w.canonicalHash0 ≠ w.MainnetGenesisHash ∧ config.Genesis = none
        · rcases h8 : w.initGenesis with e | genesis
          · right
            simp [recoveryGate, hpos, hprobe, Outcome.andThen, Outcome.emit, Outcome.call,
        Outcome.callE, Outcome.ret, h1, hf, h7, h2, h3, h4, h5, h6, hg, h8]
          · left
            simp [recoveryGate, hpos, hprobe, Outcome.andThen, Outcome.emit, Outcome.call,
        Outcome.callE, Outcome.ret, h1, hf, h7, h2, h3, h4, h5, h6, hg, h8]
        · left
          simp [recoveryGate, hpos, hprobe, Outcome.andThen, Outcome.emit, Outcome.call,
        Outcome.callE, Outcome.ret, h1, hf, h7, h2, h3, h4, h5, h6, hg]
      · rcases h7 : w.removeAll .freezer with _ | e
        rotate_left
        · right
          simp [recoveryGate, hpos, hprobe, Outcome.andThen, Outcome.emit, Outcome.call,
        Outcome.callE, Outcome.ret, h1, hf, h7]
        rcases h2 : w.removeAll .chaindata with _ | e
        rotate_left
        · right
          simp [recoveryGate, hpos, hprobe, Outcome.andThen, Outcome.emit, Outcome.call,
        Outcome.callE, Outcome.ret, h1, hf, h7, h2]
        rcases h3 : w.removeAll .wal with _ | e
        rotate_left
        · right
          simp [recoveryGate, hpos, hprobe, Outcome.andThen, Outcome.emit, Outcome.call,
        Outcome.callE, Outcome.ret, h1, hf, h7, h2, h3]
        rcases h4 : w.removeAll .snapshotdb with _ | e
        rotate_left
        · right
          simp [recoveryGate, hpos, hprobe, Outcome.andThen, Outcome.emit, Outcome.call,
        Outcome.callE, Outcome.ret, h1, hf, h7, h2, h3, h4]
        rcases h5 : w.openChainDb 1 with _ | e
        rotate_left
        · right
          simp [recoveryGate, hpos, hprobe, Outcome.andThen, Outcome.emit, Outcome.call,
        Outcome.callE, Outcome.ret, h1, hf, h7, h2, h3, h4, h5]
        rcases h6 : w.openSnapshotDb 1 with _ | e
        rotate_left
        · right
          simp [recoveryGate, hpos, hprobe, Outcome.andThen, Outcome.emit, Outcome.call,
        Outcome.callE, Outcome.ret, h1, hf, h7, h2, h3, h4, h5, h6]
        by_cases hg : w.canonicalHash0 ≠ w.MainnetGenesisHash ∧ config.Genesis = none
        · rcases h8 : w.initGenesis with e | genesis
          · right
            simp [recoveryGate, hpos, hprobe, Outcome.andThen, Outcome.emit, Outcome.call,
        Outcome.callE, Outcome.ret, h1, hf, h7, h2, h3, h4, h5, h6, hg, h8]
          · left
            simp [recoveryGate, hpos, hprobe, Outcome.andThen, Outcome.emit, Outcome.call,
        Outcome.callE, Outcome.ret, h1, hf, h7, h2, h3, h4, h5, h6, hg, h8]
        · left
          simp [recoveryGate, hpos, hprobe, Outcome.andThen, Outcome.emit, Outcome.call,
        Outcome.callE, Outcome.ret, h1, hf, h7, h2, h3, h4, h5, h6, hg]


/-- The assembly closes the snapshot DB handle it was given. -/
theorem closeSnapshotDb_mem_assemble (w : World) (chainDb snapshotBaseDB : Handle)
    (config : Config) :
    Event.closeSnapshotDb snapshotBaseDB ∈
      (New.assemble w chainDb snapshotBaseDB config).trace := by
  simp [New.assemble, Outcome.mem_trace_andThen]

/-- The assembly closes no chain DB, opens no snapshot DB and does not
initialise a genesis. -/
theorem assemble_trace_storage (w : World) (chainDb snapshotBaseDB : Handle)
    (config : Config) :
    ∀ ev ∈ (New.assemble w chainDb snapshotBaseDB config).trace,
      (∀ k, ev ≠ .closeChainDb k) ∧ (∀ k, ev ≠ .openSnapshotDb k) ∧ ev ≠ .initGenesis := by
  have hversion : ∀ ev ∈ (checkDatabaseVersion w config chainDb).trace,
      (∀ k, ev ≠ .closeChainDb k) ∧ (∀ k, ev ≠ .openSnapshotDb k) ∧ ev ≠ .initGenesis := by
    intro ev hmem
    rcases checkDatabaseVersion_trace w config chainDb _ hmem with h | h <;> rw [h] <;> simp
  have hrecover : ∀ ev ∈ ((recoverSnapshotDB w).replaceError
      (Err.message "Failed to recover SnapshotDB")).trace,
      (∀ k, ev ≠ .closeChainDb k) ∧ (∀ k, ev ≠ .openSnapshotDb k) ∧ ev ≠ .initGenesis := by
    intro ev hmem
    have h := recoverSnapshotDB_trace w ev hmem
    cases ev <;> simp [Event.replayCall] at h <;> simp
  have hdispatch : ∀ chainConfig, ∀ ev ∈ (validatorDispatch w chainConfig).trace,
      (∀ k, ev ≠ .closeChainDb k) ∧ (∀ k, ev ≠ .openSnapshotDb k) ∧ ev ≠ .initGenesis := by
    intro chainConfig ev hmem
    have h := validatorDispatch_trace w chainConfig ev hmem
    cases ev <;> simp [Event.consensusCall] at h <;> simp
  unfold New.assemble
  simp only [Outcome.bind_eq_andThen, Outcome.pure_eq_ret]
  iterate 18
    refine Outcome.forall_trace_andThen _ _ _
      (by first | exact hversion | simp) (fun _ => ?_)
  by_cases hbft : w.engineIsBft = true
  · simp only [hbft, if_true]
    refine Outcome.forall_trace_andThen _ _ _ ?_ (fun _ => ?_)
    · refine Outcome.forall_trace_andThen _ _ _ (by simp) (fun _ => ?_)
      refine Outcome.forall_trace_andThen _ _ _ (hdispatch _) (fun _ => ?_)
      refine Outcome.forall_trace_andThen _ _ _ hrecover (fun _ => ?_)
      simp
    · refine Outcome.forall_trace_andThen _ _ _ (by simp) (fun _ => ?_)
      refine Outcome.forall_trace_andThen _ _ _ (by simp) (fun _ => ?_)
      simp
  · simp only [hbft, Bool.false_eq_true, if_false]
    refine Outcome.forall_trace_andThen _ _ _ (by simp) (fun _ => ?_)
    refine Outcome.forall_trace_andThen _ _ _ (by simp) (fun _ => ?_)
    refine Outcome.forall_trace_andThen _ _ _ (by simp) (fun _ => ?_)
    simp

/-- The handle genesis setup is called on is the one the assembly was given. -/
theorem setupGenesisBlock_mem_assemble (w : World) (chainDb snapshotBaseDB : Handle)
    (config : Config) (db snap : Handle) (genesis : Option Genesis)
    (h : Event.setupGenesisBlock db snap genesis ∈
      (New.assemble w chainDb snapshotBaseDB config).trace) :
    db = chainDb ∧ snap = snapshotBaseDB := by
  have hversion : Event.setupGenesisBlock db snap genesis ∉
      (checkDatabaseVersion w config chainDb).trace := by
    intro hmem
    rcases checkDatabaseVersion_trace w config chainDb _ hmem with h | h <;> cases h
  have hrecover : Event.setupGenesisBlock db snap genesis ∉ (recoverSnapshotDB w).trace :=
    fun hmem => by simpa [Event.replayCall] using recoverSnapshotDB_trace w _ hmem
  have hdispatch : Event.setupGenesisBlock db snap genesis ∉ (validatorDispatch w
      (reconcile (w.setupGenesisBlock chainDb snapshotBaseDB config.Genesis).chainConfig
        config)).trace := fun hmem => by
    simpa [Event.consensusCall] using validatorDispatch_trace _ _ _ hmem
  by_cases hbft : w.engineIsBft = true
  · simp [New.assemble, Outcome.mem_trace_andThen, hversion, hrecover, hdispatch, hbft] at h
    exact ⟨h.1, h.2.1⟩
  · simp [New.assemble, Outcome.mem_trace_andThen, hversion, hbft] at h
    exact ⟨h.1, h.2.1⟩


/-- The run of `New` when one of the sanity checks or of the two opens fails:
no snapshot DB has been opened with success and nothing has been closed. -/
theorem New_early_exit (w : World) (config : Config)
    (h : config.SyncMode = w.LightSync ∨
      w.syncModeIsValid config.SyncMode = false ∨
      w.openChainDb 0 ≠ none ∨ w.openSnapshotDb 0 ≠ none) :
    ∀ ev ∈ (New w config).trace,
      ev = .openChainDb 0 ∨ ev = .setDBOptions ∨ (ev = .openSnapshotDb 0 ∧
        w.openSnapshotDb 0 ≠ none) := by
  by_cases hlight : config.SyncMode = w.LightSync
  · simp [New, Outcome.andThen, Outcome.failWhen, hlight]
  by_cases hvalid : w.syncModeIsValid config.SyncMode = true
  swap
  · simp [New, Outcome.andThen, Outcome.failWhen, hlight, hvalid]
  rcases hchain : w.openChainDb 0 with _ | e
  swap
  · simp [New, Outcome.andThen, Outcome.failWhen, Outcome.call, hlight, hvalid, hchain]
  rcases hsnap : w.openSnapshotDb 0 with _ | e
  swap
  · simp [New, Outcome.andThen, Outcome.failWhen, Outcome.call, Outcome.emit, hlight, hvalid,
      hchain, hsnap]
  · exfalso
    rcases h with h | h | h | h
    · exact hlight h
    · rw [hvalid] at h
      cases h
    · exact h hchain
    · exact h hsnap

/-- C10, counterexample. When opening the snapshot DB fails after the chain DB
was opened, `New` returns the error right after the failed open; and when the
gas-floor check fails, `New` returns its error with the chain DB opened and
never closed. -/
theorem chain_db_left_open_on_error :
    World.snapshotOpenFails.openChainDb 0 = none ∧
      New World.snapshotOpenFails Config.sample =
        ⟨[.openChainDb 0, .setDBOptions, .openSnapshotDb 0], .error (.external 3)⟩ ∧
      (New World.quiet Config.highGasFloor).result =
        .error (.message
          "The gasFloor must be less than gasCeil, got: 40000000, expect range (0, 30000000]") ∧
      Event.openChainDb 0 ∈ (New World.quiet Config.highGasFloor).trace ∧
      Event.closeChainDb 0 ∉ (New World.quiet Config.highGasFloor).trace :=
  ⟨rfl, by decide, by decide, by decide, by decide⟩

/-- C10, amended. Resource release: on every return of `New`, error returns
included, `Close` has been called on every snapshot DB handle that `New` had
opened with success, unless the run ended in the genesis initialisation that
follows the reopen of the recovery gate.  The chain DB is not released on error
returns: the only chain DB close of `New` is the recovery gate's close of the
handle opened first (head height positive, sentinel found), and the handle that
genesis setup is called on is never closed by `New`. -/
theorem database_release (w : World) (config : Config) :
    (∀ k, Event.openSnapshotDb k ∈ (New w config).trace → w.openSnapshotDb k = none →
        Event.closeSnapshotDb k ∈ (New w config).trace ∨
          (New w config).trace.getLast? = some .initGenesis) ∧
      (∀ k, Event.closeChainDb k ∈ (New w config).trace →
        k = 0 ∧ heightPositive w.headHeaderNumber = true ∧
          ∃ status, w.getBaseDB = .ok status) ∧
      (∀ db snap genesis, Event.setupGenesisBlock db snap genesis ∈ (New w config).trace →
        Event.closeChainDb db ∉ (New w config).trace) := by
  by_cases hearly : config.SyncMode = w.LightSync ∨
      w.syncModeIsValid config.SyncMode = false ∨
      w.openChainDb 0 ≠ none ∨ w.openSnapshotDb 0 ≠ none
  · have hev := New_early_exit w config hearly
    refine ⟨?_, ?_, ?_⟩
    · intro k hk hok
      rcases hev _ hk with h | h | ⟨h, hne⟩
      · cases h
      · cases h
      · cases h
        exact absurd hok hne
    · intro k hk
      rcases hev _ hk with h | h | ⟨h, -⟩ <;> cases h
    · intro db snap genesis hk
      rcases hev _ hk with h | h | ⟨h, -⟩ <;> cases h
  simp only [not_or, not_not, Bool.not_eq_false] at hearly
  obtain ⟨hlight, hvalid, hchain, hsnap⟩ := hearly
  have hopened : ∀ ev ∈ [Event.openChainDb 0, Event.setDBOptions, Event.openSnapshotDb 0],
      ev = .openChainDb 0 ∨ ev = .setDBOptions ∨ ev = .openSnapshotDb 0 := by
    simp
  have hgatekind := recoveryGate_trace w (sanitizeGasPrice w config)
  rcases recoveryGate_cases w (sanitizeGasPrice w config) with
    ⟨hok, hreads⟩ | ⟨⟨e, herr⟩, htrace⟩ |
    ⟨hpos, hstatus, hclose, hopen, hclosechain, ⟨config', hok⟩ | ⟨⟨e, herr⟩, hlast⟩⟩
  · -- clean start
    have hnew := New_eq_of_gate_ok w config hlight hvalid hchain hsnap 0 0 _ hok
    have hasm := assemble_trace_storage w 0 0 (sanitizeGasPrice w config)
    have hnoclose : ∀ k, Event.closeChainDb k ∉ (New w config).trace := by
      intro k hk
      rw [hnew] at hk
      simp only [List.mem_append] at hk
      rcases hk with (hk | hk) | hk
      · rcases hopened _ hk with h | h | h <;> cases h
      · rcases hreads _ hk with h | h <;> cases h
      · exact (hasm _ hk).1 k rfl
    refine ⟨?_, fun k hk => absurd hk (hnoclose k), fun db _ _ _ => hnoclose db⟩
    intro k hk _
    left
    have hk0 : k = 0 := by
      rw [hnew] at hk
      simp only [List.mem_append] at hk
      rcases hk with (hk | hk) | hk
      · rcases hopened _ hk with h | h | h <;> cases h
        rfl
      · rcases hreads _ hk with h | h <;> cases h
      · exact absurd rfl ((hasm _ hk).2.1 k)
    rw [hk0, hnew]
    exact List.mem_append_right _ (closeSnapshotDb_mem_assemble w 0 0 _)
  · -- probe failure
    have hnew : New w config =
        ⟨[.openChainDb 0, .setDBOptions, .openSnapshotDb 0] ++
          [.readHeadHeaderNumber 0, .getBaseDB 0, .closeSnapshotDb 0], .error e⟩ := by
      rw [New_eq_of_opened w config hlight hvalid hchain hsnap,
        Outcome.andThen_of_ok _ _ () rfl, Outcome.andThen_of_error _ _ e herr, htrace]
    rw [hnew]
    refine ⟨?_, ?_, ?_⟩
    · intro k hk _
      left
      simp at hk
      simp [hk]
    · intro k hk
      simp at hk
    · intro db snap genesis hk
      simp at hk
  · -- recovery, the gate hands on handles 1 and 1
    have hnew := New_eq_of_gate_ok w config hlight hvalid hchain hsnap 1 1 _ hok
    have hasm := assemble_trace_storage w 1 1 config'
    have hclosek : ∀ k, Event.closeChainDb k ∈ (New w config).trace → k = 0 := by
      intro k hk
      rw [hnew] at hk
      simp only [List.mem_append] at hk
      rcases hk with (hk | hk) | hk
      · rcases hopened _ hk with h | h | h <;> cases h
      · exact hclosechain k hk
      · exact absurd rfl ((hasm _ hk).1 k)
    refine ⟨?_, fun k hk => ⟨hclosek k hk, hpos, hstatus⟩, ?_⟩
    · intro k hk _
      left
      rw [hnew] at hk ⊢
      simp only [List.mem_append] at hk ⊢
      rcases hk with (hk | hk) | hk
      · rcases hopened _ hk with h | h | h <;> cases h
        exact Or.inl (Or.inr hclose)
      · rw [hopen k hk]
        exact Or.inr (closeSnapshotDb_mem_assemble w 1 1 config')
      · exact absurd rfl ((hasm _ hk).2.1 k)
    · intro db snap genesis hk hclosedb
      have hdb0 := hclosek db hclosedb
      rw [hnew] at hk
      simp only [List.mem_append] at hk
      rcases hk with (hk | hk) | hk
      · rcases hopened _ hk with h | h | h <;> cases h
      · have h := hgatekind _ hk
        simp [Event.beforeGenesis] at h
      · have h := (setupGenesisBlock_mem_assemble w 1 1 config' db snap genesis hk).1
        rw [h] at hdb0
        exact absurd hdb0 (by decide)
  · -- recovery, the gate returns an error
    have hnew : New w config =
        ⟨[.openChainDb 0, .setDBOptions, .openSnapshotDb 0] ++
          (recoveryGate w (sanitizeGasPrice w config)).trace, .error e⟩ := by
      rw [New_eq_of_opened w config hlight hvalid hchain hsnap,
        Outcome.andThen_of_ok _ _ () rfl, Outcome.andThen_of_error _ _ e herr]
    rw [hnew]
    refine ⟨?_, ?_, ?_⟩
    · intro k hk hsucc
      simp only [List.mem_append] at hk ⊢
      rcases hk with hk | hk
      · rcases hopened _ hk with h | h | h <;> cases h
        exact Or.inl (Or.inr hclose)
      · have hk1 := hopen k hk
        subst hk1
        right
        rw [List.getLast?_append, hlast hk hsucc]
        rfl
    · intro k hk
      simp only [List.mem_append] at hk
      rcases hk with hk | hk
      · rcases hopened _ hk with h | h | h <;> cases h
      · exact ⟨hclosechain k hk, hpos, hstatus⟩
    · intro db snap genesis hk
      simp only [List.mem_append] at hk
      rcases hk with hk | hk
      · rcases hopened _ hk with h | h | h <;> cases h
      · have h := hgatekind _ hk
        simp [Event.beforeGenesis] at h


/-- Witness for C10 (amended): recovery followed by a failing gas-floor check;
the reopened snapshot DB handle has been closed. -/
theorem database_release_witness :
    Event.openSnapshotDb 1 ∈ (New World.abortedFastSync Config.highGasFloor).trace ∧
      World.abortedFastSync.openSnapshotDb 1 = none ∧
      (Event.closeSnapshotDb 1 ∈ (New World.abortedFastSync Config.highGasFloor).trace ∨
        (New World.abortedFastSync Config.highGasFloor).trace.getLast? = some .initGenesis) :=
  ⟨by decide, rfl,
    (database_release World.abortedFastSync Config.highGasFloor).1 1 (by decide) rfl⟩

/-! ## Snapshot catch-up -/

/-- On a positive `uint64`, `i-1` does not wrap. -/
theorem uint64_pred (i : Nat) (h1 : 1 ≤ i) (h2 : i < 2 ^ 64) :
    (i + 2 ^ 64 - 1) % 2 ^ 64 = i - 1 := by
  have h : i + 2 ^ 64 - 1 = (i - 1) + 2 ^ 64 := by omega
  rw [h, Nat.add_mod_right]
  exact Nat.mod_eq_of_lt (by omega)

/-- One round of the loop on a block that executes and commits. -/
theorem recoverSnapshotDB_loop_step (w : World) (H fuel i : Nat) (hi : i ≤ H) (h1 : 1 ≤ i)
    (h2 : i + 1 < 2 ^ 64) (he : w.execute i = none) (hc : w.commit i = none) :
    recoverSnapshotDB.loop w H (fuel + 1) i =
      ⟨replayRound i ++ (recoverSnapshotDB.loop w H fuel (i + 1)).trace,
        (recoverSnapshotDB.loop w H fuel (i + 1)).result⟩ := by
  have hs : (i + 1) % 2 ^ 64 = i + 1 := Nat.mod_eq_of_lt h2
  have hp := uint64_pred i h1 (by omega)
  rw [recoverSnapshotDB.loop, if_pos hi, hs, hp]
  simp [Outcome.andThen, Outcome.emit, Outcome.call, he, hc, replayRound]

/-- The loop returns at a block whose `Execute` fails, before committing it. -/
theorem recoverSnapshotDB_loop_execute_fails (w : World) (H fuel i : Nat) (e : Err) (hi : i ≤ H)
    (h1 : 1 ≤ i) (h2 : i < 2 ^ 64) (he : w.execute i = some e) :
    recoverSnapshotDB.loop w H (fuel + 1) i =
      ⟨[.getBlockByNumber i, .getBlockByNumber (i - 1), .execute i (i - 1)], .error e⟩ := by
  have hp := uint64_pred i h1 h2
  rw [recoverSnapshotDB.loop, if_pos hi, hp]
  simp [Outcome.andThen, Outcome.emit, Outcome.call, he]

/-- The loop returns at a block whose commit fails. -/
theorem recoverSnapshotDB_loop_commit_fails (w : World) (H fuel i : Nat) (e : Err) (hi : i ≤ H)
    (h1 : 1 ≤ i) (h2 : i < 2 ^ 64) (he : w.execute i = none) (hc : w.commit i = some e) :
    recoverSnapshotDB.loop w H (fuel + 1) i = ⟨replayRound i, .error e⟩ := by
  have hp := uint64_pred i h1 h2
  rw [recoverSnapshotDB.loop, if_pos hi, hp]
  simp [Outcome.andThen, Outcome.emit, Outcome.call, he, hc, replayRound]

/-- Past the chain head the loop ends. -/
theorem recoverSnapshotDB_loop_done (w : World) (H fuel i : Nat) (hi : H < i) :
    recoverSnapshotDB.loop w H (fuel + 1) i = ⟨[], .ok ()⟩ := by
  rw [recoverSnapshotDB.loop, if_neg (by omega)]
  rfl

theorem replayRounds_succ (i n : Nat) :
    replayRounds i (n + 1) = replayRound i ++ replayRounds (i + 1) n := by
  simp [replayRounds, List.range'_succ]

theorem replayRounds_concat (i n : Nat) :
    replayRounds i (n + 1) = replayRounds i n ++ replayRound (i + n) := by
  simp [replayRounds, List.range'_1_concat]

/-- The loop on `n` blocks that all execute and commit: their rounds, then the
rest of the loop. -/
theorem recoverSnapshotDB_loop_rounds (w : World) (H : Nat) (hH : H + 1 < 2 ^ 64) :
    ∀ (n fuel i : Nat), 1 ≤ i → i + n ≤ H + 1 →
      (∀ k, i ≤ k → k < i + n → w.execute k = none ∧ w.commit k = none) →
      recoverSnapshotDB.loop w H (fuel + n) i =
        ⟨replayRounds i n ++ (recoverSnapshotDB.loop w H fuel (i + n)).trace,
          (recoverSnapshotDB.loop w H fuel (i + n)).result⟩ := by
  intro n
  induction n with
  | zero => intro fuel i _ _ _; simp [replayRounds]
  | succ n ih =>
    intro fuel i h1 hle hok
    have hstep := recoverSnapshotDB_loop_step w H (fuel + n) i (by omega) h1 (by omega)
      (hok i (le_refl _) (by omega)).1 (hok i (le_refl _) (by omega)).2
    have hrest := ih fuel (i + 1) (by omega) (by omega)
      (fun k hk1 hk2 => hok k (by omega) (by omega))
    rw [show fuel + (n + 1) = fuel + n + 1 from rfl, hstep, hrest, replayRounds_succ]
    simp [Nat.add_assoc, Nat.add_comm 1 n]


/-- With the chain head at the largest `uint64` the loop test never fails, so
the loop never completes. -/
theorem recoverSnapshotDB_loop_not_ok (w : World) (H : Nat) (hH : 2 ^ 64 ≤ H + 1) :
    ∀ (fuel i : Nat), i < 2 ^ 64 → (recoverSnapshotDB.loop w H fuel i).result ≠ .ok () := by
  intro fuel
  induction fuel with
  | zero => intro i _ h; simp [recoverSnapshotDB.loop] at h
  | succ fuel ih =>
    intro i hi h
    rw [recoverSnapshotDB.loop, if_pos (by omega)] at h
    simp only [Outcome.result_andThen_ok] at h
    obtain ⟨_, _, _, _, _, _, _, _, h⟩ := h
    exact ih _ (Nat.mod_lt _ (by positivity)) h

theorem snapshotHeadAfter_append (w : World) (head : Nat) (l₁ l₂ : List Event) :
    snapshotHeadAfter w head (l₁ ++ l₂) = snapshotHeadAfter w (snapshotHeadAfter w head l₁) l₂ := by
  simp [snapshotHeadAfter, List.foldl_append]

/-- A loop that completes has advanced the snapshot head to the chain head. -/
theorem recoverSnapshotDB_loop_head (w : World) (H : Nat) (hH : H + 1 < 2 ^ 64) :
    ∀ (fuel i head : Nat), 1 ≤ i → i ≤ H + 1 →
      (recoverSnapshotDB.loop w H fuel i).result = .ok () →
      snapshotHeadAfter w head (recoverSnapshotDB.loop w H fuel i).trace = head + (H + 1 - i) := by
  intro fuel
  induction fuel with
  | zero => intro i head _ _ h; simp [recoverSnapshotDB.loop] at h
  | succ fuel ih =>
    intro i head h1 hle hok
    by_cases hi : i ≤ H
    · rcases he : w.execute i with _ | e
      · rcases hc : w.commit i with _ | e
        · rw [recoverSnapshotDB_loop_step w H fuel i hi h1 (by omega) he hc] at hok ⊢
          simp only at hok
          rw [snapshotHeadAfter_append, ih (i + 1) _ (by omega) (by omega) hok]
          simp [snapshotHeadAfter, replayRound, hc]
          omega
        · rw [recoverSnapshotDB_loop_commit_fails w H fuel i e hi h1 (by omega) he hc] at hok
          simp at hok
      · rw [recoverSnapshotDB_loop_execute_fails w H fuel i e hi h1 (by omega) he] at hok
        simp at hok
    · rw [recoverSnapshotDB_loop_done w H fuel i (by omega)]
      simp [snapshotHeadAfter]
      omega

/-- C11.  Snapshot catch-up replay.  With the chain head `H` below the largest
`uint64` and the snapshot head `ch`: `recoverSnapshotDB` makes no call when
`ch >= H`; when every block of `ch+1..H` executes and commits, its calls are
exactly the rounds of blocks `ch+1, ..., H` in ascending order, each round
fetching block `i` and block `i-1`, executing `i` on parent `i-1` and committing
at `i`; when block `j` is the first whose `Execute` (or commit) fails, it returns
that error after the rounds of `ch+1..j-1` and the calls of round `j` up to the
failing one, and makes no later call. -/
theorem snapshot_replay (w : World) (hH : w.currentHeaderNumber + 1 < 2 ^ 64) :
    (w.currentHeaderNumber ≤ w.snapshotHighest → recoverSnapshotDB w = ⟨[], .ok ()⟩) ∧
    ((∀ i, w.snapshotHighest < i → i ≤ w.currentHeaderNumber →
        w.execute i = none ∧ w.commit i = none) →
      recoverSnapshotDB w =
        ⟨replayRounds (w.snapshotHighest + 1) (w.currentHeaderNumber - w.snapshotHighest),
          .ok ()⟩) ∧
    (∀ j e, w.snapshotHighest < j → j ≤ w.currentHeaderNumber →
      (∀ i, w.snapshotHighest < i → i < j → w.execute i = none ∧ w.commit i = none) →
      w.execute j = some e →
      recoverSnapshotDB w =
        ⟨replayRounds (w.snapshotHighest + 1) (j - 1 - w.snapshotHighest) ++
            [.getBlockByNumber j, .getBlockByNumber (j - 1), .execute j (j - 1)],
          .error e⟩) ∧
    (∀ j e, w.snapshotHighest < j → j ≤ w.currentHeaderNumber →
      (∀ i, w.snapshotHighest < i → i < j → w.execute i = none ∧ w.commit i = none) →
      w.execute j = none → w.commit j = some e →
      recoverSnapshotDB w =
        ⟨replayRounds (w.snapshotHighest + 1) (j - w.snapshotHighest), .error e⟩) := by
  refine ⟨?_, ?_, ?_, ?_⟩
  · intro h
    simp [recoverSnapshotDB, Nat.not_lt.mpr h, Outcome.ret]
  · intro hall
    by_cases h : w.snapshotHighest < w.currentHeaderNumber
    · simp only [recoverSnapshotDB, if_pos h]
      rw [Nat.add_comm (w.currentHeaderNumber - w.snapshotHighest) 1,
        recoverSnapshotDB_loop_rounds w _ hH (w.currentHeaderNumber - w.snapshotHighest) 1
          (w.snapshotHighest + 1) (by omega) (by omega)
          (fun k hk1 hk2 => hall k (by omega) (by omega)),
        recoverSnapshotDB_loop_done w _ 0 _ (by omega)]
      simp
    · simp [recoverSnapshotDB, h, Outcome.ret, replayRounds,
        Nat.sub_eq_zero_of_le (Nat.not_lt.mp h)]
  · intro j e hj1 hj2 hall he
    have h : w.snapshotHighest < w.currentHeaderNumber := by omega
    simp only [recoverSnapshotDB, if_pos h]
    rw [show w.currentHeaderNumber - w.snapshotHighest + 1 =
        (w.currentHeaderNumber - j + 1 + 1) + (j - 1 - w.snapshotHighest) by omega,
      recoverSnapshotDB_loop_rounds w _ hH (j - 1 - w.snapshotHighest) _
        (w.snapshotHighest + 1) (by omega) (by omega)
        (fun k hk1 hk2 => hall k (by omega) (by omega)),
      show w.snapshotHighest + 1 + (j - 1 - w.snapshotHighest) = j by omega,
      recoverSnapshotDB_loop_execute_fails w _ _ j e hj2 (by omega) (by omega) he]
  · intro j e hj1 hj2 hall he hc
    have h : w.snapshotHighest < w.currentHeaderNumber := by omega
    simp only [recoverSnapshotDB, if_pos h]
    rw [show w.currentHeaderNumber - w.snapshotHighest + 1 =
        (w.currentHeaderNumber - j + 1 + 1) + (j - 1 - w.snapshotHighest) by omega,
      recoverSnapshotDB_loop_rounds w _ hH (j - 1 - w.snapshotHighest) _
        (w.snapshotHighest + 1) (by omega) (by omega)
        (fun k hk1 hk2 => hall k (by omega) (by omega)),
      show w.snapshotHighest + 1 + (j - 1 - w.snapshotHighest) = j by omega,
      recoverSnapshotDB_loop_commit_fails w _ _ j e hj2 (by omega) (by omega) he hc]
    simp only
    rw [show j - w.snapshotHighest = (j - 1 - w.snapshotHighest) + 1 by omega,
      replayRounds_concat,
      show w.snapshotHighest + 1 + (j - 1 - w.snapshotHighest) = j by omega]


/-- C11 on the sample: head 97, chain head 100, blocks 98, 99, 100 replayed. -/
theorem snapshot_replay_witness :
    World.behind.currentHeaderNumber + 1 < 2 ^ 64 ∧
    recoverSnapshotDB World.behind =
      ⟨replayRound 98 ++ replayRound 99 ++ replayRound 100, .ok ()⟩ :=
  ⟨by decide, (snapshot_replay World.behind (by decide)).2.1 (fun _ _ _ => ⟨rfl, rfl⟩)⟩

/-- C12, counterexample.  With the snapshot head at 5 and the chain head at 3,
`recoverSnapshotDB` returns without error and the snapshot head is still 5. -/
theorem snapshot_head_above_chain_head :
    (recoverSnapshotDB World.ahead).result = .ok () ∧
    snapshotHeadAfter World.ahead World.ahead.snapshotHighest
      (recoverSnapshotDB World.ahead).trace = 5 ∧
    World.ahead.currentHeaderNumber = 3 := by decide

/-- C12, amended.  When the snapshot head is not above the chain head and
`recoverSnapshotDB` returns without error, the snapshot head afterwards equals
the chain head; when the snapshot head is above the chain head,
`recoverSnapshotDB` returns without error, makes no call and leaves the snapshot
head where it was. -/
theorem snapshot_alignment (w : World) (hH : w.currentHeaderNumber < 2 ^ 64) :
    (w.snapshotHighest ≤ w.currentHeaderNumber →
      (recoverSnapshotDB w).result = .ok () →
      snapshotHeadAfter w w.snapshotHighest (recoverSnapshotDB w).trace =
        w.currentHeaderNumber) ∧
    (w.currentHeaderNumber < w.snapshotHighest →
      recoverSnapshotDB w = ⟨[], .ok ()⟩ ∧
      snapshotHeadAfter w w.snapshotHighest (recoverSnapshotDB w).trace =
        w.snapshotHighest) := by
  constructor
  · intro hle hok
    by_cases h : w.snapshotHighest < w.currentHeaderNumber
    · simp only [recoverSnapshotDB, if_pos h] at hok ⊢
      by_cases hmax : w.currentHeaderNumber + 1 < 2 ^ 64
      · rw [recoverSnapshotDB_loop_head w _ hmax _ _ _ (by omega) (by omega) hok]
        omega
      · exact absurd hok (recoverSnapshotDB_loop_not_ok w _ (by omega) _ _ (by omega))
    · have heq : w.snapshotHighest = w.currentHeaderNumber := by omega
      simp [recoverSnapshotDB, h, Outcome.ret, snapshotHeadAfter, heq]
  · intro h
    have h' : ¬ w.snapshotHighest < w.currentHeaderNumber := by omega
    simp [recoverSnapshotDB, h', Outcome.ret, snapshotHeadAfter]

/-- C12 amended, on the sample: the head moves from 97 to 100. -/
theorem snapshot_alignment_witness :
    World.behind.currentHeaderNumber < 2 ^ 64 ∧
    snapshotHeadAfter World.behind World.behind.snapshotHighest
      (recoverSnapshotDB World.behind).trace = 100 :=
  ⟨by decide, (snapshot_alignment World.behind (by decide)).1 (by decide) (by decide)⟩

/-! ## Database version -/

theorem sanitizeGasPrice_SkipBcVersionCheck (w : World) (config : Config) :
    (sanitizeGasPrice w config).SkipBcVersionCheck = config.SkipBcVersionCheck := by
  unfold sanitizeGasPrice
  split
  · rfl
  · split <;> rfl

/-- When every version write of a trace writes `b` to `chainDb`, the stored
version afterwards is `b` if there was a write and the old one otherwise. -/
theorem storedVersionAfter_eq (chainDb : Handle) (b : Nat) :
    ∀ (trace : List Event) (v : Option Nat),
      (∀ c y, Event.writeDatabaseVersion c y ∈ trace → c = chainDb ∧ y = b) →
      storedVersionAfter chainDb v trace =
        if Event.writeDatabaseVersion chainDb b ∈ trace then some b else v := by
  intro trace
  induction trace with
  | nil => intro v _; rfl
  | cons ev trace ih =>
    intro v h
    have htail : ∀ c y, Event.writeDatabaseVersion c y ∈ trace → c = chainDb ∧ y = b :=
      fun c y hmem => h c y (List.mem_cons_of_mem _ hmem)
    have hstep : storedVersionAfter chainDb v (ev :: trace) =
        storedVersionAfter chainDb (storedVersionStep chainDb v ev) trace := rfl
    rw [hstep, ih _ htail]
    by_cases hw : ev = Event.writeDatabaseVersion chainDb b
    · subst hw
      simp [storedVersionStep]
    · have hne : ∀ c y, ev ≠ Event.writeDatabaseVersion c y := by
        rintro c y rfl
        obtain ⟨rfl, rfl⟩ := h c y (List.mem_cons_self _ _)
        exact hw rfl
      have hmem : Event.writeDatabaseVersion chainDb b ∈ ev :: trace ↔
          Event.writeDatabaseVersion chainDb b ∈ trace := by
        simp [List.mem_cons, Ne.symm (hne chainDb b)]
      simp only [hmem]
      cases ev <;> first | rfl | exact absurd rfl (hne _ _)

/-- The version check inside the assembly, once it has been reached. -/
theorem version_check_assemble (w : World) (chainDb snapshotBaseDB : Handle)
    (config : Config) (c : Handle)
    (hreach : Event.readDatabaseVersion c ∈ (New.assemble w chainDb snapshotBaseDB config).trace) :
    c = chainDb ∧
    (∀ c y, Event.writeDatabaseVersion c y ∈
        (New.assemble w chainDb snapshotBaseDB config).trace →
      Event.writeDatabaseVersion c y ∈ (checkDatabaseVersion w config chainDb).trace) ∧
    (∀ ev ∈ (checkDatabaseVersion w config chainDb).trace,
      ev ∈ (New.assemble w chainDb snapshotBaseDB config).trace) ∧
    (∀ e, (checkDatabaseVersion w config chainDb).result = .error e →
      (New.assemble w chainDb snapshotBaseDB config).result = .error e) := by
  have hrecover : ∀ ev, ev.replayCall = false → ev ∉ (recoverSnapshotDB w).trace :=
    fun ev hev hmem => by
      rw [recoverSnapshotDB_trace w _ hmem] at hev
      cases hev
  have hdispatch : ∀ ev, ev.consensusCall = false → ev ∉ (validatorDispatch w
        (reconcile (w.setupGenesisBlock chainDb snapshotBaseDB config.Genesis).chainConfig
          config)).trace := fun ev hev hmem => by
      rw [validatorDispatch_trace _ _ _ hmem] at hev
      cases hev
  have hr1 := hrecover (Event.readDatabaseVersion c) rfl
  have hd1 := hdispatch (Event.readDatabaseVersion c) rfl
  have hpath : w.closeSnapshotDb snapshotBaseDB = none ∧
      nonCompatError (w.setupGenesisBlock chainDb snapshotBaseDB config.Genesis).genesisErr =
        none ∧
      w.pbftNew = true ∧
      Event.readDatabaseVersion c ∈ (checkDatabaseVersion w config chainDb).trace := by
    by_cases hin : Event.readDatabaseVersion c ∈ (checkDatabaseVersion w config chainDb).trace
    · by_cases hbft : w.engineIsBft = true
      · simp [New.assemble, Outcome.mem_trace_andThen, hin, hr1, hd1, hbft] at hreach
        exact ⟨hreach.1, hreach.2.1, hreach.2.2, hin⟩
      · simp [New.assemble, Outcome.mem_trace_andThen, hin, hbft] at hreach
        exact ⟨hreach.1, hreach.2.1, hreach.2.2, hin⟩
    · by_cases hbft : w.engineIsBft = true
      · simp [New.assemble, Outcome.mem_trace_andThen, hin, hr1, hd1, hbft] at hreach
      · simp [New.assemble, Outcome.mem_trace_andThen, hin, hbft] at hreach
  obtain ⟨h1, h2, h3, hin⟩ := hpath
  refine ⟨?_, ?_, ?_, ?_⟩
  · rcases checkDatabaseVersion_trace w config chainDb _ hin with h | h
    · injection h
    · cases h
  · intro c' y hmem
    have hr2 := hrecover (Event.writeDatabaseVersion c' y) rfl
    have hd2 := hdispatch (Event.writeDatabaseVersion c' y) rfl
    by_cases hbft : w.engineIsBft = true
    · simp [New.assemble, Outcome.mem_trace_andThen, hr2, hd2, hbft] at hmem
      exact hmem.2.2.2
    · simp [New.assemble, Outcome.mem_trace_andThen, hbft] at hmem
      exact hmem.2.2.2
  · intro ev hev
    simp [New.assemble, Outcome.mem_trace_andThen, h1, h2, h3, hev]
  · intro e he
    simp [New.assemble, Outcome.andThen, Outcome.emit, Outcome.call, Outcome.returnError,
      CreateConsensusEngine, h1, h2, h3, he]

/-- C18.  Database version.  Let `v` be the stored version of the chain DB the
version check of `New` reads (absent or a number) and `b` the binary's version,
with the skip flag unset.  When `v > b`, `New` fails with the database-version
error and writes no version.  When `v` is absent or `v < b`, `New` writes `b`
to that database and no other version.  When `v = b`, `New` writes no version.
So a stored version is never followed by a smaller one, and when `v` is not
above `b` the version stored afterwards is `b`. -/
theorem database_version (w : World) (config : Config) (chainDb : Handle)
    (hreach : Event.readDatabaseVersion chainDb ∈ (New w config).trace)
    (hskip : config.SkipBcVersionCheck = false) :
    (∀ x, w.readDatabaseVersion chainDb = some x → w.BlockChainVersion < x →
      (New w config).result = .error (.message (databaseVersionMessage w x)) ∧
      ∀ c y, Event.writeDatabaseVersion c y ∉ (New w config).trace) ∧
    ((w.readDatabaseVersion chainDb = none ∨
        ∃ x, w.readDatabaseVersion chainDb = some x ∧ x < w.BlockChainVersion) →
      Event.writeDatabaseVersion chainDb w.BlockChainVersion ∈ (New w config).trace ∧
      ∀ c y, Event.writeDatabaseVersion c y ∈ (New w config).trace →
        c = chainDb ∧ y = w.BlockChainVersion) ∧
    (w.readDatabaseVersion chainDb = some w.BlockChainVersion →
      ∀ c y, Event.writeDatabaseVersion c y ∉ (New w config).trace) ∧
    (∀ x, w.readDatabaseVersion chainDb = some x →
      ∃ y, storedVersionAfter chainDb (w.readDatabaseVersion chainDb) (New w config).trace =
        some y ∧ x ≤ y) ∧
    ((∀ x, w.readDatabaseVersion chainDb = some x → x ≤ w.BlockChainVersion) →
      storedVersionAfter chainDb (w.readDatabaseVersion chainDb) (New w config).trace =
        some w.BlockChainVersion) := by
  obtain ⟨chainDb', snapshotBaseDB, config', hgate, hnew, hmem⟩ :=
    New_of_mem_trace w config (Event.readDatabaseVersion chainDb) rfl hreach
  obtain ⟨hdb, hfrom, hto, herr⟩ :=
    version_check_assemble w chainDb' snapshotBaseDB config' chainDb hmem
  subst hdb
  have hskip' : config'.SkipBcVersionCheck = false := by
    have h := (recoveryGate_result w _ _ hgate).2.2
    simp only at h
    rw [h]
    exact (sanitizeGasPrice_SkipBcVersionCheck w config).trans hskip
  have hiff : ∀ c y, Event.writeDatabaseVersion c y ∈ (New w config).trace ↔
      Event.writeDatabaseVersion c y ∈ (checkDatabaseVersion w config' chainDb).trace :=
    fun c y =>
      (mem_New_iff_mem_assemble w config chainDb snapshotBaseDB config' hnew
        (Event.writeDatabaseVersion c y) rfl).trans
        ⟨hfrom c y, hto _⟩
  have hresult : (New w config).result =
      (New.assemble w chainDb snapshotBaseDB config').result := by
    rw [hnew]
  have hcheck := checkDatabaseVersion_eq w config' chainDb
  have hall : ∀ c y, Event.writeDatabaseVersion c y ∈ (New w config).trace →
      c = chainDb ∧ y = w.BlockChainVersion := by
    intro c y h
    rcases checkDatabaseVersion_trace w config' chainDb _ ((hiff c y).1 h) with h | h
    · cases h
    · injection h with h1 h2
      exact ⟨h1, h2⟩
  have hnewer : ∀ x, w.readDatabaseVersion chainDb = some x → w.BlockChainVersion < x →
      (New w config).result = .error (.message (databaseVersionMessage w x)) ∧
      ∀ c y, Event.writeDatabaseVersion c y ∉ (New w config).trace := by
    intro x hx hlt
    have hn : versionNewer w (w.readDatabaseVersion chainDb) = true := by
      simp [hx, versionNewer, hlt]
    rw [if_pos ⟨hskip', hn⟩] at hcheck
    constructor
    · rw [hresult]
      apply herr
      rw [hcheck, hx]
      rfl
    · intro c y h
      have h' := (hiff c y).1 h
      rw [hcheck] at h'
      simp at h'
  have holder : (w.readDatabaseVersion chainDb = none ∨
        ∃ x, w.readDatabaseVersion chainDb = some x ∧ x < w.BlockChainVersion) →
      Event.writeDatabaseVersion chainDb w.BlockChainVersion ∈ (New w config).trace := by
    intro hv
    have hn : ¬ (config'.SkipBcVersionCheck = false ∧
        versionNewer w (w.readDatabaseVersion chainDb) = true) := by
      rcases hv with hv | ⟨x, hv, hlt⟩
      · simp [hv, versionNewer]
      · simp [hv, versionNewer]
        omega
    have ho : versionOlder w (w.readDatabaseVersion chainDb) = true := by
      rcases hv with hv | ⟨x, hv, hlt⟩
      · simp [hv, versionOlder]
      · simp [hv, versionOlder, hlt]
    rw [if_neg hn, if_pos ⟨hskip', ho⟩] at hcheck
    apply (hiff _ _).2
    rw [hcheck]
    simp
  have hsame : w.readDatabaseVersion chainDb = some w.BlockChainVersion →
      ∀ c y, Event.writeDatabaseVersion c y ∉ (New w config).trace := by
    intro hv c y h
    have hn : ¬ (config'.SkipBcVersionCheck = false ∧
        versionNewer w (w.readDatabaseVersion chainDb) = true) := by
      simp [hv, versionNewer]
    have ho : ¬ (config'.SkipBcVersionCheck = false ∧
        versionOlder w (w.readDatabaseVersion chainDb) = true) := by
      simp [hv, versionOlder]
    rw [if_neg hn, if_neg ho] at hcheck
    have h' := (hiff c y).1 h
    rw [hcheck] at h'
    simp at h'
  have hstored := storedVersionAfter_eq chainDb w.BlockChainVersion (New w config).trace
    (w.readDatabaseVersion chainDb) hall
  refine ⟨hnewer, fun hv => ⟨holder hv, hall⟩, hsame, ?_, ?_⟩
  · intro x hx
    rw [hstored]
    rcases Nat.lt_trichotomy x w.BlockChainVersion with hlt | heq | hgt
    · rw [if_pos (holder (Or.inr ⟨x, hx, hlt⟩))]
      exact ⟨_, rfl, Nat.le_of_lt hlt⟩
    · rw [if_neg (hsame (by rw [hx, heq]) _ _)]
      exact ⟨x, hx, le_refl _⟩
    · rw [if_neg ((hnewer x hx hgt).2 _ _)]
      exact ⟨x, hx, le_refl _⟩
  · intro hle
    rw [hstored]
    rcases hv : w.readDatabaseVersion chainDb with _ | x
    · rw [if_pos (holder (Or.inl hv))]
    · rcases Nat.lt_or_ge x w.BlockChainVersion with hlt | hge
      · rw [if_pos (holder (Or.inr ⟨x, hv, hlt⟩))]
      · have heq : x = w.BlockChainVersion := Nat.le_antisymm (hle x hv) hge
        rw [if_neg (hsame (by rw [hv, heq]) _ _), heq]

/-- C18 on two samples: a stored version 9 above the binary's 3 makes `New`
fail with the database-version error; a stored version 2 is raised to 3. -/
theorem database_version_witness :
    (New World.incompatibleNewerDb Config.sample).result =
      .error (.message "database version is v9, PhoenixChain 1.0.0 only supports v3") ∧
    storedVersionAfter 0 (some 2) (New World.olderDb Config.sample).trace = some 3 :=
  ⟨((database_version World.incompatibleNewerDb Config.sample 0 (by decide) rfl).1 9 rfl
      (by decide)).1,
    (database_version World.olderDb Config.sample 0 (by decide) rfl).2.2.2.2
      (fun x hx => by cases hx; decide)⟩

/-! ## Lifecycle -/

/-- A Go `int` subtraction that stays in range is exact. -/
theorem wrapInt64_of_range (x : Int) (h0 : -2 ^ 63 ≤ x) (h1 : x < 2 ^ 63) : wrapInt64 x = x := by
  unfold wrapInt64
  norm_num at h0 h1 ⊢
  omega

theorem protocolManagerStarts_append (l₁ l₂ : List Call) :
    protocolManagerStarts (l₁ ++ l₂) = protocolManagerStarts l₁ ++ protocolManagerStarts l₂ := by
  simp [protocolManagerStarts]

theorem consensusPeers_append (l₁ l₂ : List Call) :
    consensusPeers (l₁ ++ l₂) = consensusPeers l₁ ++ consensusPeers l₂ := by
  simp [consensusPeers]

theorem protocolManagerStarts_addConsensusPeers (s : Service) (nodes : List Nat) :
    protocolManagerStarts (addConsensusPeers s nodes) = [] := by
  induction nodes with
  | nil => rfl
  | cons n rest ih =>
    rw [addConsensusPeers, protocolManagerStarts_append, ih]
    cases s.FakeNetEnable <;> rfl

theorem consensusPeers_addConsensusPeers (s : Service) (nodes : List Nat) :
    consensusPeers (addConsensusPeers s nodes) = if s.FakeNetEnable then [] else nodes := by
  induction nodes with
  | nil => cases s.FakeNetEnable <;> rfl
  | cons n rest ih =>
    rw [addConsensusPeers, consensusPeers_append, ih]
    cases s.FakeNetEnable <;> rfl

theorem enablesMining_addConsensusPeers (s : Service) (nodes : List Nat) :
    (addConsensusPeers s nodes).filter Call.enablesMining = [] := by
  induction nodes with
  | nil => rfl
  | cons n rest ih =>
    rw [addConsensusPeers, List.filter_append, ih]
    cases s.FakeNetEnable <;> rfl

/-- The two ways `StartMining` can go. -/
theorem StartMining_eq (s : Service) :
    StartMining s =
      if s.Mining then ⟨[], s, .ok ()⟩
      else
        ⟨[.txPoolSetGasPrice s.eth.gasPrice, .storeAcceptTxs 1, .goMinerStart],
          { s with poolGasPrice := s.eth.gasPrice, acceptTxs := 1 }, .ok ()⟩ := by
  unfold StartMining IsMining
  cases s.Mining <;> rfl

theorem protocolManagerStarts_StartMining (s : Service) :
    protocolManagerStarts (StartMining s).calls = [] := by
  rw [StartMining_eq]
  cases s.Mining <;> rfl

theorem consensusPeers_StartMining (s : Service) :
    consensusPeers (StartMining s).calls = [] := by
  rw [StartMining_eq]
  cases s.Mining <;> rfl

theorem enablesMining_StartMining (s : Service) :
    (StartMining s).calls.filter Call.enablesMining = (StartMining s).calls := by
  rw [StartMining_eq]
  cases s.Mining <;> rfl

/-- The protocol manager is started once by the second half of `Start`. -/
theorem protocolManagerStarts_rest (s : Service) (maxPeers : Int) :
    protocolManagerStarts
      (Start.rest s [Call.startBloomHandlers, Call.newPublicNetAPI s.eth.networkID]
        maxPeers).calls = [maxPeers] := by
  unfold Start.rest
  simp only [protocolManagerStarts_append]
  cases s.engineIsBft <;> cases s.IsConsensusNode <;> cases s.lesServer <;>
    simp [protocolManagerStarts_append, protocolManagerStarts_addConsensusPeers,
      protocolManagerStarts_StartMining] <;> rfl

/-- C13.  Peer budget in `Start`, for peer counts that are non-negative Go
`int`s.  With a light server configured (`LightServ > 0`), `Start` returns an
error if and only if `LightPeers >= MaxPeers`, and then the protocol manager is
not started; otherwise the protocol manager is started, once, with
`MaxPeers - LightPeers`, which is strictly positive.  With no light server
configured `Start` returns no error and the protocol manager is started, once,
with `MaxPeers`. -/
theorem peer_budget (s : Service) (srvr : Server) (hlight : 0 ≤ s.LightPeers)
    (hmax : srvr.MaxPeers < 2 ^ 63) :
    (0 < s.LightServ →
      ((∃ e, (Start s srvr).result = .error e) ↔ srvr.MaxPeers ≤ s.LightPeers) ∧
      (srvr.MaxPeers ≤ s.LightPeers → protocolManagerStarts (Start s srvr).calls = []) ∧
      (s.LightPeers < srvr.MaxPeers →
        protocolManagerStarts (Start s srvr).calls = [srvr.MaxPeers - s.LightPeers] ∧
        0 < srvr.MaxPeers - s.LightPeers)) ∧
    (s.LightServ ≤ 0 →
      (Start s srvr).result = .ok () ∧
      protocolManagerStarts (Start s srvr).calls = [srvr.MaxPeers]) := by
  constructor
  · intro hserv
    have hs : s.LightServ > 0 := hserv
    refine ⟨?_, ?_, ?_⟩
    · constructor
      · rintro ⟨e, he⟩
        by_contra hlt
        have hlt' : ¬ s.LightPeers ≥ srvr.MaxPeers := hlt
        simp only [Start, if_pos hs, if_neg hlt'] at he
        cases he
      · intro hge
        have hge' : s.LightPeers ≥ srvr.MaxPeers := hge
        simp only [Start, if_pos hs, if_pos hge']
        exact ⟨_, rfl⟩
    · intro hge
      have hge' : s.LightPeers ≥ srvr.MaxPeers := hge
      simp only [Start, if_pos hs, if_pos hge']
      rfl
    · intro hlt
      have hlt' : ¬ s.LightPeers ≥ srvr.MaxPeers := by omega
      have hwrap : wrapInt64 (srvr.MaxPeers - s.LightPeers) = srvr.MaxPeers - s.LightPeers :=
        wrapInt64_of_range _ (by omega) (by omega)
      simp only [Start, if_pos hs, if_neg hlt']
      rw [protocolManagerStarts_rest, hwrap]
      exact ⟨rfl, by omega⟩
  · intro hserv
    have hs : ¬ s.LightServ > 0 := by omega
    simp only [Start, if_neg hs]
    exact ⟨rfl, protocolManagerStarts_rest s _⟩

/-- C13 on the samples: 10 light peers out of 50 leave 40 for the protocol
manager. -/
theorem peer_budget_witness :
    protocolManagerStarts (Start Service.light Server.sample).calls = [40] :=
  (((peer_budget Service.light Server.sample (by decide) (by decide)).1 (by decide)).2.2
    (by decide)).1

/-- C14, counterexample.  On a PBFT node that is not a consensus node, `Start`
adds no consensus peer and yet enables mining: it sets the pool's gas price,
sets `acceptTxs` and spawns the miner start. -/
theorem start_enables_mining_on_observer :
    Service.observer.engineIsBft = true ∧ Service.observer.IsConsensusNode = false ∧
    (Start Service.observer Server.sample).calls.filter Call.enablesMining =
      [.txPoolSetGasPrice (some 1), .storeAcceptTxs 1, .goMinerStart] ∧
    consensusPeers (Start Service.observer Server.sample).calls = [] := by
  decide

/-- C14, amended.  When `Start` returns no error: it adds the initial
validators as consensus peers, in order, exactly when the engine is a PBFT
engine, this node is a consensus node and the fake-net switch is off, and adds
no consensus peer otherwise; and it enables mining, by the calls and with the
effect of `StartMining`, exactly when the engine is a PBFT engine, whether or
not this node is a consensus node. -/
theorem mining_policy (s : Service) (srvr : Server)
    (hok : (Start s srvr).result = .ok ()) :
    consensusPeers (Start s srvr).calls =
      (if s.engineIsBft = true ∧ s.IsConsensusNode = true ∧ s.FakeNetEnable = false then
        s.eth.chainConfig.Pbft.InitialNodes
      else []) ∧
    (Start s srvr).calls.filter Call.enablesMining =
      (if s.engineIsBft = true then (StartMining s).calls else []) ∧
    (Start s srvr).service = (if s.engineIsBft = true then (StartMining s).service else s) := by
  have hrest : ∀ maxPeers,
      consensusPeers (Start.rest s [Call.startBloomHandlers,
          Call.newPublicNetAPI s.eth.networkID] maxPeers).calls =
        (if s.engineIsBft = true ∧ s.IsConsensusNode = true ∧ s.FakeNetEnable = false then
          s.eth.chainConfig.Pbft.InitialNodes
        else []) ∧
      (Start.rest s [Call.startBloomHandlers,
          Call.newPublicNetAPI s.eth.networkID] maxPeers).calls.filter Call.enablesMining =
        (if s.engineIsBft = true then (StartMining s).calls else []) ∧
      (Start.rest s [Call.startBloomHandlers,
          Call.newPublicNetAPI s.eth.networkID] maxPeers).service =
        (if s.engineIsBft = true then (StartMining s).service else s) := by
    intro maxPeers
    unfold Start.rest
    cases s.engineIsBft <;> cases s.IsConsensusNode <;> cases s.lesServer <;>
      cases hf : s.FakeNetEnable <;>
      simp only [consensusPeers_append, List.filter_append, consensusPeers_addConsensusPeers,
        consensusPeers_StartMining, enablesMining_addConsensusPeers, enablesMining_StartMining,
        hf, if_true, if_false, Bool.false_eq_true, eq_self_iff_true, true_and, and_true,
        and_false, false_and] <;>
      simp [consensusPeers, Call.enablesMining]
  unfold Start at hok ⊢
  simp only at hok ⊢
  split at hok
  · split at hok
    · cases hok
    · rename_i h1 h2
      rw [if_pos h1, if_neg h2]
      exact hrest _
  · rename_i h1
    rw [if_neg h1]
    exact hrest _

/-- C14 amended, on the sample consensus node: the four initial validators are
added and mining is enabled. -/
theorem mining_policy_witness :
    consensusPeers (Start Service.sample Server.sample).calls = [1, 2, 3, 4] ∧
    (Start Service.sample Server.sample).calls.filter Call.enablesMining =
      [.txPoolSetGasPrice (some 1), .storeAcceptTxs 1, .goMinerStart] :=
  ⟨(mining_policy Service.sample Server.sample (by decide)).1,
    (mining_policy Service.sample Server.sample (by decide)).2.1⟩

/-- C15.  Stop order.  On a service whose bloom-handler shutdown channel has not
been closed yet, whatever the terminators report, `Stop` returns no error and
its calls are, in this order and once each: protocol manager stop, light server
stop (only when a light server is attached), bloom indexer close, close of the
bloom-handler shutdown channel, transaction pool stop, miner stop, block chain
stop, consensus engine close, reactor close, chain DB close, event bus stop. -/
theorem stop_order (s : Service) (reports : Call → Option Err)
    (hopen : s.closeBloomHandlerClosed = false) :
    (Stop s reports).result = .ok () ∧
    (Stop s reports).calls =
      [Call.protocolManagerStop] ++ (if s.lesServer = true then [Call.lesServerStop] else []) ++
        [Call.bloomIndexerClose, Call.closeBloomHandler, Call.txPoolStop, Call.minerStop,
          Call.blockchainStop, Call.engineClose, Call.reactorClose, Call.chainDbClose,
          Call.eventMuxStop] ∧
    (Stop s reports).calls.Nodup := by
  unfold Stop
  simp only [hopen, Bool.false_eq_true, if_false]
  cases s.lesServer <;> simp

/-- C15 on a service with a light server attached, every terminator reporting
an error. -/
theorem stop_order_witness :
    (Stop Service.light (fun _ => some (.message "failed"))).calls =
      [Call.protocolManagerStop, Call.lesServerStop, Call.bloomIndexerClose,
        Call.closeBloomHandler, Call.txPoolStop, Call.minerStop, Call.blockchainStop,
        Call.engineClose, Call.reactorClose, Call.chainDbClose, Call.eventMuxStop] :=
  (stop_order Service.light (fun _ => some (.message "failed")) rfl).2.1

/-- C16.  Mining gating.  `StartMining` returns no error.  Called while the
miner is mining it makes no call and leaves the service as it was.  Called
while the miner is not mining it makes three calls, once each: it sets the
pool's gas price to the service's gas price, stores 1 into `acceptTxs`, and
spawns the miner start; the pool's gas price is then the service's gas price
and `acceptTxs` is 1. -/
theorem mining_gating (s : Service) :
    (StartMining s).result = .ok () ∧
    (IsMining s = true → (StartMining s).calls = [] ∧ (StartMining s).service = s) ∧
    (IsMining s = false →
      (StartMining s).calls =
        [.txPoolSetGasPrice s.eth.gasPrice, .storeAcceptTxs 1, .goMinerStart] ∧
      (StartMining s).service.poolGasPrice = s.eth.gasPrice ∧
      (StartMining s).service.acceptTxs = 1 ∧
      (StartMining s).service = { s with poolGasPrice := s.eth.gasPrice, acceptTxs := 1 }) := by
  unfold StartMining
  cases h : IsMining s <;> simp

/-- C17, counterexample.  No local account is configured and the engine names
the zero address as the author: the comparison with the zero-valued mining
address is true, and `shouldPreserve` is true. -/
theorem should_preserve_zero_author :
    Service.zeroAuthor.eth.config.TxPoolLocals = [] ∧
    Service.zeroAuthor.Author 1 = .ok 0 ∧
    shouldPreserve Service.zeroAuthor 1 = true :=
  ⟨rfl, rfl, rfl⟩

theorem isLocalBlock_loop_eq (author : Address) (locals : List Address) :
    isLocalBlock.loop author locals = true ↔ author ∈ locals := by
  induction locals with
  | nil => simp [isLocalBlock.loop]
  | cons account rest ih =>
    unfold isLocalBlock.loop
    by_cases h : account = author
    · simp [h]
    · simp [h, ih, Ne.symm h]

/-- C17, amended.  For every block, `shouldPreserve` equals `isLocalBlock`; it
is false when the engine cannot retrieve the block's author; and when the
engine names an author it is true if and only if the author is the zero address
(the mining address consulted) or appears in `TxPool.Locals`. -/
theorem should_preserve (s : Service) (block : Block) :
    shouldPreserve s block = isLocalBlock s block ∧
    (∀ e, s.Author block = .error e → shouldPreserve s block = false) ∧
    (∀ author, s.Author block = .ok author →
      (shouldPreserve s block = true ↔ author = 0 ∨ author ∈ s.eth.config.TxPoolLocals)) := by
  refine ⟨rfl, ?_, ?_⟩
  · intro e h
    simp [shouldPreserve, isLocalBlock, h]
  · intro author h
    simp only [shouldPreserve, isLocalBlock, h]
    by_cases h0 : author = 0
    · simp [h0]
    · simp [h0, isLocalBlock_loop_eq]

/-! ## `VerifyTxData` -/

/-- A conversion loop that completes yields one value per parameter type. -/
theorem VerifyTxData_convert_length (c : Codec) :
    ∀ (types : List String) (args : List Bytes) (params : List Value),
      VerifyTxData.convert c types args = .returns params → params.length = types.length := by
  intro types
  induction types with
  | nil =>
    intro args params h
    simp only [VerifyTxData.convert] at h
    cases h
    rfl
  | cons targetType types ih =>
    intro args params h
    cases args with
    | nil => simp [VerifyTxData.convert] at h
    | cons inputByte rest =>
      simp only [VerifyTxData.convert] at h
      split at h
      · cases h
      · split at h
        · cases h
        · split at h
          · cases h
          · rename_i vs hvs
            cases h
            simp [ih rest vs hvs]

/-- What the body returns or panics with decides what `VerifyTxData` returns. -/
theorem VerifyTxData_of_body (c : Codec) (input : Bytes) (command : Nat → Option Command) :
    (∀ r, VerifyTxData.body c input command = .returns r →
      VerifyTxData c input command = .returns r) ∧
    (∀ er, VerifyTxData.body c input command = .panics er →
      VerifyTxData c input command =
        .returns ⟨0, none, none, some (.message ("parse tx data is failed: " ++ er))⟩) := by
  constructor
  · intro r h
    simp [VerifyTxData, h]
  · intro er h
    simp [VerifyTxData, h]

/-- What the body returns: an error with the three zero results, or the map's
entry for the decoded function code with one parameter per remaining
argument. -/
theorem VerifyTxData_body_returns (c : Codec) (input : Bytes) (command : Nat → Option Command)
    (r : Verified) (h : VerifyTxData.body c input command = .returns r) :
    (r.err ≠ none → r.cnCode = 0 ∧ r.fn = none ∧ r.FnParams = none) ∧
    (r.err = none → ∃ first rest fn params,
      c.Decode input = .returns (.ok (first :: rest)) ∧
      c.BytesToUint16 first = .returns r.cnCode ∧
      command r.cnCode = some fn ∧ r.fn = some fn ∧ r.FnParams = some params ∧
      params.length = (first :: rest).length - 1) := by
  unfold VerifyTxData.body at h
  split at h
  · cases h
  · cases h
    simp
  · rename_i args hdecode
    split at h
    · cases h
    · rename_i first rest
      split at h
      · cases h
      · rename_i fnCode hcode
        split at h
        · cases h
          simp [FuncNotExistErr]
        · rename_i fn hfn
          split at h
          · cases h
          · rename_i paramList htypes
            simp only at h
            split at h
            · cases h
              simp [FnParamsLenErr]
            · rename_i hlen
              split at h
              · cases h
              · rename_i params hparams
                cases h
                refine ⟨fun hne => absurd rfl hne, fun _ => ?_⟩
                refine ⟨first, rest, fn, params, hdecode, hcode, hfn, rfl, rfl, ?_⟩
                rw [VerifyTxData_convert_length c _ _ _ hparams]
                simpa using hlen

/-- The body on the four inputs it does not accept. -/
theorem VerifyTxData_body_rejects (c : Codec) (input : Bytes) (command : Nat → Option Command) :
    (c.Decode input = .returns (.ok []) →
      VerifyTxData.body c input command =
        .panics "runtime error: index out of range [0] with length 0") ∧
    (∀ err, c.Decode input = .returns (.error err) →
      VerifyTxData.body c input command =
        .returns ⟨0, none, none, some (.message (DecodeTxDataErr ++ ": " ++ err))⟩) ∧
    (∀ first rest fnCode, c.Decode input = .returns (.ok (first :: rest)) →
      c.BytesToUint16 first = .returns fnCode → command fnCode = none →
      VerifyTxData.body c input command = .returns ⟨0, none, none, some FuncNotExistErr⟩) ∧
    (∀ first rest fnCode fn paramList, c.Decode input = .returns (.ok (first :: rest)) →
      c.BytesToUint16 first = .returns fnCode → command fnCode = some fn →
      fn.paramTypes = some paramList → paramList.length ≠ rest.length →
      VerifyTxData.body c input command = .returns ⟨0, none, none, some FnParamsLenErr⟩) := by
  refine ⟨?_, ?_, ?_, ?_⟩
  · intro h
    simp [VerifyTxData.body, h]
  · intro err h
    simp [VerifyTxData.body, h]
  · intro first rest fnCode h1 h2 h3
    simp [VerifyTxData.body, h1, h2, h3]
  · intro first rest fnCode fn paramList h1 h2 h3 h4 h5
    simp [VerifyTxData.body, h1, h2, h3, h4, h5]

/-- C19.  `VerifyTxData` is total and its error results are uniform.  For every
input and command map it returns, a panic of the body being turned into an
error; so when the decoded argument list is empty, where indexing the first
argument panics.  Whenever it returns an error the other results are function
code 0, no function and no parameters.  The error is the text of
`DecodeTxDataErr` followed by the decoder's error when the input does not
decode as a list of byte strings, `FuncNotExistErr` when the function code
taken from the first argument is not a key of the command map, and
`FnParamsLenErr` when the function's parameter count differs from the number of
remaining arguments.  Whenever it returns no error, the function code is the
one taken from the first argument and a key of the command map, the function
is the map's entry for it, and there is one parameter per remaining
argument. -/
theorem verify_tx_data_total (c : Codec) (input : Bytes) (command : Nat → Option Command) :
    ∃ r, VerifyTxData c input command = .returns r ∧
      (r.err ≠ none → r.cnCode = 0 ∧ r.fn = none ∧ r.FnParams = none) ∧
      (c.Decode input = .returns (.ok []) →
        r.err = some (.message
          "parse tx data is failed: runtime error: index out of range [0] with length 0")) ∧
      (∀ err, c.Decode input = .returns (.error err) →
        r.err = some (.message (DecodeTxDataErr ++ ": " ++ err))) ∧
      (∀ first rest fnCode, c.Decode input = .returns (.ok (first :: rest)) →
        c.BytesToUint16 first = .returns fnCode → command fnCode = none →
        r.err = some FuncNotExistErr) ∧
      (∀ first rest fnCode fn paramList, c.Decode input = .returns (.ok (first :: rest)) →
        c.BytesToUint16 first = .returns fnCode → command fnCode = some fn →
        fn.paramTypes = some paramList → paramList.length ≠ rest.length →
        r.err = some FnParamsLenErr) ∧
      (r.err = none → ∃ first rest fn params,
        c.Decode input = .returns (.ok (first :: rest)) ∧
        c.BytesToUint16 first = .returns r.cnCode ∧
        command r.cnCode = some fn ∧ r.fn = some fn ∧ r.FnParams = some params ∧
        params.length = (first :: rest).length - 1) := by
  obtain ⟨hempty, hdecode, hmissing, hlen⟩ := VerifyTxData_body_rejects c input command
  obtain ⟨hret, hpanic⟩ := VerifyTxData_of_body c input command
  rcases hb : VerifyTxData.body c input command with r | er
  · obtain ⟨huniform, hsuccess⟩ := VerifyTxData_body_returns c input command r hb
    refine ⟨r, hret r hb, huniform, ?_, ?_, ?_, ?_, hsuccess⟩
    · intro h
      rw [hempty h] at hb
      cases hb
    · intro err h
      rw [hdecode err h] at hb
      cases hb
      rfl
    · intro first rest fnCode h1 h2 h3
      rw [hmissing first rest fnCode h1 h2 h3] at hb
      cases hb
      rfl
    · intro first rest fnCode fn paramList h1 h2 h3 h4 h5
      rw [hlen first rest fnCode fn paramList h1 h2 h3 h4 h5] at hb
      cases hb
      rfl
  · refine ⟨_, hpanic er hb, fun _ => ⟨rfl, rfl, rfl⟩, ?_, ?_, ?_, ?_, ?_⟩
    · intro h
      rw [hempty h] at hb
      cases hb
      rfl
    · intro err h
      rw [hdecode err h] at hb
      cases hb
    · intro first rest fnCode h1 h2 h3
      rw [hmissing first rest fnCode h1 h2 h3] at hb
      cases hb
    · intro first rest fnCode fn paramList h1 h2 h3 h4 h5
      rw [hlen first rest fnCode fn paramList h1 h2 h3 h4 h5] at hb
      cases hb
    · intro h
      cases h

/-- The samples: an input carrying function code 7 and one argument is
accepted; the empty argument list ends in the error made from the panic. -/
theorem VerifyTxData_samples :
    VerifyTxData Codec.sample [7, 1] Command.sampleMap =
      .returns ⟨7, some ⟨1, some ["uint64"]⟩, some [1], none⟩ ∧
    VerifyTxData Codec.sample [] Command.sampleMap =
      .returns ⟨0, none, none, some (.message
        "parse tx data is failed: runtime error: index out of range [0] with length 0")⟩ :=
  ⟨rfl, rfl⟩

/-! ## Journal -/

theorem journal_revert_loop_eq {σ : Type} (entries : List (journalEntry σ)) (snapshot : Nat) :
    ∀ (k : Nat) (statedb : σ) (applied : List Nat), snapshot ≤ k → k ≤ entries.length →
      journal.revert.loop entries snapshot k statedb applied =
        ((((entries.take k).drop snapshot).reverse).foldl (fun st e => e.revert st) statedb,
          applied ++ (List.range' snapshot (k - snapshot)).reverse) := by
  intro k
  induction k with
  | zero =>
    intro statedb applied hs _
    simp [journal.revert.loop]
  | succ k ih =>
    intro statedb applied hs hk
    unfold journal.revert.loop
    by_cases hge : k ≥ snapshot
    · have hlt : k < entries.length := by omega
      rw [if_pos hge, List.getElem?_eq_getElem hlt]
      simp only
      rw [ih _ _ hge (by omega)]
      have htake : entries.take (k + 1) = entries.take k ++ [entries[k]] := by
        rw [List.take_succ, List.getElem?_eq_getElem hlt]
        rfl
      have hdrop : (entries.take (k + 1)).drop snapshot =
          (entries.take k).drop snapshot ++ [entries[k]] := by
        rw [htake, List.drop_append_of_le_length]
        simp
        omega
      have hrange : List.range' snapshot (k + 1 - snapshot) =
          List.range' snapshot (k - snapshot) ++ [k] := by
        rw [show k + 1 - snapshot = (k - snapshot) + 1 by omega, List.range'_1_concat]
        congr 2
        omega
      rw [hdrop, hrange]
      simp
    · have heq : snapshot = k + 1 := by omega
      rw [if_neg hge]
      subst heq
      have hnil : (entries.take (k + 1)).drop (k + 1) = [] :=
        List.drop_eq_nil_of_le (by simp)
      simp [hnil]

/-- C20.  Journal revert.  On a journal of `n` entries and a snapshot index
`s` with `s <= n`, `revert` applies the `revert` of the entries `n-1, n-2, ...,
s`, once each and in that descending order, and of no entry below `s`: the
state DB left behind is the result of just these applications.  It leaves the
journal holding its first `s` entries, unchanged, so that `length` is `s`.
`append` raises `length` by one and leaves the earlier entries where they
were. -/
theorem journal_revert_append {σ : Type} (j : journal σ) (statedb : σ) (s : Nat)
    (hs : s ≤ j.length) :
    (∃ r, j.revert statedb s = some r ∧
      r.applied = (List.range' s (j.length - s)).reverse ∧
      r.statedb = ((j.entries.drop s).reverse).foldl (fun st e => e.revert st) statedb ∧
      r.journal.entries = j.entries.take s ∧
      (∀ i, i < s → r.journal.entries[i]? = j.entries[i]?) ∧
      r.journal.length = s) ∧
    (∀ entry, (j.append entry).length = j.length + 1 ∧
      (j.append entry).entries.take j.length = j.entries ∧
      ∀ i, i < j.length → (j.append entry).entries[i]? = j.entries[i]?) := by
  constructor
  · have hs' : s ≤ j.entries.length := hs
    have hloop := journal_revert_loop_eq j.entries s j.entries.length statedb [] hs'
      (le_refl _)
    refine ⟨_, by simp only [journal.revert, if_pos hs']; rfl, ?_, ?_, rfl, ?_, ?_⟩
    · simp only [hloop, journal.length]
      simp
    · simp only [hloop]
      simp
    · intro i hi
      simp [List.getElem?_take, hi]
    · simp [journal.length, hs']
  · intro entry
    refine ⟨by simp [journal.append, journal.length], by simp [journal.append, journal.length],
      ?_⟩
    intro i hi
    have hi' : i < j.entries.length := hi
    simp [journal.append, List.getElem?_append_left hi']

/-- C20 on the sample journal of four entries, reverted to snapshot 1: the
entries 3, 2, 1 are reverted in that order and one entry is left. -/
theorem journal_revert_append_witness :
    ∃ r, journal.sample.revert [] 1 = some r ∧ r.applied = [3, 2, 1] ∧
      r.statedb = [13, 12, 11] ∧ r.journal.length = 1 := by
  obtain ⟨⟨r, h1, h2, h3, _, _, h6⟩, _⟩ :=
    journal_revert_append journal.sample [] 1 (by decide)
  exact ⟨r, h1, h2, h3, h6⟩

end PhoenixChain
